import Mathlib

/-!
Verification of the tic-tac-toe game engine
(`src/components/tic-tac-toe.tsx`).

The board is a JS array of nine cells, each `"X"`, `"O"` or `null`; we
embed it as `List (Option Player)`.  The recursive `minimax` function is
embedded with an explicit fuel parameter (the source recursion always
terminates because each ply fills one cell; every call site passes fuel
`9`, an upper bound on the number of empty cells of any 9-cell board, so
the fuel-exhaustion branch is never taken).  `Math.random()` draws are
modelled as explicit inputs: each `arr[Math.floor(Math.random()*arr.length)]`
pick becomes `arr.getD (r % arr.length) _` for an arbitrary `r : Nat`,
which ranges over exactly the indices the source can draw, and each
`Math.random() < p` test becomes a `Bool` input.
-/

inductive Player where
  | X : Player
  | O : Player
deriving DecidableEq

instance : Fintype Player :=
  ⟨⟨{Player.X, Player.O}, by simp⟩, fun p => by cases p <;> simp⟩

abbrev SquareValue := Option Player

abbrev Board := List SquareValue

open Player

/-- The 8 fixed winning lines, in the source's enumeration order:
3 rows, 3 columns, 2 diagonals. -/
def linesList : List (Nat × Nat × Nat) :=
  [(0, 1, 2), (3, 4, 5), (6, 7, 8),
   (0, 3, 6), (1, 4, 7), (2, 5, 8),
   (0, 4, 8), (2, 4, 6)]

/-- `board[i]` (out-of-range reads give `null`, as in JS). -/
def cellAt (b : Board) (i : Nat) : SquareValue := b.getD i none

/-- The loop of `calculateWinner`: first line whose three cells hold the
same non-null value, paired with that value. -/
def winnerAux (b : Board) : List (Nat × Nat × Nat) → Option (Player × (Nat × Nat × Nat))
  | [] => none
  | (x, y, z) :: rest =>
    match cellAt b x with
    | some p =>
      if cellAt b y = some p ∧ cellAt b z = some p then some (p, (x, y, z))
      else winnerAux b rest
    | none => winnerAux b rest

/-- `calculateWinner` (source lines 361–388). -/
def calculateWinner (b : Board) : Option (Player × (Nat × Nat × Nat)) :=
  winnerAux b linesList

/-- `board.every(cell => cell !== null)`. -/
def isFull (b : Board) : Bool := b.all (fun c => decide (c ≠ none))

/-- The indices of the empty cells, in order: the source's
`board.map((square, i) => square === null ? i : -1).filter(i => i !== -1)`
and the index set scanned by the `for` loops of `minimax`/`makeHardMove`. -/
def emptyIndices (b : Board) : List Nat :=
  (List.range b.length).filter (fun i => decide (cellAt b i = none))

/-- `minimax` (source lines 224–258), with fuel.  `Number.NEGATIVE_INFINITY`
and `Number.POSITIVE_INFINITY` are modelled as `-1000` / `1000`, below and
above every reachable score (scores lie in `[-10, 10]`). -/
def minimax : Nat → Board → Nat → Bool → Int
  | 0, _, _, _ => 0
  | fuel + 1, board, depth, isMaximizing =>
    match calculateWinner board with
    | some (p, _) => if p = O then (10 : Int) - depth else (depth : Int) - 10
    | none =>
      if isFull board then 0
      else if isMaximizing then
        ((emptyIndices board).map
          (fun i => minimax fuel (board.set i (some O)) (depth + 1) false)).foldl
          max (-1000)
      else
        ((emptyIndices board).map
          (fun i => minimax fuel (board.set i (some X)) (depth + 1) true)).foldl
          min 1000

/-- The best-score/best-move loop of `makeHardMove`, folding over the
empty cells in ascending order with a strict `>` update. -/
def hardFold (b : Board) : List Nat → Int × Int → Int × Int
  | [], acc => acc
  | i :: rest, acc =>
    let score := minimax 9 (b.set i (some O)) 0 false
    if score > acc.1 then hardFold b rest (score, i) else hardFold b rest acc

/-- `board.filter(cell => cell === null).length`. -/
def emptyCellsCount (b : Board) : Nat :=
  (b.filter (fun c => decide (c = none))).length

/-- `makeHardMove` (source lines 193–222); `r` is the random draw of the
one random branch. -/
def makeHardMove (board : Board) (r : Nat) : Int :=
  if emptyCellsCount board = 9 then 4
  else if emptyCellsCount board = 8 ∧ cellAt board 4 = some X then
    (([0, 2, 6, 8] : List Int).getD (r % 4) 0)
  else
    (hardFold board (emptyIndices board) (-1000, -1)).2

/-- The loop of `findWinningMove`: first line in which `player` holds two
cells and the third is `null`; returns that empty index, `-1` if none. -/
def findWinAux (b : Board) (p : Player) : List (Nat × Nat × Nat) → Int
  | [] => -1
  | (x, y, z) :: rest =>
    if (cellAt b x = some p ∧ cellAt b y = some p ∧ cellAt b z = none) ∨
       (cellAt b x = some p ∧ cellAt b y = none ∧ cellAt b z = some p) ∨
       (cellAt b x = none ∧ cellAt b y = some p ∧ cellAt b z = some p) then
      if cellAt b x = none then (x : Int)
      else if cellAt b y = none then (y : Int) else (z : Int)
    else findWinAux b p rest

/-- `findWinningMove` (source lines 260–292). -/
def findWinningMove (b : Board) (p : Player) : Int :=
  findWinAux b p linesList

/-- `makeMediumMove` (source lines 158–190); `rc` and `rm` are the random
draws of the corner pick and the any-cell pick. -/
def makeMediumMove (board : Board) (rc rm : Nat) : Int :=
  if findWinningMove board O ≠ -1 then findWinningMove board O
  else if findWinningMove board X ≠ -1 then findWinningMove board X
  else if cellAt board 4 = none then 4
  else
    let availableCorners := [0, 2, 6, 8].filter (fun i => decide (cellAt board i = none))
    if 0 < availableCorners.length then
      ((availableCorners.getD (rc % availableCorners.length) 0 : Nat) : Int)
    else
      let availableMoves := emptyIndices board
      if 0 < availableMoves.length then
        ((availableMoves.getD (rm % availableMoves.length) 0 : Nat) : Int)
      else -1

/-- `makeEasyMove` (source lines 130–155); `b1` is the `Math.random() < 0.3`
draw, `b2` the inner `Math.random() < 0.5` draw, `r` the random-cell draw. -/
def makeEasyMove (board : Board) (b1 b2 : Bool) (r : Nat) : Int :=
  if b1 = true ∧ findWinningMove board O ≠ -1 then findWinningMove board O
  else if b1 = true ∧ b2 = true ∧ findWinningMove board X ≠ -1 then
    findWinningMove board X
  else
    let availableMoves := emptyIndices board
    if 0 < availableMoves.length then
      ((availableMoves.getD (r % availableMoves.length) 0 : Nat) : Int)
    else -1

/-! ## The game session (the `TicTacToe` component's state and transitions)

The component's state (`squares`, `isPlayerTurn`, `gameOver`, `status`,
`difficulty`) is a record; each user-visible transition (a click, the
computer's deferred move, a reset, a difficulty change) is a function on
that record.  React re-renders after every state change and then runs the
status effect (source lines 89–101); we fold that effect into each
transition that changes `squares` or `isPlayerTurn`, which is exactly when
it can change the outcome. -/

inductive Difficulty where
  | easy : Difficulty
  | medium : Difficulty
  | hard : Difficulty
deriving DecidableEq

structure GameState where
  squares : Board
  isPlayerTurn : Bool
  gameOver : Bool
  status : String
  difficulty : Difficulty
deriving DecidableEq

/-- The status effect (source lines 89–101): sets `gameOver` and `status`
from the winner, fullness and turn. -/
def statusEffect (s : GameState) : GameState :=
  match calculateWinner s.squares with
  | some (p, _) =>
    { s with gameOver := true,
             status := if p = X then "You win!" else "Computer wins!" }
  | none =>
    if isFull s.squares then
      { s with gameOver := true, status := "It's a draw!" }
    else
      { s with status :=
          if s.isPlayerTurn then "Your turn (X)" else "Computer's turn (O)..." }

/-- `handleClick` (source lines 66–75), with the status effect of the
following re-render. -/
def handleClick (s : GameState) (i : Nat) : GameState :=
  if s.gameOver ∨ cellAt s.squares i ≠ none ∨ s.isPlayerTurn = false then s
  else
    statusEffect { s with squares := s.squares.set i (some X), isPlayerTurn := false }

/-- The random draws a computer move may consume. -/
structure Draws where
  b1 : Bool
  b2 : Bool
  r : Nat
  rc : Nat
  rm : Nat
  rh : Nat

/-- The strategy dispatch of `makeComputerMove` (source lines 103–127). -/
def strategyMove (d : Difficulty) (b : Board) (w : Draws) : Int :=
  match d with
  | Difficulty.easy => makeEasyMove b w.b1 w.b2 w.r
  | Difficulty.medium => makeMediumMove b w.rc w.rm
  | Difficulty.hard => makeHardMove b w.rh

/-- The computer's deferred move: the timeout of source lines 78–86 fires
only in a render with `!isPlayerTurn && !gameOver`, and then runs
`makeComputerMove` (source lines 103–127) followed by the status effect. -/
def makeComputerMove (s : GameState) (w : Draws) : GameState :=
  if s.isPlayerTurn = true ∨ s.gameOver = true then s
  else
    let move := strategyMove s.difficulty s.squares w
    let squares' := if move ≠ -1 then s.squares.set move.toNat (some O) else s.squares
    statusEffect { s with squares := squares', isPlayerTurn := true }

/-- `resetGame` (source lines 294–299). -/
def resetGame (s : GameState) : GameState :=
  { s with squares := List.replicate 9 none,
           isPlayerTurn := true,
           gameOver := false,
           status := "Your turn (X)" }

/-- `handleDifficultyChange` (source lines 301–304). -/
def handleDifficultyChange (s : GameState) (d : Difficulty) : GameState :=
  resetGame { s with difficulty := d }

/-- The initial state (source lines 56–60). -/
def initialState : GameState :=
  { squares := List.replicate 9 none,
    isPlayerTurn := true,
    gameOver := false,
    status := "Your turn (X)",
    difficulty := Difficulty.medium }

/-- The session states reachable through the component's transitions.  The
view layer only ever clicks cells `0`–`8` (source line 340). -/
inductive Reachable : GameState → Prop where
  | init : Reachable initialState
  | click : ∀ {s} (i : Nat), i < 9 → Reachable s → Reachable (handleClick s i)
  | comp : ∀ {s} (w : Draws), Reachable s → Reachable (makeComputerMove s w)
  | reset : ∀ {s}, Reachable s → Reachable (resetGame s)
  | diff : ∀ {s} (d : Difficulty), Reachable s → Reachable (handleDifficultyChange s d)

/-! ## Basic facts about the board helpers -/

theorem getD_mem_of_lt {α : Type} {l : List α} {n : Nat} {d : α} (h : n < l.length) :
    l.getD n d ∈ l := by
  rw [List.getD_eq_getElem l d h]
  exact List.getElem_mem h

theorem mem_emptyIndices {b : Board} {i : Nat} :
    i ∈ emptyIndices b ↔ i < b.length ∧ cellAt b i = none := by
  simp [emptyIndices, List.mem_filter, List.mem_range]

theorem emptyIndices_length_pos {b : Board} {i : Nat}
    (h1 : i < b.length) (h2 : cellAt b i = none) :
    0 < (emptyIndices b).length := by
  have : i ∈ emptyIndices b := mem_emptyIndices.mpr ⟨h1, h2⟩
  exact List.length_pos.mpr (List.ne_nil_of_mem this)

theorem isFull_iff {b : Board} :
    isFull b = true ↔ ∀ i, i < b.length → cellAt b i ≠ none := by
  unfold isFull
  rw [List.all_eq_true]
  constructor
  · intro h i hi
    have := h (b.getD i none) (getD_mem_of_lt (l := b) (d := none) hi)
    simpa [cellAt] using this
  · intro h c hc
    rcases List.mem_iff_getElem.mp hc with ⟨i, hi, rfl⟩
    have := h i hi
    simp only [cellAt, List.getD_eq_getElem b none hi] at this
    simpa using this

theorem not_isFull_iff {b : Board} :
    ¬ isFull b = true ↔ ∃ i, i < b.length ∧ cellAt b i = none := by
  rw [isFull_iff]
  push_neg
  constructor
  · rintro ⟨i, hi, h⟩; exact ⟨i, hi, h⟩
  · rintro ⟨i, hi, h⟩; exact ⟨i, hi, h⟩

/-! ## Bounds for `foldl max` / `foldl min` -/

theorem foldl_max_le {l : List Int} {a B : Int}
    (ha : a ≤ B) (hl : ∀ x ∈ l, x ≤ B) : l.foldl max a ≤ B := by
  induction l generalizing a with
  | nil => exact ha
  | cons x xs ih =>
    exact ih (max_le ha (hl x (List.mem_cons_self x xs))) fun y hy => hl y (List.mem_cons_of_mem _ hy)

theorem le_foldl_max_init {l : List Int} (a : Int) : a ≤ l.foldl max a := by
  induction l generalizing a with
  | nil => exact le_refl a
  | cons x xs ih => exact le_trans (le_max_left a x) (ih (max a x))

theorem le_foldl_max {l : List Int} {a x : Int} (hx : x ∈ l) : x ≤ l.foldl max a := by
  induction l generalizing a with
  | nil => cases hx
  | cons y ys ih =>
    rcases List.mem_cons.mp hx with rfl | h
    · exact le_trans (le_max_right a x) (le_foldl_max_init (max a x))
    · exact ih h

theorem le_foldl_min {l : List Int} {a B : Int}
    (ha : B ≤ a) (hl : ∀ x ∈ l, B ≤ x) : B ≤ l.foldl min a := by
  induction l generalizing a with
  | nil => exact ha
  | cons x xs ih =>
    exact ih (le_min ha (hl x (List.mem_cons_self x xs))) fun y hy => hl y (List.mem_cons_of_mem _ hy)

theorem foldl_min_le_init {l : List Int} (a : Int) : l.foldl min a ≤ a := by
  induction l generalizing a with
  | nil => exact le_refl a
  | cons x xs ih => exact le_trans (ih (min a x)) (min_le_left a x)

theorem foldl_min_le {l : List Int} {a x : Int} (hx : x ∈ l) : l.foldl min a ≤ x := by
  induction l generalizing a with
  | nil => cases hx
  | cons y ys ih =>
    rcases List.mem_cons.mp hx with rfl | h
    · exact le_trans (foldl_min_le_init (min a x)) (min_le_right a x)
    · exact ih h

/-! ## Counting occupied cells -/

def occupiedCount (b : Board) : Nat := b.countP (fun c => decide (c ≠ none))

theorem emptyCellsCount_add_occupied (b : Board) :
    emptyCellsCount b + occupiedCount b = b.length := by
  induction b with
  | nil => rfl
  | cons c rest ih =>
    simp only [emptyCellsCount, occupiedCount, List.filter_cons, List.countP_cons,
      List.length_cons] at *
    cases c with
    | none => simp only [decide_True, decide_False, ne_eq, decide_not] at *; simp at *; omega
    | some p => simp only [ne_eq, decide_not] at *; simp at *; omega

theorem occupied_one {b : Board} {i : Nat} (hi : i < b.length)
    (hc : cellAt b i ≠ none) : 1 ≤ occupiedCount b := by
  induction b generalizing i with
  | nil => simp at hi
  | cons c rest ih =>
    cases i with
    | zero =>
      simp only [cellAt, List.getD_cons_zero] at hc
      simp [occupiedCount, List.countP_cons, hc]
    | succ j =>
      have hj : j < rest.length := by
        simp only [List.length_cons] at hi; omega
      have : 1 ≤ occupiedCount rest := ih hj (by simpa [cellAt] using hc)
      simp only [occupiedCount, List.countP_cons] at *
      omega

theorem occupied_two {b : Board} {i j : Nat} (hij : i < j) (hj : j < b.length)
    (hi' : cellAt b i ≠ none) (hj' : cellAt b j ≠ none) : 2 ≤ occupiedCount b := by
  induction b generalizing i j with
  | nil => simp at hj
  | cons c rest ih =>
    cases i with
    | zero =>
      cases j with
      | zero => omega
      | succ k =>
        have hk : k < rest.length := by
          simp only [List.length_cons] at hj; omega
        have h1 : 1 ≤ occupiedCount rest :=
          occupied_one hk (by simpa [cellAt] using hj')
        simp only [cellAt, List.getD_cons_zero] at hi'
        have hc : (decide (c ≠ none)) = true := by simpa using hi'
        simp only [occupiedCount, List.countP_cons, hc, if_pos] at *
        omega
    | succ i' =>
      cases j with
      | zero => omega
      | succ k =>
        have hk : k < rest.length := by
          simp only [List.length_cons] at hj; omega
        have : 2 ≤ occupiedCount rest :=
          ih (show i' < k by omega) hk (by simpa [cellAt] using hi')
            (by simpa [cellAt] using hj')
        simp only [occupiedCount, List.countP_cons] at *
        omega

/-! ## Reading and writing cells -/

theorem cellAt_set_self {b : Board} {i : Nat} {v : SquareValue} (h : i < b.length) :
    cellAt (b.set i v) i = v := by
  unfold cellAt
  rw [List.getD_eq_getElem _ _ (by simpa using h)]
  simp [List.getElem_set_self]

theorem cellAt_set_ne {b : Board} {i j : Nat} {v : SquareValue} (h : i ≠ j) :
    cellAt (b.set i v) j = cellAt b j := by
  simp [cellAt, List.getD, List.getElem?_set_ne h]

theorem length_set {b : Board} {i : Nat} {v : SquareValue} :
    (b.set i v).length = b.length := List.length_set b i v

/-! ## Lines and the winning-move set -/

def lineCompleteFor (b : Board) (t : Nat × Nat × Nat) (p : Player) : Prop :=
  cellAt b t.1 = some p ∧ cellAt b t.2.1 = some p ∧ cellAt b t.2.2 = some p

def lineComplete (b : Board) (t : Nat × Nat × Nat) : Prop :=
  ∃ p, lineCompleteFor b t p

instance (b : Board) (t : Nat × Nat × Nat) (p : Player) :
    Decidable (lineCompleteFor b t p) := by unfold lineCompleteFor; infer_instance

instance (b : Board) (t : Nat × Nat × Nat) : Decidable (lineComplete b t) := by
  unfold lineComplete; infer_instance

/-- `w` is a winning move for `p`: an empty cell whose filling with `p`'s
marker completes one of the 8 lines. -/
def completesLine (b : Board) (p : Player) (w : Nat) : Prop :=
  cellAt b w = none ∧ ∃ t ∈ linesList, lineCompleteFor (b.set w (some p)) t p

instance (b : Board) (p : Player) (w : Nat) : Decidable (completesLine b p w) := by
  unfold completesLine; infer_instance

/-- The two-marks-and-a-gap pattern `findWinningMove` scans for, at cell `w`
of line `t`. -/
def twoOfThree (b : Board) (t : Nat × Nat × Nat) (w : Nat) (p : Player) : Prop :=
  (w = t.1 ∧ cellAt b t.2.1 = some p ∧ cellAt b t.2.2 = some p) ∨
  (w = t.2.1 ∧ cellAt b t.1 = some p ∧ cellAt b t.2.2 = some p) ∨
  (w = t.2.2 ∧ cellAt b t.1 = some p ∧ cellAt b t.2.1 = some p)

theorem linesList_lt_nine :
    ∀ t ∈ linesList, t.1 < 9 ∧ t.2.1 < 9 ∧ t.2.2 < 9 ∧
      t.1 ≠ t.2.1 ∧ t.1 ≠ t.2.2 ∧ t.2.1 ≠ t.2.2 := by decide

theorem completesLine_of_two {b : Board} {t : Nat × Nat × Nat} {w : Nat} {p : Player}
    (hb : b.length = 9) (hw : cellAt b w = none) (ht : t ∈ linesList)
    (h2 : twoOfThree b t w p) : completesLine b p w := by
  obtain ⟨hx, hy, hz, hxy, hxz, hyz⟩ := linesList_lt_nine t ht
  refine ⟨hw, t, ht, ?_⟩
  rcases h2 with ⟨rfl, h1, h2⟩ | ⟨rfl, h1, h2⟩ | ⟨rfl, h1, h2⟩
  · exact ⟨cellAt_set_self (by omega), by rw [cellAt_set_ne hxy]; exact h1,
      by rw [cellAt_set_ne hxz]; exact h2⟩
  · exact ⟨by rw [cellAt_set_ne fun h => hxy h.symm]; exact h1,
      cellAt_set_self (by omega), by rw [cellAt_set_ne hyz]; exact h2⟩
  · exact ⟨by rw [cellAt_set_ne fun h => hxz h.symm]; exact h1,
      by rw [cellAt_set_ne fun h => hyz h.symm]; exact h2,
      cellAt_set_self (by omega)⟩

theorem two_of_completesLine {b : Board} {w : Nat} {p : Player}
    (hnw : ∀ t ∈ linesList, ¬ lineComplete b t)
    (h : completesLine b p w) :
    cellAt b w = none ∧ ∃ t ∈ linesList, twoOfThree b t w p := by
  obtain ⟨hw, t, ht, hc⟩ := h
  refine ⟨hw, t, ht, ?_⟩
  obtain ⟨hx, hy, hz, hxy, hxz, hyz⟩ := linesList_lt_nine t ht
  obtain ⟨c1, c2, c3⟩ := hc
  by_cases e1 : w = t.1
  · subst e1
    rw [cellAt_set_ne hxy] at c2
    rw [cellAt_set_ne hxz] at c3
    exact Or.inl ⟨rfl, c2, c3⟩
  · rw [cellAt_set_ne e1] at c1
    by_cases e2 : w = t.2.1
    · subst e2
      rw [cellAt_set_ne hyz] at c3
      exact Or.inr (Or.inl ⟨rfl, c1, c3⟩)
    · rw [cellAt_set_ne e2] at c2
      by_cases e3 : w = t.2.2
      · subst e3
        exact Or.inr (Or.inr ⟨rfl, c1, c2⟩)
      · rw [cellAt_set_ne e3] at c3
        exact absurd ⟨p, c1, c2, c3⟩ (hnw t ht)

/-! ## Characterizing `calculateWinner` -/

theorem winnerAux_eq_none_iff {b : Board} {ls : List (Nat × Nat × Nat)} :
    winnerAux b ls = none ↔ ∀ t ∈ ls, ¬ lineComplete b t := by
  induction ls with
  | nil => simp [winnerAux]
  | cons t rest ih =>
    obtain ⟨x, y, z⟩ := t
    simp only [winnerAux]
    cases hx : cellAt b x with
    | none =>
      rw [ih]
      constructor
      · intro h u hu
        rcases List.mem_cons.mp hu with rfl | hu'
        · rintro ⟨p, c1, c2, c3⟩
          rw [hx] at c1; cases c1
        · exact h u hu'
      · intro h u hu
        exact h u (List.mem_cons_of_mem _ hu)
    | some p =>
      by_cases hyz : cellAt b y = some p ∧ cellAt b z = some p
      · simp only [if_pos hyz]
        constructor
        · intro h; cases h
        · intro h
          exact absurd ⟨p, hx, hyz.1, hyz.2⟩ (h (x, y, z) (List.mem_cons_self _ _))
      · simp only [if_neg hyz]
        rw [ih]
        constructor
        · intro h u hu
          rcases List.mem_cons.mp hu with rfl | hu'
          · rintro ⟨q, c1, c2, c3⟩
            rw [hx] at c1
            cases c1
            exact hyz ⟨c2, c3⟩
          · exact h u hu'
        · intro h u hu
          exact h u (List.mem_cons_of_mem _ hu)

theorem winnerAux_eq_some_iff {b : Board} {ls : List (Nat × Nat × Nat)}
    {p : Player} {t : Nat × Nat × Nat} :
    winnerAux b ls = some (p, t) ↔
      ∃ l1 l2, ls = l1 ++ t :: l2 ∧ lineCompleteFor b t p ∧
        ∀ u ∈ l1, ¬ lineComplete b u := by
  induction ls with
  | nil =>
    simp only [winnerAux]
    constructor
    · intro h; cases h
    · rintro ⟨l1, l2, h, -⟩
      exact absurd h (List.append_ne_nil_of_right_ne_nil l1 (List.cons_ne_nil t l2)).symm
  | cons u rest ih =>
    obtain ⟨x, y, z⟩ := u
    simp only [winnerAux]
    cases hx : cellAt b x with
    | none =>
      rw [ih]
      constructor
      · rintro ⟨l1, l2, rfl, hc, hnone⟩
        refine ⟨(x, y, z) :: l1, l2, rfl, hc, ?_⟩
        intro u hu
        rcases List.mem_cons.mp hu with rfl | hu'
        · rintro ⟨q, c1, c2, c3⟩
          rw [hx] at c1; cases c1
        · exact hnone u hu'
      · rintro ⟨l1, l2, hsplit, hc, hnone⟩
        cases l1 with
        | nil =>
          simp only [List.nil_append] at hsplit
          cases hsplit
          obtain ⟨c1, c2, c3⟩ := hc
          rw [hx] at c1; cases c1
        | cons v l1' =>
          simp only [List.cons_append, List.cons.injEq] at hsplit
          obtain ⟨rfl, rfl⟩ := hsplit
          exact ⟨l1', l2, rfl, hc, fun w hw => hnone w (List.mem_cons_of_mem _ hw)⟩
    | some q =>
      by_cases hyz : cellAt b y = some q ∧ cellAt b z = some q
      · simp only [if_pos hyz]
        constructor
        · intro h
          cases h
          exact ⟨[], rest, rfl, ⟨hx, hyz.1, hyz.2⟩, by simp⟩
        · rintro ⟨l1, l2, hsplit, hc, hnone⟩
          cases l1 with
          | nil =>
            simp only [List.nil_append] at hsplit
            cases hsplit
            obtain ⟨c1, c2, c3⟩ := hc
            rw [hx] at c1
            cases c1
            rfl
          | cons v l1' =>
            simp only [List.cons_append, List.cons.injEq] at hsplit
            obtain ⟨rfl, rfl⟩ := hsplit
            exact absurd (⟨q, hx, hyz.1, hyz.2⟩ : lineComplete b (x, y, z))
              (hnone (x, y, z) (List.mem_cons_self _ _))
      · simp only [if_neg hyz]
        rw [ih]
        constructor
        · rintro ⟨l1, l2, rfl, hc, hnone⟩
          refine ⟨(x, y, z) :: l1, l2, rfl, hc, ?_⟩
          intro w hw
          rcases List.mem_cons.mp hw with rfl | hw'
          · rintro ⟨q', c1, c2, c3⟩
            rw [hx] at c1
            cases c1
            exact hyz ⟨c2, c3⟩
          · exact hnone w hw'
        · rintro ⟨l1, l2, hsplit, hc, hnone⟩
          cases l1 with
          | nil =>
            simp only [List.nil_append] at hsplit
            cases hsplit
            obtain ⟨c1, c2, c3⟩ := hc
            rw [hx] at c1
            cases c1
            exact absurd ⟨c2, c3⟩ hyz
          | cons v l1' =>
            simp only [List.cons_append, List.cons.injEq] at hsplit
            obtain ⟨rfl, rfl⟩ := hsplit
            exact ⟨l1', l2, rfl, hc, fun w hw => hnone w (List.mem_cons_of_mem _ hw)⟩

theorem calculateWinner_eq_none_iff {b : Board} :
    calculateWinner b = none ↔ ∀ t ∈ linesList, ¬ lineComplete b t :=
  winnerAux_eq_none_iff

theorem calculateWinner_eq_some_iff {b : Board} {p : Player} {t : Nat × Nat × Nat} :
    calculateWinner b = some (p, t) ↔
      ∃ l1 l2, linesList = l1 ++ t :: l2 ∧ lineCompleteFor b t p ∧
        ∀ u ∈ l1, ¬ lineComplete b u :=
  winnerAux_eq_some_iff

/-! ## Characterizing `findWinningMove` -/

theorem findWinAux_cases {b : Board} {p : Player} :
    ∀ (ls : List (Nat × Nat × Nat)),
      findWinAux b p ls = -1 ∨
      ∃ w : Nat, findWinAux b p ls = (w : Int) ∧ cellAt b w = none ∧
        ∃ t ∈ ls, twoOfThree b t w p := by
  intro ls
  induction ls with
  | nil => exact Or.inl rfl
  | cons u rest ih =>
    obtain ⟨x, y, z⟩ := u
    by_cases hC :
        (cellAt b x = some p ∧ cellAt b y = some p ∧ cellAt b z = none) ∨
        (cellAt b x = some p ∧ cellAt b y = none ∧ cellAt b z = some p) ∨
        (cellAt b x = none ∧ cellAt b y = some p ∧ cellAt b z = some p)
    · refine Or.inr ?_
      by_cases hx : cellAt b x = none
      · refine ⟨x, ?_, hx, (x, y, z), List.mem_cons_self _ _, ?_⟩
        · simp only [findWinAux, if_pos hC, if_pos hx]
        · rcases hC with ⟨c1, -⟩ | ⟨c1, -⟩ | ⟨-, c2, c3⟩
          · rw [hx] at c1; cases c1
          · rw [hx] at c1; cases c1
          · exact Or.inl ⟨rfl, c2, c3⟩
      · by_cases hy : cellAt b y = none
        · refine ⟨y, ?_, hy, (x, y, z), List.mem_cons_self _ _, ?_⟩
          · simp only [findWinAux, if_pos hC, if_neg hx, if_pos hy]
          · rcases hC with ⟨-, c2, -⟩ | ⟨c1, -, c3⟩ | ⟨c1, -⟩
            · rw [hy] at c2; cases c2
            · exact Or.inr (Or.inl ⟨rfl, c1, c3⟩)
            · exact absurd c1 hx
        · refine ⟨z, ?_, ?_, (x, y, z), List.mem_cons_self _ _, ?_⟩
          · simp only [findWinAux, if_pos hC, if_neg hx, if_neg hy]
          · rcases hC with ⟨-, -, c3⟩ | ⟨-, c2, -⟩ | ⟨c1, -⟩
            · exact c3
            · exact absurd c2 hy
            · exact absurd c1 hx
          · rcases hC with ⟨c1, c2, -⟩ | ⟨-, c2, -⟩ | ⟨c1, -⟩
            · exact Or.inr (Or.inr ⟨rfl, c1, c2⟩)
            · exact absurd c2 hy
            · exact absurd c1 hx
    · have hrec : findWinAux b p ((x, y, z) :: rest) = findWinAux b p rest := by
        simp only [findWinAux, if_neg hC]
      rw [hrec]
      rcases ih with h | ⟨w, hw, hc, t, ht, h2⟩
      · exact Or.inl h
      · exact Or.inr ⟨w, hw, hc, t, List.mem_cons_of_mem _ ht, h2⟩

theorem findWinAux_ne_neg_one {b : Board} {p : Player}
    {ls : List (Nat × Nat × Nat)} {t : Nat × Nat × Nat} {w : Nat}
    (ht : t ∈ ls) (h2 : twoOfThree b t w p) (hw : cellAt b w = none) :
    findWinAux b p ls ≠ -1 := by
  induction ls with
  | nil => cases ht
  | cons u rest ih =>
    obtain ⟨x, y, z⟩ := u
    by_cases hC :
        (cellAt b x = some p ∧ cellAt b y = some p ∧ cellAt b z = none) ∨
        (cellAt b x = some p ∧ cellAt b y = none ∧ cellAt b z = some p) ∨
        (cellAt b x = none ∧ cellAt b y = some p ∧ cellAt b z = some p)
    · simp only [findWinAux, if_pos hC]
      by_cases hx : cellAt b x = none
      · simp only [if_pos hx]; omega
      · by_cases hy : cellAt b y = none
        · simp only [if_neg hx, if_pos hy]; omega
        · simp only [if_neg hx, if_neg hy]; omega
    · have hrec : findWinAux b p ((x, y, z) :: rest) = findWinAux b p rest := by
        simp only [findWinAux, if_neg hC]
      rw [hrec]
      rcases List.mem_cons.mp ht with rfl | ht'
      · exfalso
        apply hC
        rcases h2 with ⟨rfl, c1, c2⟩ | ⟨rfl, c1, c2⟩ | ⟨rfl, c1, c2⟩
        · exact Or.inr (Or.inr ⟨hw, c1, c2⟩)
        · exact Or.inr (Or.inl ⟨c1, hw, c2⟩)
        · exact Or.inl ⟨c1, c2, hw⟩
      · exact ih ht'

theorem findWinningMove_cases {b : Board} {p : Player} :
    findWinningMove b p = -1 ∨
    ∃ w : Nat, findWinningMove b p = (w : Int) ∧ cellAt b w = none ∧
      ∃ t ∈ linesList, twoOfThree b t w p :=
  findWinAux_cases linesList

theorem findWinningMove_ne_neg_one {b : Board} {p : Player} {t : Nat × Nat × Nat}
    {w : Nat} (ht : t ∈ linesList) (h2 : twoOfThree b t w p)
    (hw : cellAt b w = none) : findWinningMove b p ≠ -1 :=
  findWinAux_ne_neg_one ht h2 hw

/-! ## The outcome evaluator -/

inductive Outcome where
  | InProgress : Outcome
  | Won : Player → (Nat × Nat × Nat) → Outcome
  | Draw : Outcome
deriving DecidableEq

/-- The spec's `evaluate`: `calculateWinner` combined with the full-board
test, exactly as the status effect (source lines 89–101) reads them. -/
def evaluate (b : Board) : Outcome :=
  match calculateWinner b with
  | some (p, t) => Outcome.Won p t
  | none => if isFull b then Outcome.Draw else Outcome.InProgress

theorem evaluate_eq_won_iff {b : Board} {p : Player} {t : Nat × Nat × Nat} :
    evaluate b = Outcome.Won p t ↔ calculateWinner b = some (p, t) := by
  unfold evaluate
  cases hw : calculateWinner b with
  | some q =>
    obtain ⟨q, u⟩ := q
    constructor
    · intro h
      cases h
      rfl
    · intro h
      cases h
      rfl
  | none =>
    constructor
    · intro h
      by_cases hf : isFull b <;> simp [hf] at h
    · intro h
      cases h

/-- C4: `evaluate` returns `Won p t` exactly when `t` is complete for `p` and
is the first complete line in the fixed enumeration order; it returns `Draw`
exactly when no line is complete and no cell is empty; and `InProgress`
exactly when no line is complete and some cell is empty. -/
theorem evaluate_characterization (b : Board) :
    (∀ p t, evaluate b = Outcome.Won p t ↔
        lineCompleteFor b t p ∧
        ∃ l1 l2, linesList = l1 ++ t :: l2 ∧ ∀ u ∈ l1, ¬ lineComplete b u) ∧
    (evaluate b = Outcome.Draw ↔
        (∀ t ∈ linesList, ¬ lineComplete b t) ∧
        ∀ i, i < b.length → cellAt b i ≠ none) ∧
    (evaluate b = Outcome.InProgress ↔
        (∀ t ∈ linesList, ¬ lineComplete b t) ∧
        ∃ i, i < b.length ∧ cellAt b i = none) := by
  refine ⟨?_, ?_, ?_⟩
  · intro p t
    rw [evaluate_eq_won_iff, calculateWinner_eq_some_iff]
    constructor
    · rintro ⟨l1, l2, hs, hc, hn⟩
      exact ⟨hc, l1, l2, hs, hn⟩
    · rintro ⟨hc, l1, l2, hs, hn⟩
      exact ⟨l1, l2, hs, hc, hn⟩
  · unfold evaluate
    cases hw : calculateWinner b with
    | some q =>
      obtain ⟨q, u⟩ := q
      rw [calculateWinner_eq_some_iff] at hw
      obtain ⟨l1, l2, hs, hc, -⟩ := hw
      constructor
      · intro h; cases h
      · rintro ⟨hn, -⟩
        exact absurd ⟨q, hc⟩ (hn u (hs ▸ List.mem_append_right l1 (List.mem_cons_self _ _)))
    | none =>
      have hn := calculateWinner_eq_none_iff.mp hw
      by_cases hf : isFull b = true
      · simp only [if_pos hf]
        exact ⟨fun _ => ⟨hn, isFull_iff.mp hf⟩, fun _ => trivial⟩
      · simp only [if_neg hf]
        constructor
        · intro h; cases h
        · rintro ⟨-, hfull⟩
          exact absurd (isFull_iff.mpr hfull) hf
  · unfold evaluate
    cases hw : calculateWinner b with
    | some q =>
      obtain ⟨q, u⟩ := q
      rw [calculateWinner_eq_some_iff] at hw
      obtain ⟨l1, l2, hs, hc, -⟩ := hw
      constructor
      · intro h; cases h
      · rintro ⟨hn, -⟩
        exact absurd ⟨q, hc⟩ (hn u (hs ▸ List.mem_append_right l1 (List.mem_cons_self _ _)))
    | none =>
      have hn := calculateWinner_eq_none_iff.mp hw
      by_cases hf : isFull b = true
      · simp only [if_pos hf]
        constructor
        · intro h; cases h
        · rintro ⟨-, i, hi, hc⟩
          exact absurd hc (isFull_iff.mp hf i hi)
      · simp only [if_neg hf]
        refine ⟨fun _ => ⟨hn, ?_⟩, fun _ => trivial⟩
        rcases not_isFull_iff.mp hf with ⟨i, hi, hc⟩
        exact ⟨i, hi, hc⟩

/-! ## Counting empty cells -/

theorem length_filter_range_eq_countP {α : Type} (d : α) (q : α → Bool) :
    ∀ (l : List α),
      ((List.range l.length).filter (fun i => q (l.getD i d))).length = l.countP q := by
  intro l
  induction l with
  | nil => rfl
  | cons c rest ih =>
    have hr : List.range (rest.length + 1) = 0 :: (List.range rest.length).map (· + 1) :=
      List.range_succ_eq_map rest.length
    simp only [List.length_cons, hr, List.filter_cons, List.countP_cons]
    have hm : ((List.range rest.length).map (· + 1)).filter
        (fun i => q ((c :: rest).getD i d)) =
        ((List.range rest.length).filter (fun i => q (rest.getD i d))).map (· + 1) := by
      rw [List.filter_map]
      rfl
    cases hq : q c with
    | true =>
      simp only [List.getD_cons_zero, hq, if_pos, List.length_cons, hm,
        List.length_map, ih]
    | false =>
      simp only [List.getD_cons_zero, hq, Bool.false_eq_true, if_false, hm,
        List.length_map, ih]
      omega

theorem emptyCellsCount_eq_length_emptyIndices (b : Board) :
    emptyCellsCount b = (emptyIndices b).length := by
  rw [emptyCellsCount, emptyIndices, ← List.countP_eq_length_filter]
  have := length_filter_range_eq_countP (none : SquareValue)
    (fun c => decide (c = none)) b
  simp only [cellAt] at *
  omega

theorem emptyCellsCount_zero_iff {b : Board} :
    emptyCellsCount b = 0 ↔ isFull b = true := by
  unfold emptyCellsCount isFull
  rw [← List.countP_eq_length_filter, List.countP_eq_zero, List.all_eq_true]
  constructor
  · intro h c hc
    have := h c hc
    simpa using this
  · intro h c hc
    have := h c hc
    simpa using this

theorem emptyCellsCount_le_length (b : Board) : emptyCellsCount b ≤ b.length := by
  rw [emptyCellsCount, ← List.countP_eq_length_filter]
  exact List.countP_le_length _

theorem emptyCellsCount_set {b : Board} {i : Nat} {p : Player}
    (hi : i < b.length) (hc : cellAt b i = none) :
    emptyCellsCount (b.set i (some p)) + 1 = emptyCellsCount b := by
  induction b generalizing i with
  | nil => simp at hi
  | cons c rest ih =>
    cases i with
    | zero =>
      simp only [cellAt, List.getD_cons_zero] at hc
      subst hc
      simp [emptyCellsCount, List.filter_cons]
    | succ j =>
      have hj : j < rest.length := by
        simp only [List.length_cons] at hi; omega
      have := ih hj (by simpa [cellAt] using hc)
      simp only [List.set_cons_succ, emptyCellsCount, List.filter_cons] at *
      cases hq : decide (c = none) <;> simp [hq] at * <;> omega

/-! ## Bounds on `minimax` scores -/

theorem minimax_bounds :
    ∀ (fuel : Nat) (b : Board) (d : Nat) (m : Bool),
      emptyCellsCount b ≤ fuel → d + emptyCellsCount b ≤ 9 →
      (d : Int) - 10 ≤ minimax fuel b d m ∧ minimax fuel b d m ≤ 10 - d := by
  intro fuel
  induction fuel with
  | zero =>
    intro b d m hf hd
    simp only [minimax]
    omega
  | succ fuel ih =>
    intro b d m hf hd
    have hd9 : d ≤ 9 := by omega
    simp only [minimax]
    cases hw : calculateWinner b with
    | some q =>
      obtain ⟨q, u⟩ := q
      by_cases hq : q = O <;> simp only [hq, if_pos, if_neg, reduceCtorEq] <;> constructor <;> omega
    | none =>
      by_cases hfull : isFull b = true
      · simp only [if_pos hfull]
        omega
      · simp only [if_neg hfull]
        have hne : emptyIndices b ≠ [] := by
          rcases not_isFull_iff.mp hfull with ⟨i, hi, hc⟩
          exact List.ne_nil_of_mem (mem_emptyIndices.mpr ⟨hi, hc⟩)
        have hepos : 0 < emptyCellsCount b := by
          rw [emptyCellsCount_eq_length_emptyIndices]
          exact List.length_pos.mpr hne
        obtain ⟨j, hj⟩ := List.exists_mem_of_ne_nil _ hne
        obtain ⟨hjl, hjc⟩ := mem_emptyIndices.mp hj
        have hset : ∀ p : Player,
            emptyCellsCount (b.set j (some p)) + 1 = emptyCellsCount b :=
          fun p => emptyCellsCount_set hjl hjc
        cases m with
        | true =>
          rw [if_pos rfl]
          constructor
          · have hineq := ih (b.set j (some O)) (d + 1) false
              (by have := hset O; omega) (by have := hset O; omega)
            have hmem : minimax fuel (b.set j (some O)) (d + 1) false ∈
                (emptyIndices b).map
                  (fun i => minimax fuel (b.set i (some O)) (d + 1) false) :=
              List.mem_map_of_mem _ hj
            have := le_foldl_max (a := (-1000 : Int)) hmem
            push_cast at *
            omega
          · apply foldl_max_le (by omega)
            intro x hx
            rcases List.mem_map.mp hx with ⟨i, hi, rfl⟩
            obtain ⟨hil, hic⟩ := mem_emptyIndices.mp hi
            have hs := emptyCellsCount_set (p := O) hil hic
            have hineq := ih (b.set i (some O)) (d + 1) false (by omega) (by omega)
            push_cast at *
            omega
        | false =>
          rw [if_neg (by simp)]
          constructor
          · apply le_foldl_min (by omega)
            intro x hx
            rcases List.mem_map.mp hx with ⟨i, hi, rfl⟩
            obtain ⟨hil, hic⟩ := mem_emptyIndices.mp hi
            have hs := emptyCellsCount_set (p := X) hil hic
            have hineq := ih (b.set i (some X)) (d + 1) true (by omega) (by omega)
            push_cast at *
            omega
          · have hineq := ih (b.set j (some X)) (d + 1) true
              (by have := hset X; omega) (by have := hset X; omega)
            have hmem : minimax fuel (b.set j (some X)) (d + 1) true ∈
                (emptyIndices b).map
                  (fun i => minimax fuel (b.set i (some X)) (d + 1) true) :=
              List.mem_map_of_mem _ hj
            have := foldl_min_le (a := (1000 : Int)) hmem
            push_cast at *
            omega

/-! ## The argmax loop of `makeHardMove` -/

theorem hardFold_fst_ge (b : Board) :
    ∀ (l : List Nat) (acc : Int × Int), acc.1 ≤ (hardFold b l acc).1 := by
  intro l
  induction l with
  | nil => intro acc; exact le_refl _
  | cons i rest ih =>
    intro acc
    simp only [hardFold]
    by_cases h : minimax 9 (b.set i (some O)) 0 false > acc.1
    · rw [if_pos h]
      exact le_trans (le_of_lt h) (ih _)
    · rw [if_neg h]
      exact ih _

theorem hardFold_ge_mem (b : Board) :
    ∀ (l : List Nat) (acc : Int × Int) (j : Nat), j ∈ l →
      minimax 9 (b.set j (some O)) 0 false ≤ (hardFold b l acc).1 := by
  intro l
  induction l with
  | nil => intro acc j hj; cases hj
  | cons i rest ih =>
    intro acc j hj
    simp only [hardFold]
    by_cases h : minimax 9 (b.set i (some O)) 0 false > acc.1
    · rw [if_pos h]
      rcases List.mem_cons.mp hj with rfl | hj'
      · exact le_trans (le_refl _) (hardFold_fst_ge b rest _)
      · exact ih _ j hj'
    · rw [if_neg h]
      rcases List.mem_cons.mp hj with rfl | hj'
      · exact le_trans (not_lt.mp h) (hardFold_fst_ge b rest _)
      · exact ih _ j hj'

theorem hardFold_spec (b : Board) :
    ∀ (l : List Nat) (acc : Int × Int),
      hardFold b l acc = acc ∨
      ∃ j ∈ l, (hardFold b l acc).1 = minimax 9 (b.set j (some O)) 0 false ∧
        (hardFold b l acc).2 = j := by
  intro l
  induction l with
  | nil => intro acc; exact Or.inl rfl
  | cons i rest ih =>
    intro acc
    simp only [hardFold]
    by_cases h : minimax 9 (b.set i (some O)) 0 false > acc.1
    · rw [if_pos h]
      rcases ih (minimax 9 (b.set i (some O)) 0 false, i) with heq | ⟨j, hj, h1, h2⟩
      · rw [heq]
        exact Or.inr ⟨i, List.mem_cons_self _ _, rfl, rfl⟩
      · exact Or.inr ⟨j, List.mem_cons_of_mem _ hj, h1, h2⟩
    · rw [if_neg h]
      rcases ih acc with heq | ⟨j, hj, h1, h2⟩
      · exact Or.inl heq
      · exact Or.inr ⟨j, List.mem_cons_of_mem _ hj, h1, h2⟩

/-! ## Validity of the three strategies (C6) -/

/-- `v` is the index of an empty cell of the 9-cell board `b`. -/
def validMove (b : Board) (v : Int) : Prop :=
  ∃ i : Nat, v = (i : Int) ∧ i < 9 ∧ cellAt b i = none

theorem validMove_ne_neg_one {b : Board} {v : Int} (h : validMove b v) : v ≠ -1 := by
  obtain ⟨i, rfl, -, -⟩ := h
  omega

theorem findWinningMove_valid {b : Board} {p : Player}
    (h : findWinningMove b p ≠ -1) : validMove b (findWinningMove b p) := by
  rcases findWinningMove_cases (b := b) (p := p) with h' | ⟨w, hw, hc, t, ht, h2⟩
  · exact absurd h' h
  · refine ⟨w, hw, ?_, hc⟩
    obtain ⟨hx, hy, hz, -⟩ := linesList_lt_nine t ht
    rcases h2 with ⟨rfl, -⟩ | ⟨rfl, -⟩ | ⟨rfl, -⟩ <;> omega

theorem fallback_valid {b : Board} (hb : b.length = 9)
    (hpos : 0 < (emptyIndices b).length) (r : Nat) :
    validMove b (((emptyIndices b).getD (r % (emptyIndices b).length) 0 : Nat) : Int) := by
  have hmem : (emptyIndices b).getD (r % (emptyIndices b).length) 0 ∈ emptyIndices b :=
    getD_mem_of_lt (Nat.mod_lt r hpos)
  obtain ⟨hl, hc⟩ := mem_emptyIndices.mp hmem
  exact ⟨_, rfl, by omega, hc⟩

theorem findWinningMove_of_full {b : Board} {p : Player}
    (hf : isFull b = true) (hb : b.length = 9) : findWinningMove b p = -1 := by
  by_contra h
  obtain ⟨i, -, hi, hc⟩ := findWinningMove_valid h
  exact isFull_iff.mp hf i (by omega) hc

theorem makeEasyMove_valid {b : Board} (hb : b.length = 9) (b1 b2 : Bool) (r : Nat) :
    (isFull b = true → makeEasyMove b b1 b2 r = -1) ∧
    (isFull b = false → validMove b (makeEasyMove b b1 b2 r)) := by
  constructor
  · intro hf
    have h1 := findWinningMove_of_full (p := O) hf hb
    have h2 := findWinningMove_of_full (p := X) hf hb
    have h3 : (emptyIndices b).length = 0 := by
      rw [← emptyCellsCount_eq_length_emptyIndices]
      exact emptyCellsCount_zero_iff.mpr hf
    simp [makeEasyMove, h1, h2, h3]
  · intro hf
    have hnf : ¬ isFull b = true := by simp [hf]
    have hpos : 0 < (emptyIndices b).length := by
      rcases not_isFull_iff.mp hnf with ⟨i, hi, hc⟩
      exact emptyIndices_length_pos hi hc
    unfold makeEasyMove
    by_cases hc1 : b1 = true ∧ findWinningMove b O ≠ -1
    · rw [if_pos hc1]
      exact findWinningMove_valid hc1.2
    · rw [if_neg hc1]
      by_cases hc2 : b1 = true ∧ b2 = true ∧ findWinningMove b X ≠ -1
      · rw [if_pos hc2]
        exact findWinningMove_valid hc2.2.2
      · rw [if_neg hc2]
        simp only [if_pos hpos]
        exact fallback_valid hb hpos r

theorem makeMediumMove_valid {b : Board} (hb : b.length = 9) (rc rm : Nat) :
    (isFull b = true → makeMediumMove b rc rm = -1) ∧
    (isFull b = false → validMove b (makeMediumMove b rc rm)) := by
  constructor
  · intro hf
    have h1 := findWinningMove_of_full (p := O) hf hb
    have h2 := findWinningMove_of_full (p := X) hf hb
    have h4 : cellAt b 4 ≠ none := isFull_iff.mp hf 4 (by omega)
    have h3 : (emptyIndices b).length = 0 := by
      rw [← emptyCellsCount_eq_length_emptyIndices]
      exact emptyCellsCount_zero_iff.mpr hf
    have hcor : ([0, 2, 6, 8].filter (fun i => decide (cellAt b i = none))) = [] := by
      rw [List.filter_eq_nil_iff]
      intro i hi
      have hi9 : i < 9 := by
        simp only [List.mem_cons, List.not_mem_nil, or_false] at hi
        omega
      simp only [decide_eq_true_eq]
      exact isFull_iff.mp hf i (by omega)
    simp [makeMediumMove, h1, h2, h4, hcor, h3]
  · intro hf
    have hnf : ¬ isFull b = true := by simp [hf]
    have hpos : 0 < (emptyIndices b).length := by
      rcases not_isFull_iff.mp hnf with ⟨i, hi, hc⟩
      exact emptyIndices_length_pos hi hc
    unfold makeMediumMove
    by_cases hc1 : findWinningMove b O ≠ -1
    · rw [if_pos hc1]
      exact findWinningMove_valid hc1
    · rw [if_neg hc1]
      by_cases hc2 : findWinningMove b X ≠ -1
      · rw [if_pos hc2]
        exact findWinningMove_valid hc2
      · rw [if_neg hc2]
        by_cases hc4 : cellAt b 4 = none
        · rw [if_pos hc4]
          exact ⟨4, rfl, by omega, hc4⟩
        · rw [if_neg hc4]
          by_cases hcor : 0 < ([0, 2, 6, 8].filter (fun i => decide (cellAt b i = none))).length
          · simp only [if_pos hcor]
            have hmem : ([0, 2, 6, 8].filter (fun i => decide (cellAt b i = none))).getD
                (rc % ([0, 2, 6, 8].filter (fun i => decide (cellAt b i = none))).length) 0 ∈
                [0, 2, 6, 8].filter (fun i => decide (cellAt b i = none)) :=
              getD_mem_of_lt (Nat.mod_lt rc hcor)
            obtain ⟨hmem', hc⟩ := List.mem_filter.mp hmem
            refine ⟨_, rfl, ?_, by simpa using hc⟩
            simp only [List.mem_cons, List.not_mem_nil, or_false] at hmem'
            omega
          · simp only [if_neg hcor, if_pos hpos]
            exact fallback_valid hb hpos rm

theorem book_corner_empty {b : Board} (hb : b.length = 9)
    (h8 : emptyCellsCount b = 8) (h4 : cellAt b 4 ≠ none) {c : Nat} (hc9 : c < 9)
    (hc4 : c ≠ 4) : cellAt b c = none := by
  by_contra hcc
  have hocc : occupiedCount b = 1 := by
    have := emptyCellsCount_add_occupied b
    omega
  rcases Nat.lt_or_ge c 4 with h | h
  · have := occupied_two (i := c) (j := 4) (by omega) (by omega) hcc h4
    omega
  · have := occupied_two (i := 4) (j := c) (by omega) (by omega) h4 hcc
    omega

theorem minimax_child_lower {b : Board} {j : Nat} (hb : b.length = 9) :
    (0 : Int) - 10 ≤ minimax 9 (b.set j (some O)) 0 false := by
  have h1 : emptyCellsCount (b.set j (some O)) ≤ 9 := by
    have := emptyCellsCount_le_length (b.set j (some O))
    rw [length_set, hb] at this
    exact this
  exact (minimax_bounds 9 (b.set j (some O)) 0 false h1 (by omega)).1

theorem makeHardMove_valid {b : Board} (hb : b.length = 9) (r : Nat) :
    (isFull b = true → makeHardMove b r = -1) ∧
    (isFull b = false → validMove b (makeHardMove b r)) := by
  constructor
  · intro hf
    have h0 : emptyCellsCount b = 0 := emptyCellsCount_zero_iff.mpr hf
    have hei : emptyIndices b = [] := by
      have := emptyCellsCount_eq_length_emptyIndices b
      rw [h0] at this
      exact List.length_eq_zero.mp this.symm
    unfold makeHardMove
    rw [if_neg (by omega), if_neg (by rintro ⟨h, -⟩; omega), hei]
    rfl
  · intro hf
    have hnf : ¬ isFull b = true := by simp [hf]
    unfold makeHardMove
    by_cases h9 : emptyCellsCount b = 9
    · rw [if_pos h9]
      have hall : ∀ c ∈ b, c = none := by
        have hcp : b.countP (fun c => decide (c = none)) = b.length := by
          unfold emptyCellsCount at h9
          rw [List.countP_eq_length_filter]
          omega
        intro c hc
        simpa using List.countP_eq_length.mp hcp c hc
      refine ⟨4, rfl, by omega, ?_⟩
      have h4 : b.getD 4 none ∈ b := getD_mem_of_lt (by omega)
      exact hall _ h4
    · rw [if_neg h9]
      by_cases h8 : emptyCellsCount b = 8 ∧ cellAt b 4 = some X
      · rw [if_pos h8]
        have hemp : ∀ c : Nat, c < 9 → c ≠ 4 → cellAt b c = none :=
          fun c hc9 hc4 => book_corner_empty hb h8.1 (by rw [h8.2]; simp) hc9 hc4
        have hr4 : r % 4 = 0 ∨ r % 4 = 1 ∨ r % 4 = 2 ∨ r % 4 = 3 := by omega
        rcases hr4 with h | h | h | h <;> rw [h]
        · exact ⟨0, rfl, by omega, hemp 0 (by omega) (by omega)⟩
        · exact ⟨2, rfl, by omega, hemp 2 (by omega) (by omega)⟩
        · exact ⟨6, rfl, by omega, hemp 6 (by omega) (by omega)⟩
        · exact ⟨8, rfl, by omega, hemp 8 (by omega) (by omega)⟩
      · rw [if_neg h8]
        rcases hardFold_spec b (emptyIndices b) (-1000, -1) with heq | ⟨j, hj, h1, h2⟩
        · exfalso
          rcases not_isFull_iff.mp hnf with ⟨i, hi, hc⟩
          have hmem : i ∈ emptyIndices b := mem_emptyIndices.mpr ⟨hi, hc⟩
          have hge := hardFold_ge_mem b (emptyIndices b) (-1000, -1) i hmem
          rw [heq] at hge
          have := minimax_child_lower (j := i) hb
          simp only at hge
          omega
        · rw [h2]
          obtain ⟨hjl, hjc⟩ := mem_emptyIndices.mp hj
          exact ⟨j, rfl, by omega, hjc⟩

/-- C6: on a 9-cell board, every strategy — for every outcome of the random
draws — returns either the index of an empty cell or `-1`, and returns `-1`
exactly when the board has no empty cell. -/
theorem strategies_return_empty_or_none (b : Board) (hb : b.length = 9)
    (b1 b2 : Bool) (r rc rm rh : Nat) :
    (makeEasyMove b b1 b2 r = -1 ∨ validMove b (makeEasyMove b b1 b2 r)) ∧
    (makeEasyMove b b1 b2 r = -1 ↔ ∀ i, i < 9 → cellAt b i ≠ none) ∧
    (makeMediumMove b rc rm = -1 ∨ validMove b (makeMediumMove b rc rm)) ∧
    (makeMediumMove b rc rm = -1 ↔ ∀ i, i < 9 → cellAt b i ≠ none) ∧
    (makeHardMove b rh = -1 ∨ validMove b (makeHardMove b rh)) ∧
    (makeHardMove b rh = -1 ↔ ∀ i, i < 9 → cellAt b i ≠ none) := by
  have hfull : (isFull b = true) ↔ ∀ i, i < 9 → cellAt b i ≠ none := by
    rw [isFull_iff, hb]
  have he := makeEasyMove_valid hb b1 b2 r
  have hm := makeMediumMove_valid hb rc rm
  have hh := makeHardMove_valid hb rh
  have assemble : ∀ v : Int,
      ((isFull b = true → v = -1) ∧ (isFull b = false → validMove b v)) →
      (v = -1 ∨ validMove b v) ∧ (v = -1 ↔ ∀ i, i < 9 → cellAt b i ≠ none) := by
    rintro v ⟨hfl, hnf⟩
    cases hvf : isFull b with
    | true =>
      refine ⟨Or.inl (hfl hvf), ?_⟩
      rw [← hfull]
      exact ⟨fun _ => hvf, fun _ => hfl hvf⟩
    | false =>
      have hv := hnf hvf
      refine ⟨Or.inr hv, ?_⟩
      rw [← hfull]
      constructor
      · intro h
        exact absurd h (validMove_ne_neg_one hv)
      · intro h
        rw [h] at hvf
        cases hvf
  obtain ⟨e1, e2⟩ := assemble _ he
  obtain ⟨m1, m2⟩ := assemble _ hm
  obtain ⟨h1, h2⟩ := assemble _ hh
  exact ⟨e1, e2, m1, m2, h1, h2⟩

/-- Witness for C6 at the empty board. -/
theorem strategies_return_empty_or_none_witness :
    (List.replicate 9 (none : SquareValue)).length = 9 ∧
    ((makeEasyMove (List.replicate 9 none) true true 0 = -1 ∨
        validMove (List.replicate 9 none) (makeEasyMove (List.replicate 9 none) true true 0)) ∧
      (makeEasyMove (List.replicate 9 none) true true 0 = -1 ↔
        ∀ i, i < 9 → cellAt (List.replicate 9 none) i ≠ none) ∧
      (makeMediumMove (List.replicate 9 none) 0 0 = -1 ∨
        validMove (List.replicate 9 none) (makeMediumMove (List.replicate 9 none) 0 0)) ∧
      (makeMediumMove (List.replicate 9 none) 0 0 = -1 ↔
        ∀ i, i < 9 → cellAt (List.replicate 9 none) i ≠ none) ∧
      (makeHardMove (List.replicate 9 none) 0 = -1 ∨
        validMove (List.replicate 9 none) (makeHardMove (List.replicate 9 none) 0)) ∧
      (makeHardMove (List.replicate 9 none) 0 = -1 ↔
        ∀ i, i < 9 → cellAt (List.replicate 9 none) i ≠ none)) :=
  ⟨by decide, strategies_return_empty_or_none (List.replicate 9 none) (by decide) true true 0 0 0 0⟩

/-! ## Counting marks, and the session invariant -/

def countMarks (b : Board) (p : Player) : Nat :=
  b.countP (fun c => decide (c = some p))

theorem countMarks_set_same {b : Board} {i : Nat} {p : Player}
    (hi : i < b.length) (hc : cellAt b i = none) :
    countMarks (b.set i (some p)) p = countMarks b p + 1 := by
  induction b generalizing i with
  | nil => simp at hi
  | cons c rest ih =>
    cases i with
    | zero =>
      simp only [cellAt, List.getD_cons_zero] at hc
      subst hc
      simp [countMarks, List.countP_cons]
    | succ j =>
      have hj : j < rest.length := by
        simp only [List.length_cons] at hi; omega
      have := ih hj (by simpa [cellAt] using hc)
      simp only [List.set_cons_succ, countMarks, List.countP_cons] at *
      omega

theorem countMarks_set_other {b : Board} {i : Nat} {p q : Player}
    (hc : cellAt b i = none) (hpq : p ≠ q) :
    countMarks (b.set i (some p)) q = countMarks b q := by
  induction b generalizing i with
  | nil => simp [countMarks]
  | cons c rest ih =>
    cases i with
    | zero =>
      simp only [cellAt, List.getD_cons_zero] at hc
      subst hc
      simp [countMarks, List.countP_cons, hpq]
    | succ j =>
      have := ih (i := j) (by simpa [cellAt] using hc)
      simp only [List.set_cons_succ, countMarks, List.countP_cons] at *
      omega

/-- The master invariant of reachable session states. -/
def SessionInv (s : GameState) : Prop :=
  s.squares.length = 9 ∧
  (s.isPlayerTurn = true → countMarks s.squares X = countMarks s.squares O) ∧
  (s.isPlayerTurn = false → countMarks s.squares X = countMarks s.squares O + 1) ∧
  (s.gameOver = false → calculateWinner s.squares = none ∧ isFull s.squares = false) ∧
  (s.gameOver = false → s.isPlayerTurn = true → s.status = "Your turn (X)") ∧
  (s.gameOver = false → s.isPlayerTurn = false → s.status = "Computer's turn (O)...") ∧
  (∀ p t, s.gameOver = true → calculateWinner s.squares = some (p, t) →
    s.status = (if p = X then "You win!" else "Computer wins!")) ∧
  (s.gameOver = true → calculateWinner s.squares = none → s.status = "It's a draw!")

theorem inv_resetGame (s : GameState) : SessionInv (resetGame s) := by
  unfold resetGame SessionInv
  refine ⟨?_, ?_, ?_, ?_, ?_, ?_, ?_, ?_⟩
  · simp
  · intro _
    show countMarks (List.replicate 9 none) X = countMarks (List.replicate 9 none) O
    decide
  · intro h
    simp at h
  · intro _
    refine ⟨?_, ?_⟩
    · show calculateWinner (List.replicate 9 none) = none
      decide
    · show isFull (List.replicate 9 none) = false
      decide
  · intro _ _
    rfl
  · intro _ h
    simp at h
  · intro p t h
    simp at h
  · intro h
    simp at h

theorem inv_initialState : SessionInv initialState := by
  unfold initialState SessionInv
  refine ⟨?_, ?_, ?_, ?_, ?_, ?_, ?_, ?_⟩
  · simp
  · intro _
    show countMarks (List.replicate 9 none) X = countMarks (List.replicate 9 none) O
    decide
  · intro h
    simp at h
  · intro _
    refine ⟨?_, ?_⟩
    · show calculateWinner (List.replicate 9 none) = none
      decide
    · show isFull (List.replicate 9 none) = false
      decide
  · intro _ _
    rfl
  · intro _ h
    simp at h
  · intro p t h
    simp at h
  · intro h
    simp at h

theorem statusEffect_inv {s : GameState}
    (hlen : s.squares.length = 9)
    (hT : s.isPlayerTurn = true → countMarks s.squares X = countMarks s.squares O)
    (hF : s.isPlayerTurn = false → countMarks s.squares X = countMarks s.squares O + 1)
    (hgo : s.gameOver = false) :
    SessionInv (statusEffect s) := by
  unfold statusEffect
  cases hw : calculateWinner s.squares with
  | some q =>
    obtain ⟨q, u⟩ := q
    show SessionInv
      { s with gameOver := true,
               status := if q = X then "You win!" else "Computer wins!" }
    unfold SessionInv
    refine ⟨?_, ?_, ?_, ?_, ?_, ?_, ?_, ?_⟩
    · exact hlen
    · intro h
      exact hT h
    · intro h
      exact hF h
    · intro h
      simp at h
    · intro h _
      simp at h
    · intro h _
      simp at h
    · intro p t _ hw'
      have hw2 : calculateWinner s.squares = some (p, t) := hw'
      rw [hw] at hw2
      injection hw2 with h2
      cases h2
      rfl
    · intro _ hw'
      have hw2 : calculateWinner s.squares = none := hw'
      rw [hw] at hw2
      cases hw2
  | none =>
    by_cases hf : isFull s.squares = true
    · rw [if_pos hf]
      show SessionInv { s with gameOver := true, status := "It's a draw!" }
      unfold SessionInv
      refine ⟨?_, ?_, ?_, ?_, ?_, ?_, ?_, ?_⟩
      · exact hlen
      · intro h
        exact hT h
      · intro h
        exact hF h
      · intro h
        simp at h
      · intro h _
        simp at h
      · intro h _
        simp at h
      · intro p t _ hw'
        have hw2 : calculateWinner s.squares = some (p, t) := hw'
        rw [hw] at hw2
        cases hw2
      · intro _ _
        rfl
    · rw [if_neg hf]
      show SessionInv
        { s with status :=
            if s.isPlayerTurn = true then "Your turn (X)" else "Computer's turn (O)..." }
      unfold SessionInv
      refine ⟨?_, ?_, ?_, ?_, ?_, ?_, ?_, ?_⟩
      · exact hlen
      · intro h
        exact hT h
      · intro h
        exact hF h
      · intro _
        exact ⟨hw, by simpa using hf⟩
      · intro _ hpt
        have hpt2 : s.isPlayerTurn = true := hpt
        show (if s.isPlayerTurn = true then "Your turn (X)" else "Computer's turn (O)...") =
          "Your turn (X)"
        rw [if_pos hpt2]
      · intro _ hpt
        have hpt2 : s.isPlayerTurn = false := hpt
        show (if s.isPlayerTurn = true then "Your turn (X)" else "Computer's turn (O)...") =
          "Computer's turn (O)..."
        rw [if_neg (by simp [hpt2])]
      · intro p t hgo' _
        have hgo2 : s.gameOver = true := hgo'
        rw [hgo] at hgo2
        cases hgo2
      · intro hgo' _
        have hgo2 : s.gameOver = true := hgo'
        rw [hgo] at hgo2
        cases hgo2

theorem handleClick_inv {s : GameState} {i : Nat} (hi : i < 9)
    (ih : SessionInv s) : SessionInv (handleClick s i) := by
  obtain ⟨hlen, hT, hF, hP, hrest⟩ := ih
  unfold handleClick
  by_cases hg : s.gameOver = true ∨ cellAt s.squares i ≠ none ∨ s.isPlayerTurn = false
  · rw [if_pos hg]
    exact ⟨hlen, hT, hF, hP, hrest⟩
  · rw [if_neg hg]
    push_neg at hg
    obtain ⟨hgo, hc, hpt⟩ := hg
    have hgo' : s.gameOver = false := by
      cases h : s.gameOver
      · rfl
      · exact absurd h hgo
    have hpt' : s.isPlayerTurn = true := by
      cases h : s.isPlayerTurn
      · exact absurd h hpt
      · rfl
    have hil : i < s.squares.length := by omega
    refine statusEffect_inv ?_ ?_ ?_ ?_
    · show (s.squares.set i (some X)).length = 9
      rw [length_set]
      exact hlen
    · intro h
      simp at h
    · intro _
      show countMarks (s.squares.set i (some X)) X =
        countMarks (s.squares.set i (some X)) O + 1
      rw [countMarks_set_same hil hc, countMarks_set_other hc (by decide)]
      rw [hT hpt']
    · exact hgo'

theorem makeComputerMove_inv {s : GameState} {w : Draws}
    (ih : SessionInv s) : SessionInv (makeComputerMove s w) := by
  obtain ⟨hlen, hT, hF, hP, hrest⟩ := ih
  unfold makeComputerMove
  by_cases hg : s.isPlayerTurn = true ∨ s.gameOver = true
  · rw [if_pos hg]
    exact ⟨hlen, hT, hF, hP, hrest⟩
  · rw [if_neg hg]
    push_neg at hg
    obtain ⟨hpt, hgo⟩ := hg
    have hgo' : s.gameOver = false := by
      cases h : s.gameOver
      · rfl
      · exact absurd h hgo
    have hpt' : s.isPlayerTurn = false := by
      cases h : s.isPlayerTurn
      · rfl
      · exact absurd h hpt
    have hnf : isFull s.squares = false := (hP hgo').2
    have hv : validMove s.squares (strategyMove s.difficulty s.squares w) := by
      unfold strategyMove
      cases s.difficulty with
      | easy => exact (makeEasyMove_valid hlen w.b1 w.b2 w.r).2 hnf
      | medium => exact (makeMediumMove_valid hlen w.rc w.rm).2 hnf
      | hard => exact (makeHardMove_valid hlen w.rh).2 hnf
    obtain ⟨j, hj, hj9, hjc⟩ := hv
    have hne : strategyMove s.difficulty s.squares w ≠ -1 := by
      rw [hj]
      omega
    show SessionInv
      (statusEffect
        { s with
          squares := if strategyMove s.difficulty s.squares w ≠ -1 then
              s.squares.set (strategyMove s.difficulty s.squares w).toNat (some O)
            else s.squares,
          isPlayerTurn := true })
    rw [if_pos hne, hj]
    have htn : ((j : Int)).toNat = j := Int.toNat_natCast j
    rw [htn]
    have hjl : j < s.squares.length := by omega
    refine statusEffect_inv ?_ ?_ ?_ ?_
    · show (s.squares.set j (some O)).length = 9
      rw [length_set]
      exact hlen
    · intro _
      show countMarks (s.squares.set j (some O)) X =
        countMarks (s.squares.set j (some O)) O
      rw [countMarks_set_same hjl hjc, countMarks_set_other hjc (by decide)]
      rw [hF hpt']
    · intro h
      simp at h
    · exact hgo'

/-- Every reachable session state satisfies the master invariant. -/
theorem reachable_inv {s : GameState} (h : Reachable s) : SessionInv s := by
  induction h with
  | init => exact inv_initialState
  | click i hi _ ih => exact handleClick_inv hi ih
  | comp w _ ih => exact makeComputerMove_inv ih
  | reset _ ih => exact inv_resetGame _
  | diff d _ ih => exact inv_resetGame _

/-- C5: in every session state reachable through the component's
transitions, the number of `X` cells equals the number of `O` cells or
exceeds it by exactly one. -/
theorem reachable_mark_counts {s : GameState} (h : Reachable s) :
    countMarks s.squares X = countMarks s.squares O ∨
    countMarks s.squares X = countMarks s.squares O + 1 := by
  obtain ⟨-, hT, hF, -⟩ := reachable_inv h
  cases hpt : s.isPlayerTurn
  · exact Or.inr (hF hpt)
  · exact Or.inl (hT hpt)

/-- Witness for C5 at the initial state. -/
theorem reachable_mark_counts_witness :
    countMarks initialState.squares X = countMarks initialState.squares O ∨
    countMarks initialState.squares X = countMarks initialState.squares O + 1 :=
  reachable_mark_counts Reachable.init

/-- C9: a click transition invoked after the game is over, or on an
occupied cell, or while it is not the player's turn, leaves the entire
session state unchanged. -/
theorem click_invalid_noop (s : GameState) (i : Nat)
    (h : s.gameOver = true ∨ cellAt s.squares i ≠ none ∨ s.isPlayerTurn = false) :
    handleClick s i = s := by
  unfold handleClick
  rw [if_pos h]

/-- Witness for C9: a click after the game is over is a no-op. -/
theorem click_invalid_noop_witness :
    (({ initialState with gameOver := true } : GameState).gameOver = true ∨
      cellAt ({ initialState with gameOver := true } : GameState).squares 0 ≠ none ∨
      ({ initialState with gameOver := true } : GameState).isPlayerTurn = false) ∧
    handleClick { initialState with gameOver := true } 0 =
      { initialState with gameOver := true } :=
  ⟨Or.inl rfl, click_invalid_noop _ 0 (Or.inl rfl)⟩

/-- C7 counterexample: the initial state is reachable and is the player's
turn, but its status text is `"Your turn (X)"`, not the spec's
`"Your turn"`. -/
theorem initial_status_differs :
    Reachable initialState ∧ initialState.isPlayerTurn = true ∧
    initialState.gameOver = false ∧ ¬ initialState.status = "Your turn" :=
  ⟨Reachable.init, rfl, rfl, by decide⟩

/-- C7 (amended): the status text of every reachable session state follows
the code's mapping — `"Your turn (X)"` during the player's turn,
`"Computer's turn (O)..."` while the computer is thinking, `"You win!"`
after a player win, `"Computer wins!"` after a computer win, and
`"It's a draw!"` after a draw. -/
theorem reachable_status_text {s : GameState} (h : Reachable s) :
    (s.gameOver = false → s.isPlayerTurn = true → s.status = "Your turn (X)") ∧
    (s.gameOver = false → s.isPlayerTurn = false → s.status = "Computer's turn (O)...") ∧
    (∀ t, s.gameOver = true → calculateWinner s.squares = some (X, t) →
      s.status = "You win!") ∧
    (∀ t, s.gameOver = true → calculateWinner s.squares = some (O, t) →
      s.status = "Computer wins!") ∧
    (s.gameOver = true → calculateWinner s.squares = none →
      s.status = "It's a draw!") := by
  obtain ⟨-, -, -, -, h5, h6, h7, h8⟩ := reachable_inv h
  refine ⟨h5, h6, ?_, ?_, h8⟩
  · intro t hgo hw
    have := h7 X t hgo hw
    simpa using this
  · intro t hgo hw
    have := h7 O t hgo hw
    simpa using this

/-- Witness for C7 (amended) at the initial state. -/
theorem reachable_status_text_witness :
    (initialState.gameOver = false → initialState.isPlayerTurn = true →
      initialState.status = "Your turn (X)") ∧
    (initialState.gameOver = false → initialState.isPlayerTurn = false →
      initialState.status = "Computer's turn (O)...") ∧
    (∀ t, initialState.gameOver = true →
      calculateWinner initialState.squares = some (X, t) →
      initialState.status = "You win!") ∧
    (∀ t, initialState.gameOver = true →
      calculateWinner initialState.squares = some (O, t) →
      initialState.status = "Computer wins!") ∧
    (initialState.gameOver = true → calculateWinner initialState.squares = none →
      initialState.status = "It's a draw!") :=
  reachable_status_text Reachable.init

/-! ## The Easy strategy's branch structure (C8) -/

/-- The claim's reading of the Easy strategy: the winning attempt is made
with the 0.3 draw; the blocking attempt is made with the inner 0.5 draw
whether or not the 0.3 draw succeeded ("otherwise, or with the remaining
0.7 probability"); all remaining cases pick uniformly among the empty
cells. -/
def easySpecClaim (board : Board) (b1 b2 : Bool) (r : Nat) : Int :=
  if b1 = true ∧ findWinningMove board O ≠ -1 then findWinningMove board O
  else if b2 = true ∧ findWinningMove board X ≠ -1 then findWinningMove board X
  else
    let availableMoves := emptyIndices board
    if 0 < availableMoves.length then
      ((availableMoves.getD (r % availableMoves.length) 0 : Nat) : Int)
    else -1

/-- C8 counterexample: on the board `[X,X,_, _,O,_, _,_,_]`, with the 0.3
draw failed and the 0.5 draw succeeded, the claim's description blocks at
cell 2, but `makeEasyMove` ignores the 0.5 draw outside the 0.3 branch and
picks a random empty cell (here cell 3). -/
theorem makeEasyMove_ne_easySpecClaim :
    makeEasyMove
        [some X, some X, none, none, some O, none, none, none, none] false true 1 = 3 ∧
    easySpecClaim
        [some X, some X, none, none, some O, none, none, none, none] false true 1 = 2 ∧
    makeEasyMove
        [some X, some X, none, none, some O, none, none, none, none] false true 1 ≠
      easySpecClaim
        [some X, some X, none, none, some O, none, none, none, none] false true 1 := by
  refine ⟨by decide, by decide, by decide⟩

/-- The amended reading of the Easy strategy: with the 0.3 draw it attempts
the computer's winning move and plays it if found; still inside that draw,
with the inner 0.5 draw it attempts the blocking move and plays it if
found; in all remaining cases — including the whole 0.7 branch — it picks
uniformly at random among the empty cells (`-1` if none). -/
def easySpecAmended (board : Board) (b1 b2 : Bool) (r : Nat) : Int :=
  if b1 = true then
    if findWinningMove board O ≠ -1 then findWinningMove board O
    else if b2 = true ∧ findWinningMove board X ≠ -1 then findWinningMove board X
    else
      let availableMoves := emptyIndices board
      if 0 < availableMoves.length then
        ((availableMoves.getD (r % availableMoves.length) 0 : Nat) : Int)
      else -1
  else
    let availableMoves := emptyIndices board
    if 0 < availableMoves.length then
      ((availableMoves.getD (r % availableMoves.length) 0 : Nat) : Int)
    else -1

/-- C8 (amended): with the random draws modelled as inputs, `makeEasyMove`
behaves as: with probability 0.3 it attempts the winning move and plays it
if found; otherwise, still within that 0.3 branch, with inner probability
0.5 it attempts the blocking move; in all remaining cases (including the
whole 0.7 branch) it picks uniformly at random among the empty cells. -/
theorem makeEasyMove_eq_easySpecAmended (board : Board) (b1 b2 : Bool) (r : Nat) :
    makeEasyMove board b1 b2 r = easySpecAmended board b1 b2 r := by
  unfold makeEasyMove easySpecAmended
  cases b1 with
  | false => simp
  | true =>
    by_cases h1 : findWinningMove board O ≠ -1
    · simp [h1]
    · simp only [h1, and_false, false_and, and_true, true_and, if_false, if_pos rfl]
      simp [h1]

/-! ## The mutate-then-undo discipline of the hard search (C10)

The source's `minimax` and `makeHardMove` write hypothetical marks into
the caller's board (`board[i] = "O"`, recurse, `board[i] = null`).  We
embed that discipline by threading the mutable board through the
computation: each function returns its result together with the board it
leaves behind. -/

theorem set_none_eq_self {b : Board} {i : Nat} (hc : cellAt b i = none) :
    b.set i none = b := by
  induction b generalizing i with
  | nil => rfl
  | cons c rest ih =>
    cases i with
    | zero =>
      simp only [cellAt, List.getD_cons_zero] at hc
      subst hc
      rfl
    | succ j =>
      simp only [List.set_cons_succ]
      rw [ih (by simpa [cellAt] using hc)]

theorem set_unset {b : Board} {i : Nat} {v : SquareValue} (hc : cellAt b i = none) :
    (b.set i v).set i none = b := by
  rw [List.set_set, set_none_eq_self hc]

/-- `minimax` with the source's in-place mutation made explicit: the board
is threaded through the loops, each iteration writing the hypothetical
mark and erasing it again after the recursive call. -/
def minimaxST : Nat → Nat → Bool → Board → Int × Board
  | 0, _, _, board => (0, board)
  | fuel + 1, depth, isMaximizing, board =>
    match calculateWinner board with
    | some (p, _) => ((if p = O then (10 : Int) - depth else (depth : Int) - 10), board)
    | none =>
      if isFull board then (0, board)
      else if isMaximizing then
        (List.range board.length).foldl (fun acc i =>
          if cellAt acc.2 i = none then
            let r := minimaxST fuel (depth + 1) false (acc.2.set i (some O))
            (max acc.1 r.1, r.2.set i none)
          else acc) (-1000, board)
      else
        (List.range board.length).foldl (fun acc i =>
          if cellAt acc.2 i = none then
            let r := minimaxST fuel (depth + 1) true (acc.2.set i (some X))
            (min acc.1 r.1, r.2.set i none)
          else acc) (1000, board)

/-- `makeHardMove` with the in-place mutation of its argmax loop made
explicit. -/
def makeHardMoveST (board : Board) (r : Nat) : Int × Board :=
  if emptyCellsCount board = 9 then (4, board)
  else if emptyCellsCount board = 8 ∧ cellAt board 4 = some X then
    ((([0, 2, 6, 8] : List Int).getD (r % 4) 0), board)
  else
    let res := (List.range board.length).foldl (fun acc i =>
      if cellAt acc.2.2 i = none then
        let r := minimaxST 9 0 false (acc.2.2.set i (some O))
        if r.1 > acc.1 then (r.1, (i : Int), r.2.set i none)
        else (acc.1, acc.2.1, r.2.set i none)
      else acc) ((-1000 : Int), (-1 : Int), board)
    (res.2.1, res.2.2)

theorem foldl_guard_eq_filter_foldl {α β : Type} (p : α → Bool) (g : β → α → β) :
    ∀ (l : List α) (init : β),
      l.foldl (fun a i => if p i then g a i else a) init = (l.filter p).foldl g init := by
  intro l
  induction l with
  | nil => intro init; rfl
  | cons x xs ih =>
    intro init
    simp only [List.foldl_cons, List.filter_cons]
    cases hp : p x with
    | true => simp only [if_pos, List.foldl_cons, ih]
    | false => simp only [Bool.false_eq_true, if_false, ih]

theorem minimaxST_loop_max {fuel depth : Nat} {b : Board}
    (IH : ∀ (d : Nat) (m : Bool) (c : Board),
      minimaxST fuel d m c = (minimax fuel c d m, c)) :
    ∀ (l : List Nat) (v : Int),
      l.foldl (fun acc i =>
        if cellAt acc.2 i = none then
          let r := minimaxST fuel (depth + 1) false (acc.2.set i (some O))
          (max acc.1 r.1, r.2.set i none)
        else acc) (v, b) =
      ((l.filter (fun i => decide (cellAt b i = none))).foldl
        (fun a i => max a (minimax fuel (b.set i (some O)) (depth + 1) false)) v, b) := by
  intro l
  induction l with
  | nil => intro v; rfl
  | cons i rest ih =>
    intro v
    simp only [List.foldl_cons, List.filter_cons]
    by_cases hc : cellAt b i = none
    · rw [if_pos hc, IH]
      simp only [set_unset hc, decide_eq_true_eq, hc, decide_True, List.foldl_cons]
      exact ih (max v (minimax fuel (b.set i (some O)) (depth + 1) false))
    · rw [if_neg hc]
      simp only [hc, decide_False]
      exact ih v

theorem minimaxST_loop_min {fuel depth : Nat} {b : Board}
    (IH : ∀ (d : Nat) (m : Bool) (c : Board),
      minimaxST fuel d m c = (minimax fuel c d m, c)) :
    ∀ (l : List Nat) (v : Int),
      l.foldl (fun acc i =>
        if cellAt acc.2 i = none then
          let r := minimaxST fuel (depth + 1) true (acc.2.set i (some X))
          (min acc.1 r.1, r.2.set i none)
        else acc) (v, b) =
      ((l.filter (fun i => decide (cellAt b i = none))).foldl
        (fun a i => min a (minimax fuel (b.set i (some X)) (depth + 1) true)) v, b) := by
  intro l
  induction l with
  | nil => intro v; rfl
  | cons i rest ih =>
    intro v
    simp only [List.foldl_cons, List.filter_cons]
    by_cases hc : cellAt b i = none
    · rw [if_pos hc, IH]
      simp only [set_unset hc, decide_eq_true_eq, hc, decide_True, List.foldl_cons]
      exact ih (min v (minimax fuel (b.set i (some X)) (depth + 1) true))
    · rw [if_neg hc]
      simp only [hc, decide_False]
      exact ih v

theorem minimaxST_eq :
    ∀ (fuel : Nat) (d : Nat) (m : Bool) (b : Board),
      minimaxST fuel d m b = (minimax fuel b d m, b) := by
  intro fuel
  induction fuel with
  | zero => intro d m b; rfl
  | succ fuel ih =>
    intro d m b
    simp only [minimaxST, minimax]
    cases hw : calculateWinner b with
    | some q => rfl
    | none =>
      by_cases hf : isFull b = true
      · rw [if_pos hf, if_pos hf]
      · rw [if_neg hf, if_neg hf]
        cases m with
        | true =>
          rw [if_pos rfl, if_pos rfl]
          rw [minimaxST_loop_max ih]
          rw [List.foldl_map]
          rfl
        | false =>
          rw [if_neg (by simp), if_neg (by simp)]
          rw [minimaxST_loop_min ih]
          rw [List.foldl_map]
          rfl

theorem hardFoldST_loop {b : Board} :
    ∀ (l : List Nat) (bs bm : Int),
      l.foldl (fun acc i =>
        if cellAt acc.2.2 i = none then
          let r := minimaxST 9 0 false (acc.2.2.set i (some O))
          if r.1 > acc.1 then (r.1, (i : Int), r.2.set i none)
          else (acc.1, acc.2.1, r.2.set i none)
        else acc) (bs, bm, b) =
      ((hardFold b (l.filter (fun i => decide (cellAt b i = none))) (bs, bm)).1,
        (hardFold b (l.filter (fun i => decide (cellAt b i = none))) (bs, bm)).2, b) := by
  intro l
  induction l with
  | nil => intro bs bm; rfl
  | cons i rest ih =>
    intro bs bm
    simp only [List.foldl_cons, List.filter_cons]
    by_cases hc : cellAt b i = none
    · rw [if_pos hc, minimaxST_eq]
      simp only [set_unset hc, hc, decide_True]
      by_cases hgt : minimax 9 (b.set i (some O)) 0 false > bs
      · rw [if_pos hgt]
        simp only [hardFold, if_pos hgt]
        exact ih _ _
      · rw [if_neg hgt]
        simp only [hardFold, if_neg hgt]
        exact ih bs bm
    · rw [if_neg hc]
      simp only [hc, decide_False]
      exact ih bs bm

theorem makeHardMoveST_eq (b : Board) (r : Nat) :
    makeHardMoveST b r = (makeHardMove b r, b) := by
  unfold makeHardMoveST makeHardMove
  by_cases h9 : emptyCellsCount b = 9
  · rw [if_pos h9, if_pos h9]
  · rw [if_neg h9, if_neg h9]
    by_cases h8 : emptyCellsCount b = 8 ∧ cellAt b 4 = some X
    · rw [if_pos h8, if_pos h8]
    · rw [if_neg h8, if_neg h8]
      rw [hardFoldST_loop (List.range b.length) (-1000) (-1)]
      rfl

/-- C10: the hard search's mutate-then-undo discipline restores the
caller's board: `minimaxST` and `makeHardMoveST` — the source's `minimax`
and `makeHardMove` with their in-place writes threaded explicitly — return
with the board cell-for-cell equal to its value at the call, and compute
the same scores and moves as the pure functions. -/
theorem search_leaves_board_unchanged :
    (∀ (fuel d : Nat) (m : Bool) (b : Board),
      (minimaxST fuel d m b).2 = b ∧ (minimaxST fuel d m b).1 = minimax fuel b d m) ∧
    (∀ (b : Board) (r : Nat),
      (makeHardMoveST b r).2 = b ∧ (makeHardMoveST b r).1 = makeHardMove b r) := by
  constructor
  · intro fuel d m b
    rw [minimaxST_eq]
    exact ⟨rfl, rfl⟩
  · intro b r
    rw [makeHardMoveST_eq]
    exact ⟨rfl, rfl⟩

/-! ## Immediate wins and blocks (C2, C3) -/

/-- `w` blocks an opponent winning line: an empty cell whose line contains
two opponent (`X`) marks. -/
def blocksLine (b : Board) (w : Nat) : Prop :=
  cellAt b w = none ∧ ∃ t ∈ linesList, twoOfThree b t w X

instance (b : Board) (t : Nat × Nat × Nat) (w : Nat) (p : Player) :
    Decidable (twoOfThree b t w p) := by
  unfold twoOfThree; infer_instance

instance (b : Board) (w : Nat) : Decidable (blocksLine b w) := by
  unfold blocksLine; infer_instance

theorem minimax_succ (fuel : Nat) (b : Board) (d : Nat) (m : Bool) :
    minimax (fuel + 1) b d m =
      match calculateWinner b with
      | some (p, _) => if p = O then (10 : Int) - d else (d : Int) - 10
      | none =>
        if isFull b then 0
        else if m then
          ((emptyIndices b).map
            (fun i => minimax fuel (b.set i (some O)) (d + 1) false)).foldl
            max (-1000)
        else
          ((emptyIndices b).map
            (fun i => minimax fuel (b.set i (some X)) (d + 1) true)).foldl
            min 1000 := rfl

theorem cellAt_of_lineCompleteFor_pos {b : Board} {t : Nat × Nat × Nat} {p : Player}
    {m : Nat} (hc : lineCompleteFor b t p)
    (hm : m = t.1 ∨ m = t.2.1 ∨ m = t.2.2) : cellAt b m = some p := by
  obtain ⟨h1, h2, h3⟩ := hc
  rcases hm with rfl | rfl | rfl <;> assumption

theorem lineCompleteFor_of_untouched {b : Board} {t : Nat × Nat × Nat} {p : Player}
    {m : Nat} {v : SquareValue} (hc : lineCompleteFor (b.set m v) t p)
    (hm : ¬(m = t.1 ∨ m = t.2.1 ∨ m = t.2.2)) : lineCompleteFor b t p := by
  push_neg at hm
  obtain ⟨h1, h2, h3⟩ := hc
  obtain ⟨hm1, hm2, hm3⟩ := hm
  exact ⟨by rwa [cellAt_set_ne hm1] at h1, by rwa [cellAt_set_ne hm2] at h2,
    by rwa [cellAt_set_ne hm3] at h3⟩

/-- Placing `O` on an empty cell of a board with no complete line and no
one-move `O` win leaves the board without a complete line. -/
theorem winner_none_set_O {b : Board} {m : Nat} (hb : b.length = 9)
    (hnw : ∀ t ∈ linesList, ¬ lineComplete b t)
    (hnoO : ¬ completesLine b O m)
    (hm : cellAt b m = none) (hm9 : m < 9) :
    calculateWinner (b.set m (some O)) = none := by
  rw [calculateWinner_eq_none_iff]
  rintro t ht ⟨p, hc⟩
  by_cases h1 : m = t.1 ∨ m = t.2.1 ∨ m = t.2.2
  · have hcm : cellAt (b.set m (some O)) m = some O := cellAt_set_self (by omega)
    have hpO : p = O := by
      have := cellAt_of_lineCompleteFor_pos hc h1
      rw [hcm] at this
      injection this with h
      exact h.symm
    subst hpO
    exact hnoO ⟨hm, t, ht, hc⟩
  · exact hnw t ht ⟨p, lineCompleteFor_of_untouched hc h1⟩

/-- Completing a winning line with `O` on a board with no complete line
makes `O` the winner. -/
theorem winner_some_O_of_completesLine {b : Board} {w : Nat} (hb : b.length = 9)
    (hnw : ∀ t ∈ linesList, ¬ lineComplete b t)
    (hw : completesLine b O w) (hw9 : w < 9) :
    ∃ u, calculateWinner (b.set w (some O)) = some (O, u) := by
  obtain ⟨hwe, t, ht, hc⟩ := hw
  cases hcw : calculateWinner (b.set w (some O)) with
  | none =>
    exact absurd ⟨O, hc⟩ (calculateWinner_eq_none_iff.mp hcw t ht)
  | some q =>
    obtain ⟨p, u⟩ := q
    rcases calculateWinner_eq_some_iff.mp hcw with ⟨l1, l2, hsplit, hcu, -⟩
    have hu : u ∈ linesList := by
      rw [hsplit]
      exact List.mem_append_right l1 (List.mem_cons_self _ _)
    by_cases h1 : w = u.1 ∨ w = u.2.1 ∨ w = u.2.2
    · have hcm : cellAt (b.set w (some O)) w = some O := cellAt_set_self (by omega)
      have hpO : p = O := by
        have := cellAt_of_lineCompleteFor_pos hcu h1
        rw [hcm] at this
        injection this with h
        exact h.symm
      subst hpO
      exact ⟨u, rfl⟩
    · exact absurd ⟨p, lineCompleteFor_of_untouched hcu h1⟩ (hnw u hu)

theorem minimax_eq_of_winner {fuel : Nat} {b : Board} {d : Nat} {m : Bool}
    {p : Player} {u : Nat × Nat × Nat} (h : calculateWinner b = some (p, u)) :
    minimax (fuel + 1) b d m = if p = O then (10 : Int) - d else (d : Int) - 10 := by
  rw [minimax_succ, h]

theorem minimax_eq_of_none {fuel : Nat} {b : Board} {d : Nat} {m : Bool}
    (h : calculateWinner b = none) :
    minimax (fuel + 1) b d m =
      if isFull b then 0
      else if m then
        ((emptyIndices b).map
          (fun i => minimax fuel (b.set i (some O)) (d + 1) false)).foldl max (-1000)
      else
        ((emptyIndices b).map
          (fun i => minimax fuel (b.set i (some X)) (d + 1) true)).foldl min 1000 := by
  rw [minimax_succ, h]

theorem minimax_win_child {c : Board} {u : Nat × Nat × Nat}
    (h : calculateWinner c = some (O, u)) : minimax 9 c 0 false = 10 := by
  show minimax (8 + 1) c 0 false = 10
  rw [minimax_eq_of_winner h]
  simp

theorem minimax_nonwin_child_le {c : Board} (hb : c.length = 9)
    (h : calculateWinner c = none) : minimax 9 c 0 false ≤ 9 := by
  show minimax (8 + 1) c 0 false ≤ 9
  rw [minimax_eq_of_none h]
  simp only [Nat.zero_add]
  by_cases hf : isFull c = true
  · rw [if_pos hf]
    omega
  · rw [if_neg hf, if_neg (by simp)]
    rcases not_isFull_iff.mp hf with ⟨i, hi, hc⟩
    have hmem : i ∈ emptyIndices c := mem_emptyIndices.mpr ⟨hi, hc⟩
    have hx : minimax 8 (c.set i (some X)) 1 true ∈
        (emptyIndices c).map (fun i => minimax 8 (c.set i (some X)) 1 true) :=
      List.mem_map_of_mem _ hmem
    have hle := foldl_min_le (a := (1000 : Int)) hx
    have hset := emptyCellsCount_set (p := X) hi hc
    have hce : emptyCellsCount c ≤ 9 := by
      have := emptyCellsCount_le_length c
      omega
    have hbnd := (minimax_bounds 8 (c.set i (some X)) 1 true (by omega) (by omega)).2
    omega

theorem twoOfThree_w_lt {b : Board} {t : Nat × Nat × Nat} {w : Nat} {p : Player}
    (ht : t ∈ linesList) (h2 : twoOfThree b t w p) : w < 9 := by
  obtain ⟨hx, hy, hz, -⟩ := linesList_lt_nine t ht
  rcases h2 with ⟨rfl, -⟩ | ⟨rfl, -⟩ | ⟨rfl, -⟩ <;> omega

theorem twoOfThree_two_marks {b : Board} {t : Nat × Nat × Nat} {w : Nat} {p : Player}
    (ht : t ∈ linesList) (h2 : twoOfThree b t w p) :
    ∃ a c : Nat, a ≠ c ∧ a < 9 ∧ c < 9 ∧ cellAt b a = some p ∧ cellAt b c = some p := by
  obtain ⟨hx, hy, hz, hxy, hxz, hyz⟩ := linesList_lt_nine t ht
  rcases h2 with ⟨-, h1, h2⟩ | ⟨-, h1, h2⟩ | ⟨-, h1, h2⟩
  · exact ⟨t.2.1, t.2.2, hyz, hy, hz, h1, h2⟩
  · exact ⟨t.1, t.2.2, hxz, hx, hz, h1, h2⟩
  · exact ⟨t.1, t.2.1, hxy, hx, hy, h1, h2⟩

/-- Two distinct occupied cells rule out both opening-book branches of
`makeHardMove`. -/
theorem not_book {b : Board} (hb : b.length = 9) {a c : Nat} (hac : a ≠ c)
    (ha9 : a < 9) (hc9 : c < 9)
    (ha : cellAt b a ≠ none) (hc : cellAt b c ≠ none) :
    emptyCellsCount b ≠ 9 ∧ ¬(emptyCellsCount b = 8 ∧ cellAt b 4 = some X) := by
  have hsum := emptyCellsCount_add_occupied b
  have h2 : 2 ≤ occupiedCount b := by
    rcases Nat.lt_or_ge a c with h | h
    · exact occupied_two h (by omega) ha hc
    · exact occupied_two (show c < a by omega) (by omega) hc ha
  exact ⟨by omega, by rintro ⟨h8, -⟩; omega⟩

/-- C2 counterexample: on the board `[X,X,X, _,_,_, O,O,_]` (a complete
`X` row already present), the computer's winning-move set is `{8}`, yet
`makeHardMove` returns 3: every child scores `-10` (the `X` row is found
first), so the strict-max loop keeps the first empty cell. -/
theorem hard_misses_winning_move :
    completesLine [some X, some X, some X, none, none, none, some O, some O, none] O 8 ∧
    makeHardMove [some X, some X, some X, none, none, none, some O, some O, none] 0 = 3 ∧
    ¬ completesLine [some X, some X, some X, none, none, none, some O, some O, none] O 3 :=
  ⟨by decide, by decide, by decide⟩

/-- C2 (amended): on a 9-cell board with no already-complete line, whenever
the computer has an immediate winning move (an empty cell whose filling
with `O` completes a line), both the Medium and the Hard strategy return an
index from the winning-move set, for every random draw. -/
theorem win_taken (b : Board) (hb : b.length = 9)
    (hnw : calculateWinner b = none) {w : Nat} (hw : completesLine b O w)
    (rc rm rh : Nat) :
    (∃ u : Nat, makeMediumMove b rc rm = (u : Int) ∧ completesLine b O u) ∧
    (∃ u : Nat, makeHardMove b rh = (u : Int) ∧ completesLine b O u) := by
  have hnl : ∀ t ∈ linesList, ¬ lineComplete b t := calculateWinner_eq_none_iff.mp hnw
  obtain ⟨hwe, t, ht, h2⟩ := two_of_completesLine hnl hw
  have hw9 : w < 9 := twoOfThree_w_lt ht h2
  constructor
  · have hne : findWinningMove b O ≠ -1 := findWinningMove_ne_neg_one ht h2 hwe
    have hmed : makeMediumMove b rc rm = findWinningMove b O := by
      unfold makeMediumMove
      rw [if_pos hne]
    rcases findWinningMove_cases (b := b) (p := O) with hc | ⟨u, hu, hue, t', ht', h2'⟩
    · exact absurd hc hne
    · exact ⟨u, by rw [hmed, hu], completesLine_of_two hb hue ht' h2'⟩
  · obtain ⟨a, c, hac, ha9, hc9, ha, hc⟩ := twoOfThree_two_marks ht h2
    have hbook := not_book hb hac ha9 hc9 (by rw [ha]; simp) (by rw [hc]; simp)
    unfold makeHardMove
    rw [if_neg hbook.1, if_neg hbook.2]
    have hwmem : w ∈ emptyIndices b := mem_emptyIndices.mpr ⟨by omega, hwe⟩
    have hscorew : minimax 9 (b.set w (some O)) 0 false = 10 := by
      obtain ⟨u, hu⟩ := winner_some_O_of_completesLine hb hnl hw hw9
      exact minimax_win_child hu
    have hge := hardFold_ge_mem b (emptyIndices b) (-1000, -1) w hwmem
    rw [hscorew] at hge
    rcases hardFold_spec b (emptyIndices b) (-1000, -1) with heq | ⟨j, hj, h1j, h2j⟩
    · rw [heq] at hge
      simp at hge
    · obtain ⟨hjl, hjc⟩ := mem_emptyIndices.mp hj
      by_cases hjw : completesLine b O j
      · exact ⟨j, by rw [h2j], hjw⟩
      · exfalso
        have hwin : calculateWinner (b.set j (some O)) = none :=
          winner_none_set_O hb hnl hjw hjc (by omega)
        have hle : minimax 9 (b.set j (some O)) 0 false ≤ 9 :=
          minimax_nonwin_child_le (by rw [length_set]; exact hb) hwin
        omega

/-- Witness for C2 (amended) at the spec's scenario board
`[O,O,_, X,X,_, _,_,_]`. -/
theorem win_taken_witness :
    ([some O, some O, none, some X, some X, none, none, none, none] : Board).length = 9 ∧
    calculateWinner [some O, some O, none, some X, some X, none, none, none, none] = none ∧
    completesLine [some O, some O, none, some X, some X, none, none, none, none] O 2 ∧
    ((∃ u : Nat,
        makeMediumMove [some O, some O, none, some X, some X, none, none, none, none] 0 0 =
          (u : Int) ∧
        completesLine [some O, some O, none, some X, some X, none, none, none, none] O u) ∧
      (∃ u : Nat,
        makeHardMove [some O, some O, none, some X, some X, none, none, none, none] 0 =
          (u : Int) ∧
        completesLine [some O, some O, none, some X, some X, none, none, none, none] O u)) :=
  ⟨by decide, by decide, by decide,
    win_taken _ (by decide) (by decide) (w := 2) (by decide) 0 0 0⟩

theorem cellAt_set2_ne {b : Board} {i j y : Nat} {u v : SquareValue}
    (hyi : y ≠ i) (hyj : y ≠ j) :
    cellAt ((b.set i u).set j v) y = cellAt b y := by
  rw [cellAt_set_ne hyj.symm, cellAt_set_ne hyi.symm]

/-- After `O` blocks at `w` (the unique blocking cell), the opponent has no
immediate win left, so every reply keeps the score at `-8` or better. -/
theorem minimax_block_child_ge {b : Board} {w : Nat} (hb : b.length = 9)
    (hnl : ∀ t ∈ linesList, ¬ lineComplete b t)
    (hnoO : ∀ u, ¬ completesLine b O u)
    (huniq : ∀ u, blocksLine b u → u = w)
    (hwb : blocksLine b w) :
    (-8 : Int) ≤ minimax 9 (b.set w (some O)) 0 false := by
  obtain ⟨hwe, tw, htw, h2w⟩ := hwb
  have hw9 : w < 9 := twoOfThree_w_lt htw h2w
  have hwnone : calculateWinner (b.set w (some O)) = none :=
    winner_none_set_O hb hnl (hnoO w) hwe hw9
  show (-8 : Int) ≤ minimax (8 + 1) (b.set w (some O)) 0 false
  rw [minimax_eq_of_none hwnone]
  by_cases hf : isFull (b.set w (some O)) = true
  · rw [if_pos hf]
    omega
  · rw [if_neg hf, if_neg (by simp)]
    apply le_foldl_min (by omega)
    intro x hx
    rcases List.mem_map.mp hx with ⟨v, hv, rfl⟩
    obtain ⟨hvl, hvc⟩ := mem_emptyIndices.mp hv
    have hvl9 : v < 9 := by
      rw [length_set, hb] at hvl
      exact hvl
    have hvw : v ≠ w := by
      intro h
      subst h
      rw [cellAt_set_self (by omega)] at hvc
      cases hvc
    have hvb : cellAt b v = none := by
      rw [cellAt_set_ne hvw.symm] at hvc
      exact hvc
    have hgnone : calculateWinner ((b.set w (some O)).set v (some X)) = none := by
      rw [calculateWinner_eq_none_iff]
      rintro t ht ⟨p, hcp⟩
      by_cases hvt : v = t.1 ∨ v = t.2.1 ∨ v = t.2.2
      · have hcv : cellAt ((b.set w (some O)).set v (some X)) v = some X :=
          cellAt_set_self (by rw [length_set]; omega)
        have hpX : p = X := by
          have := cellAt_of_lineCompleteFor_pos hcp hvt
          rw [hcv] at this
          injection this with h
          exact h.symm
        subst hpX
        by_cases hwt : w = t.1 ∨ w = t.2.1 ∨ w = t.2.2
        · have hcw : cellAt ((b.set w (some O)).set v (some X)) w = some O := by
            rw [cellAt_set_ne hvw, cellAt_set_self (by omega)]
          have := cellAt_of_lineCompleteFor_pos hcp hwt
          rw [hcw] at this
          injection this with h
          cases h
        · have htransfer : ∀ y : Nat, (y = t.1 ∨ y = t.2.1 ∨ y = t.2.2) → y ≠ v →
              cellAt ((b.set w (some O)).set v (some X)) y = some X →
              cellAt b y = some X := by
            intro y hyt hyv hgy
            have hyw : y ≠ w := by
              intro h
              subst h
              rw [cellAt_set_ne hvw, cellAt_set_self (by omega)] at hgy
              cases hgy
            rw [cellAt_set2_ne hyw hyv] at hgy
            exact hgy
          obtain ⟨hdx, hdy, hdz, hdxy, hdxz, hdyz⟩ := linesList_lt_nine t ht
          obtain ⟨hc1, hc2, hc3⟩ := hcp
          have hbv : blocksLine b v := by
            refine ⟨hvb, t, ht, ?_⟩
            rcases hvt with h | h | h
            · subst h
              exact Or.inl ⟨rfl,
                htransfer t.2.1 (Or.inr (Or.inl rfl)) (fun h => hdxy h.symm) hc2,
                htransfer t.2.2 (Or.inr (Or.inr rfl)) (fun h => hdxz h.symm) hc3⟩
            · subst h
              exact Or.inr (Or.inl ⟨rfl,
                htransfer t.1 (Or.inl rfl) (fun h => hdxy h) hc1,
                htransfer t.2.2 (Or.inr (Or.inr rfl)) (fun h => hdyz h.symm) hc3⟩)
            · subst h
              exact Or.inr (Or.inr ⟨rfl,
                htransfer t.1 (Or.inl rfl) (fun h => hdxz h) hc1,
                htransfer t.2.1 (Or.inr (Or.inl rfl)) (fun h => hdyz h) hc2⟩)
          exact hvw (huniq v hbv)
      · have hcw : lineCompleteFor (b.set w (some O)) t p :=
          lineCompleteFor_of_untouched hcp hvt
        exact calculateWinner_eq_none_iff.mp hwnone t ht ⟨p, hcw⟩
    show (-8 : Int) ≤ minimax (7 + 1) ((b.set w (some O)).set v (some X)) 1 true
    rw [minimax_eq_of_none hgnone]
    simp only [Nat.reduceAdd]
    by_cases hgf : isFull ((b.set w (some O)).set v (some X)) = true
    · rw [if_pos hgf]
      omega
    · rw [if_neg hgf]
      simp only [if_true]
      rcases not_isFull_iff.mp hgf with ⟨k, hk, hkc⟩
      have hkmem : k ∈ emptyIndices ((b.set w (some O)).set v (some X)) :=
        mem_emptyIndices.mpr ⟨hk, hkc⟩
      have hmem := List.mem_map_of_mem
        (fun i => minimax 7 ((((b.set w (some O)).set v (some X))).set i (some O))
          2 false) hkmem
      have hge := le_foldl_max (a := (-1000 : Int)) hmem
      have hge2 : minimax 7 ((((b.set w (some O)).set v (some X))).set k (some O)) 2 false ≤
          ((emptyIndices ((b.set w (some O)).set v (some X))).map
            (fun i => minimax 7 ((((b.set w (some O)).set v (some X))).set i (some O))
              2 false)).foldl max (-1000) := hge
      have hcount : emptyCellsCount ((((b.set w (some O)).set v (some X))).set k (some O)) + 1 =
          emptyCellsCount ((b.set w (some O)).set v (some X)) :=
        emptyCellsCount_set hk hkc
      have hlen2 : ((b.set w (some O)).set v (some X)).length = 9 := by
        rw [length_set, length_set]
        exact hb
      have hc1 : emptyCellsCount (b.set w (some O)) + 1 = emptyCellsCount b :=
        emptyCellsCount_set (by omega) hwe
      have hc2 : emptyCellsCount ((b.set w (some O)).set v (some X)) + 1 =
          emptyCellsCount (b.set w (some O)) :=
        emptyCellsCount_set hvl hvc
      have hcb : emptyCellsCount b ≤ 9 := by
        have := emptyCellsCount_le_length b
        omega
      have hbnd := (minimax_bounds 7
        ((((b.set w (some O)).set v (some X))).set k (some O)) 2 false
        (by omega) (by omega)).1
      omega

/-- If `O` plays anything other than the blocking cell `w`, the opponent
wins at once, so the child scores at most `-9`. -/
theorem minimax_nonblock_child_le {b : Board} {w m : Nat} (hb : b.length = 9)
    (hnl : ∀ t ∈ linesList, ¬ lineComplete b t)
    (hnoO : ∀ u, ¬ completesLine b O u)
    (hwb : blocksLine b w)
    (hm : cellAt b m = none) (hm9 : m < 9) (hmw : m ≠ w) :
    minimax 9 (b.set m (some O)) 0 false ≤ -9 := by
  obtain ⟨hwe, tw, htw, h2w⟩ := hwb
  have hw9 : w < 9 := twoOfThree_w_lt htw h2w
  have hmnone : calculateWinner (b.set m (some O)) = none :=
    winner_none_set_O hb hnl (hnoO m) hm hm9
  show minimax (8 + 1) (b.set m (some O)) 0 false ≤ -9
  rw [minimax_eq_of_none hmnone]
  simp only [Nat.zero_add]
  have hwcm : cellAt (b.set m (some O)) w = none := by
    rw [cellAt_set_ne hmw]
    exact hwe
  have hnotfull : ¬ isFull (b.set m (some O)) = true := by
    rw [isFull_iff]
    push_neg
    exact ⟨w, by rw [length_set]; omega, hwcm⟩
  rw [if_neg hnotfull, if_neg (by simp)]
  have hwmem : w ∈ emptyIndices (b.set m (some O)) :=
    mem_emptyIndices.mpr ⟨by rw [length_set]; omega, hwcm⟩
  have hmem := List.mem_map_of_mem
    (fun i => minimax 8 ((b.set m (some O)).set i (some X)) 1 true) hwmem
  have hle := foldl_min_le (a := (1000 : Int)) hmem
  have hgX : ∃ u, calculateWinner ((b.set m (some O)).set w (some X)) = some (X, u) := by
    obtain ⟨hdx, hdy, hdz, hdxy, hdxz, hdyz⟩ := linesList_lt_nine tw htw
    have hlcf : lineCompleteFor ((b.set m (some O)).set w (some X)) tw X := by
      have hcellw : cellAt ((b.set m (some O)).set w (some X)) w = some X :=
        cellAt_set_self (by rw [length_set]; omega)
      have htransfer : ∀ y : Nat, y ≠ w → cellAt b y = some X →
          cellAt ((b.set m (some O)).set w (some X)) y = some X := by
        intro y hyw hyb
        have hym : y ≠ m := by
          intro h
          subst h
          rw [hm] at hyb
          cases hyb
        rw [cellAt_set2_ne hym hyw]
        exact hyb
      rcases h2w with ⟨hwp, h1, h2⟩ | ⟨hwp, h1, h2⟩ | ⟨hwp, h1, h2⟩
      · subst hwp
        exact ⟨hcellw, htransfer tw.2.1 (fun h => hdxy h.symm) h1,
          htransfer tw.2.2 (fun h => hdxz h.symm) h2⟩
      · subst hwp
        exact ⟨htransfer tw.1 hdxy h1, hcellw,
          htransfer tw.2.2 (fun h => hdyz h.symm) h2⟩
      · subst hwp
        exact ⟨htransfer tw.1 hdxz h1, htransfer tw.2.1 hdyz h2, hcellw⟩
    cases hcw : calculateWinner ((b.set m (some O)).set w (some X)) with
    | none =>
      exact absurd ⟨X, hlcf⟩ (calculateWinner_eq_none_iff.mp hcw tw htw)
    | some q =>
      obtain ⟨p, u⟩ := q
      rcases calculateWinner_eq_some_iff.mp hcw with ⟨l1, l2, hsplit, hcu, -⟩
      have hu : u ∈ linesList := by
        rw [hsplit]
        exact List.mem_append_right l1 (List.mem_cons_self _ _)
      cases p with
      | X => exact ⟨u, rfl⟩
      | O =>
        exfalso
        have hwu : ¬(w = u.1 ∨ w = u.2.1 ∨ w = u.2.2) := by
          intro h
          have := cellAt_of_lineCompleteFor_pos hcu h
          rw [cellAt_set_self (by rw [length_set]; omega)] at this
          injection this with h2
          cases h2
        have hcu' : lineCompleteFor (b.set m (some O)) u O :=
          lineCompleteFor_of_untouched hcu hwu
        by_cases hmu : m = u.1 ∨ m = u.2.1 ∨ m = u.2.2
        · exact hnoO m ⟨hm, u, hu, hcu'⟩
        · exact hnl u hu ⟨O, lineCompleteFor_of_untouched hcu' hmu⟩
  obtain ⟨u, hu⟩ := hgX
  have hval : minimax 8 ((b.set m (some O)).set w (some X)) 1 true = (1 : Int) - 10 := by
    show minimax (7 + 1) ((b.set m (some O)).set w (some X)) 1 true = (1 : Int) - 10
    rw [minimax_eq_of_winner hu, if_neg (by decide)]
    norm_num
  have hle2 : minimax 8 ((b.set m (some O)).set w (some X)) 1 true ≥
      ((emptyIndices (b.set m (some O))).map
        (fun i => minimax 8 ((b.set m (some O)).set i (some X)) 1 true)).foldl
        min 1000 := hle
  omega

theorem blocksLine_lt_nine {b : Board} {u : Nat} (h : blocksLine b u) : u < 9 := by
  obtain ⟨-, t, ht, h2⟩ := h
  exact twoOfThree_w_lt ht h2

theorem no_completesLine_of_bounded {b : Board}
    (hnl : ∀ t ∈ linesList, ¬ lineComplete b t)
    (h9 : ∀ u, u < 9 → ¬ completesLine b O u) :
    ∀ u, ¬ completesLine b O u := by
  intro u hu
  obtain ⟨hc, t, ht, h2⟩ := two_of_completesLine hnl hu
  exact h9 u (twoOfThree_w_lt ht h2) hu

/-- C3 counterexample: on the legal board `[X,_,O, _,O,_, X,_,X]` the
opponent has a fork (winning cells 3 and 7), the computer has no winning
move, yet `makeHardMove` returns 1 — not a blocking cell: every reply
loses, all children score `-9`, and the strict-max loop keeps the first
empty cell. -/
theorem hard_misses_block :
    (∀ u, ¬ completesLine
      [some X, none, some O, none, some O, none, some X, none, some X] O u) ∧
    blocksLine [some X, none, some O, none, some O, none, some X, none, some X] 3 ∧
    makeHardMove [some X, none, some O, none, some O, none, some X, none, some X] 0 = 1 ∧
    ¬ blocksLine [some X, none, some O, none, some O, none, some X, none, some X] 1 := by
  refine ⟨?_, by decide, by decide, by decide⟩
  exact no_completesLine_of_bounded (calculateWinner_eq_none_iff.mp (by decide)) (by decide)

/-- C3 (amended): on a 9-cell board with no already-complete line, where
the computer has no immediate winning move and the opponent has exactly
one immediate winning cell `w`, both the Medium and the Hard strategy
block at `w`, for every random draw. -/
theorem block_taken (b : Board) (hb : b.length = 9)
    (hnw : calculateWinner b = none)
    (hnoO : ∀ u, ¬ completesLine b O u)
    {w : Nat} (hwb : blocksLine b w)
    (huniq : ∀ u, blocksLine b u → u = w)
    (rc rm rh : Nat) :
    makeMediumMove b rc rm = (w : Int) ∧ makeHardMove b rh = (w : Int) := by
  have hnl : ∀ t ∈ linesList, ¬ lineComplete b t := calculateWinner_eq_none_iff.mp hnw
  obtain ⟨hwe, tw, htw, h2w⟩ := hwb
  have hw9 : w < 9 := twoOfThree_w_lt htw h2w
  have hfO : findWinningMove b O = -1 := by
    rcases findWinningMove_cases (b := b) (p := O) with h | ⟨u, hu, hue, t', ht', h2'⟩
    · exact h
    · exact absurd (completesLine_of_two hb hue ht' h2') (hnoO u)
  have hfX : findWinningMove b X ≠ -1 := findWinningMove_ne_neg_one htw h2w hwe
  constructor
  · unfold makeMediumMove
    rw [if_neg (by simp [hfO]), if_pos hfX]
    rcases findWinningMove_cases (b := b) (p := X) with h | ⟨u, hu, hue, t', ht', h2'⟩
    · exact absurd h hfX
    · have : u = w := huniq u ⟨hue, t', ht', h2'⟩
      rw [hu, this]
  · obtain ⟨a, c, hac, ha9, hc9, ha, hc⟩ := twoOfThree_two_marks htw h2w
    have hbook := not_book hb hac ha9 hc9 (by rw [ha]; simp) (by rw [hc]; simp)
    unfold makeHardMove
    rw [if_neg hbook.1, if_neg hbook.2]
    have hwmem : w ∈ emptyIndices b := mem_emptyIndices.mpr ⟨by omega, hwe⟩
    have hscorew : (-8 : Int) ≤ minimax 9 (b.set w (some O)) 0 false :=
      minimax_block_child_ge hb hnl hnoO huniq ⟨hwe, tw, htw, h2w⟩
    have hge := hardFold_ge_mem b (emptyIndices b) (-1000, -1) w hwmem
    rcases hardFold_spec b (emptyIndices b) (-1000, -1) with heq | ⟨j, hj, h1j, h2j⟩
    · rw [heq] at hge
      simp at hge
      omega
    · obtain ⟨hjl, hjc⟩ := mem_emptyIndices.mp hj
      by_cases hjw : j = w
      · rw [h2j, hjw]
      · exfalso
        have hle : minimax 9 (b.set j (some O)) 0 false ≤ -9 :=
          minimax_nonblock_child_le hb hnl hnoO ⟨hwe, tw, htw, h2w⟩ hjc (by omega) hjw
        omega

/-- Witness for C3 (amended) at the spec's scenario board
`[X,X,_, _,O,_, _,_,_]`, whose unique blocking cell is 2. -/
theorem block_taken_witness :
    ([some X, some X, none, none, some O, none, none, none, none] : Board).length = 9 ∧
    calculateWinner [some X, some X, none, none, some O, none, none, none, none] = none ∧
    blocksLine [some X, some X, none, none, some O, none, none, none, none] 2 ∧
    (makeMediumMove [some X, some X, none, none, some O, none, none, none, none] 0 0 =
        ((2 : Nat) : Int) ∧
      makeHardMove [some X, some X, none, none, some O, none, none, none, none] 0 =
        ((2 : Nat) : Int)) := by
  refine ⟨by decide, by decide, by decide, ?_⟩
  refine block_taken _ (by decide) (by decide) ?_ (w := 2) (by decide) ?_ 0 0 0
  · exact no_completesLine_of_bounded (calculateWinner_eq_none_iff.mp (by decide)) (by decide)
  · intro u hu
    have hu9 : u < 9 := blocksLine_lt_nine hu
    revert hu
    revert hu9
    revert u
    decide

/-! ## C1: the Hard strategy never loses

The proof goes through a verified endgame table.  Boards of length 9 are
mirrored as base-3 codes `n < 3 ^ 9` (digit `i` of `n` is `0` for an empty
cell `i`, `1` for `X`, `2` for `O`).  A table (`tblN`, one byte per code)
stores, for every code in a sufficient closure (the bit set `clsN`), the
value `minimax b 0 m + 16` where the side `m` is determined by the parity
of the number of empty cells; the value at any other depth `d` follows by
the shift `dShift d`.  A decidable check (`mainCheck`) re-derives every
stored entry from the minimax recurrence, so the stored entries are
correct by induction on the number of empty cells; a second decidable
check (`noLossN`) walks every hard-mode game, resolving the computer's
moves through the table, and verifies that `X` never wins. -/

/-- The base-3 digit of a cell value: `0` empty, `1` for `X`, `2` for `O`. -/
def cval : SquareValue → Nat
  | none => 0
  | some X => 1
  | some O => 2

/-- The base-3 code of a board, least-significant digit = cell 0. -/
def encode : Board → Nat
  | [] => 0
  | c :: rest => cval c + 3 * encode rest

/-- Powers of three. -/
def p3 : Nat → Nat
  | 0 => 1
  | i + 1 => 3 * p3 i

/-- Digit `i` of the code `n`. -/
def cellN (n i : Nat) : Nat := n / p3 i % 3

/-- The packed value table: byte `n` holds `value + 16` for every code `n`
whose bit is set in `clsN`, and `0` elsewhere. -/
def tblN : Nat := 3878836507328418264751379262863684843719045453158374628498815453744586455014603884283730354327347192751313314078829576168453594594845708346011639396701506745897346509309905486296832635021585005505685055743306580612696901949516908433930999598289469141417106432730274782178657860614572138770150472423895387662017824782294347383414791761326453327972149379833674563547085330251149806449868216325519240951844311200928925936407729043845140751484375896162480164618636203648653997689537478175101587649734623396763234239507307418730979646421436828100442228304131830293199361332140669587075243194522091653298662005599941777951372264224156170216443469133678471408338917308354905277435932109109717556968603966194048355783458793572898974484524686899239071379657398496143747622622327021407212858243788173038745607349362046612379208879304000499189166158666912422851810799303798919523982962342413986363391951827977679692265199175292992786402848457952910765390352746453340555620993162601246564766329757468587576107778868198712775356759595548733280087218966004206803516132805230869195909230485645095040672626314992004369508900499129197709972609097389379495026558924434974263961649686498054719027555820833550723163742862571516634379979370360277170797614692991354961669514141803087949980830172568531864304234576000912634441143328502722460492410456940267643220793636516468328303362030377831275306309811943653300201033092136195865784841432513524777678167588299729045076355198839021177099111053405117556291771659518292360720357569148821159413784633174869591496317111793178635442748008816521567564233176623707343346744271899679100759777237360003195237687157797625621543261832160193759611471445858988306253497277867415782509634760878487122863344524687554428901371314178507376839063534989430781502530194786206859589073898396853987717639963666596896237935375496317067902302312692577238922557830430090730567818239269073600872006573848821490811646958810024886936960919780819680805692306655150956450695794598294908845487094710012689695745052548593734514272869370025332876260045804036310438639481408805784872981625894996507276106676675279987937558954402320602066546031499342776309088997987830958575332203304534336773146361271852294773754704872753113924605716863183503919778119624997138811613918227096751394902128363719570895187779745087455598769490004894290071101593051624614014338092165152864926368723362357846314271208153509169853193239832020590181251501028271709941007790803896888045278904506398102188781286520989385413215974694160242479964283303699207497938237608721073696606404660592365310657214162239988013257416097000981975241311918832777900473769667597646956719614111302741802005891198467642687000534620586105500234861723087301154415341871441455450491599930612783444304706004998077924166505806249071502645179520510143965919496860234049164433145618312233842593374403910566238817713334349729201878744310235742516205228143550763641468265202757548437292687748534533649475663023661681508536484133820112863663959049674314643462488933884692756001136156705244188328807947178536324191164152177454922678043099984769361654142171989245578378568859635456645868922787000431400355286221133053176948402176216927517682777093854806602968504921204605504703809840684808019438651501391318302142252196687426598738786747887605237759233837665517023415512553952348768106796838901351866058074528265154222938071460177511384729117498296530445644649506105367996016214085790144169560866159789060274012559645936071953446083953131976645892400309156425507198632361700858854386300746470163225730373382599401346610324100422033663752050960192534826285359596463620046614972462828364012813090307418033547943860429634312471012174129728434562956250791814616920522764512699897588172389715661780420145131813644284213143200689263169435546530681179772511496544278685246793962904667332704185048149192643010909671065532574477476823047193281679415012694152941237987109928886860249354354199652920400577288293313271735506269660489456993603967168040898366520679088376863789190497061673264873977842722100576169085544874135604633329625942027858013380247098871156382732655023023985697826914080440908158764487621368714940793600006143428097595974918972473297923902571517670610831071385207966755596265406631050315501090563889534636543402339957759419226259238701798528651800083539463177217465591346605437337129336924490745199786192757776475881979824236224038133273896049133774223082116922658817423880577535423354782728109156802612859210639728499704614650436960071866777711968295544133610774441647556588523153214556379428123660261130895297051132266074569458887257795504032929862685432001771299131307382890741191279606031552107350858178657668532616753880950374526877090409039095244299876906122995283540937526610461840896413841515246005771333843092403164920163890016343816366598534191440215118983234175547192547822068525430321196359684256155829432162802154930009600994843395290756685650447951329768231512564190566366163615673640226381882275776398256103654672824903084829289856647593022408241125560025150789584352445784121224360136887331968319948885449291548868921136055270285560903428397987449442756389256350886047563815830233923800776052740431235296505318631545105661072937575383402874397391640555306566172007929129015791762202545387877610221766611909596098053793911285897089669523398697759558652213742933264341664228452614911428723828043535660672517456801424875149106303409265639202296435094106602908166054586487490748566190742073541614530655023710210059005766183226196873704513897631385967251697227478351593357119108280709568517245328484554263383440033379280182792473971745395770990651016912828037194364342795421008439600078026624450000632269677176187853080966456102599554593340244351337260848692202023109254829763400177057582599734721153337165653426142689644345855174024810299290665676357762869918306402991565024707860520748174069765697533432571785292326857092200386138257305089571703397389715350660288490607093727402763557999798352798296600455853872945582192309981536007884199036078610335809079400597691540361780593866104996988427052036909133297173364928780044419507220626187522971354128943944143655256979528363757422338213892948235256683745658137792394548203040633673280140511181272719400970032313081182237996970805869552747059484489130910779091455638306969741748072801679355401529560409433701397026433586349213871620348647597272805476703915374046775945946351247566894519626684133496795646077087106256859457620922969768776093290179180988691069031479649628879362881482315072401686518801777879169260350149773997585430583237574192678592738115525611161860355320782071543520919467271217797503421389807390821771158203444280655370293428037474705663171311664415599198942959156161464845989409463446595761869941578738908473340379079988190969503598712152925776165660506608642511243629577296721774387968398751151953555850926171488929352475280415047326563713516706426974638503822990074837869870267828676510423258245734823255356051981603863277344585755408869376296285082781872570550030568881761400994741668796577461317731793920117947229126527025098156450258984072839390950137824551691383510977974174959763217375599672147838731343625621998840985089764384716023405984077185166932316095952489681970482849143874037207878533049013126875426319649495942953779030874633853972115093486058265308479399832078649501766479961394402611585062349167459127051294520805262096373721045947728836293960761447728491174244145033480248378256194207368293836383605556943312108532813398223346570609835484521761500081223778891241718282203198523933140556350457414714121638086270274746333019282077924171069673444168360935618688728139221910836784494823962089560303077918235429625735900274892869195197634659446587343353437927572626332050193386392305608979665651534383929585475227928399919913329099221761801722718832389637868067586020024774007884907298218968810767362430719363634649556991949742728299656213827744069439695058449446388012903711395232911221115730433031251845367460912108085791708989361315222875200470442184250113841502327169972788702875709421088859910375550911447983751863701101391752236773221675424770866616576584608743351387344972668599724208720901605126970936515012482617176314314516269288629966658027118247817440472158874063836525903664344811270214951846270102511490157529851027672305827927056100224500865071488671167688713064169678750634484852986886594612207894788899444183641937437065166131609043848184755370556853571173982580078798758601477575595521334479082951217952689839749365593681251824508269643262289789929379895050282711529259519448545655207859700952094041422532134585358216064232879194648058783594577336934013424137815888230692257678359743027634678902695960995736077025821436325021304322059413377547296076657168233288018643157048269653361436364132516727532472937119994056959234158770147830204679932591552377464191631478467881839831628910575311424884539965449130244164459297694087107812239680522350276900693640635704837795182534160428386493780681435323289689074318913158274457067750430859271253058011522734991123657699078199856204399908807670779411282640662340123474279896881440679270231465869619416224546076963530215803812470753289116717497799721290254252383475821328906997250981367191483022541582814679538220806981882198132634120852489899214943961326647412293312869809554496064364159369917516937406288408800815620520702384890491962748210742891926950310554293002009295490528892024223170486049657928445122728030277645437552963627472532778718861009070717574982124362976348069513721288413405662710642514159689065590067597895892753008312239146169194311889061820513218718524979271530001533890188987565307566456211014185593090517786625832768317565280830527234522295478838414604508752233334122641309579059033376234009575091266561382427796429269952037399800359840836915125654484826970693802972378504569754842164597410624132931366741530085318199239897379081085071656245610749071844437375035592490326966585539903711039190866269491973366751487553405283156228021298705321701630622957864443914973782926932832694171719877225950568997863021839928158206781594215248152386322345732693369180490402813162245666171787218985623000399163882443474005446234753985908764457322620438100127260799606556020510420212311756455713515594177579693363075123897025671114243679411948415445362918758331799727580233990631454635576820344562737988129391066008640334684170631872510236011928710108378839030080894019394882704641386220695881525685236703677572085163107247480942048009979928741434688289204183403403538910867679914278012784427700332805477849639620461356915099300416433011543402036683692259039862808942571313226722396677601555030518787014311127479446665335047217566672476827164150138827582077648020283941069224884381953601546742003853996904445972052343048419121354730810171878715087138023153385439298586040395063927674599460935217488724696155364619509026511816169228983831921376443281774123973043244391709669908993227365544497570987904217629792528798146444016655551941656983502884534293677769658054884450320951242178023414298841370851678923554085746666228595116856748964125325209445012726132554168938760873094448496872187415433802119993533976387300522650593201599960149765711860852419676505790781546069259973961015242097044572819528848378522124412161148844498355979396611191566483449181569950381389030853921547720959884499376854821158119279603882310539304469120856169192928832486774309329588466820192062003837011917922508272737477430082960631384411622030220797986415749485533678129099956063128562548326271328975521997059112546980481068307890262307436973967240570256158731941393872935661029812373211231286885375191819030415306702356003627749538108603510736298132702623155879243195793360269444039902654814890601757601657241611469145562751774227320807090913532181876107555598222977609391237669407046811548695497493619978295220713210120627250409755290747572087221533376093993929198626205229888252877851988459456994832232332217038378052569691325376867186132825545768298995679751216178637251709743605441438956969479746921770221713135720250538170377133254684306382596291462146537633109139720210194079014003598023890987256528178295497181624786061445020929470258840212075243128715400889774310066032472090598801338514145024260254191331032890899982515346392552580078504605749531490547015615191666071243065927745593397508232890138307658634473024839951309305238640940967173499666651283769342335466554870432655130890149368394159138262667747510610297814352314860273917704253771327486163142420346711645880146874579482614705708229552492451101759551789529514195712235265010640477865115249570971552968246442485250199152692897449308774680512795020619113182423948516876007729096497453366215302744121086758281236299400920779917045959006412616755351442750647830002063104788100218379661817344665154210858642620238798134362137283610526536536750646211390650644010705402655388438589540201625632708653028091413675722567617205948693829884314982145298626690780949142543826768119918524450125017212007488265325462301433074100968006524619396380956191605382721707099068016301590478467815314042403757638373084864486908007427126347160994325076356340527456529036702653212340130954691078752547014635439298474723803229192093459607938243404424107214792484596687291185705927339229081951152272401323507387351941029019445213013108817445087807023773005006971714715870815136091342484130206348360682044750525855979934850765128615306319619428985037081793102208372570186078729392015921172569593036576345191019552739078023894784486381489461308221837601689054868602538413774615692338793505062563347679461685485673796099547303300561972128372161900177846017394409669292971752215548116031867352125880980062778895679301896001555446729849351989986158430014563327307636238398860421469761290761300352259201889944547989806255675214418427938835771914560762755592327007853657988330598607925759674813210500424975562737811857542270369581425621454691010930645000468580512655582480787911355819685807628857208333977945902855547991533909772957378927522765140615703547472582795078028401190571149561483578008666160128861834319066956433949157647243733199627872615872583354260249572508193225389474118627465036224578093715018093171404110162006533123136936275437859781043012056796782676752386760338231071008600755417289847985457609780649447832532059253746210661189522857046212356750977003567382881467412049677574855799473235653994750073602560336746603733296351739150632611800411205664012254621917566617529439789386061638946733402804986794565061148168705588328305174784626556291896900797302217093257962578918783363914054674095908011111588202620700821529431784962456115494988115202998713233691336919334082072080614389569596309237430891960762251499019533309621965325064920017480564180541387896698130508551027181461598223868076982504463147077055339518831493823244691045969707866853086184101384964046884421328484099443058025273256957126773325361751481773625045929437557365828006950245645447798655868770105880190197257028075703785039099979343886075901026667774695615928553878267773990175826361915622046399374896386240712091935296705805451203511170377863827805533258973198167720328596775117981806833648280195253243791651932677833750719238711376175358510721489916816375960670878674550513251974012486579141740651026025705049550614322437947704946128518124328574019963394817288157766467440820726951050344480082076161748929905742316209289888578943329559505763122667306175999759997097968326513885454857418181546888140543414747841906471048208207864971163519053963803480861855591890917358557645767715068317191071883734325563563462260723486309914447210120608199410372914317801589710917335172953050550297562336161085010706112176383347805902901952895258131826464942584240960097868127247135361688793260561687265081013220436148772539010303664023920729867469654927269421078277748884279083413212514119569171865503393920286562636402545894308121734475489344698440993259231976491273634629335170224113850577904181972311767238915172920149439255431756416840534476571984846669278507097239447643179573050739886348488070985952549307117370070256438066433208560898869961036847636196553721187890598943665558337969784316485782665501545909124698341983996414738816782575041369874021278316065876185248630537804112026293424063876490368524841652122963604213891443538544608571556604568207403291686113406237003543509336034074505356276338432688424437310397002185347390077558148655186283028036639249621116952550651499051661202652648975479188284983945589740114120151988111502525156613023184677088817307164750098166439898842250901630124696798924252521040832329484418619973339532164738174282946092402884037769275839646639103316146177969593824802478464915231155901539559442963803638926762392254175726488789639768618618261507805591191897425914608529942288544160945796433556169740585819526961529742546099052992364728235203816908416887514257272989531076871708878139586151746213149665853609249254837454425324210423311232284741116025139862405889031696099296563270969781526195870942616163102745206937593402651147102326703219814327577918355307459417042100028201888339846281518698263361045731406869831640506440380560312271352027033010534880171048672001786587468901162264877264924564860669602116803245028468832662485189224718306200349213731666639542089038262077293360214038392757803924611579442699899639750737146450235067305523950318974352968793563037895573595801439139821911985248309225020426904945404224711133647697056276707222795694826513762231285115163507511447694554158219113113991083928228300218139223569178853031122767153956995965245171539501551030393282230978151763706784522163687789002778269177255241472762293001793841375655742950426771124288376890057493972173149490253030444291045926571428177036225170093070672968420645972318294564059846569912073176039131258777427979948359239782470609002722924794771873566921905291723185725486918588288570989683027605046315516887248666395856853635655236083997538639292735118430014001667837565451990953173506005122094409469319560144970687222736089436648016996966612859049302165391655700735791092093993182954173355080305679815333173463043313976689991122458636147587921604283277054495098696591936240648197827687289503698517962491717160105069117213952921882196839909528411026968987103421125061728854916732203116088268552137286985277982583136972389155162110185587137580053128454053623666987097857792924832594981709161456044671196819780625588681181057709315519983623745337060495726552057380660022884831353901544099709577690574384957247786074657281746444604831595314774700525467067693804337807844278797226397710560684665593578258483157000112730358349491534017901378792591060085806450542156343849806081392959507235701840061163808818286111057798540357454377988022187490616357528331122553353116277699116035645463780192235569848673078425063721953705958663949185952840063416887566399872519914284757850796709941274303489932700127529910443313753187121543346625434594614945372180473084722618661905727083217553633034114902880291065027008866406737194166246265313266946230733692626187924111409387790728965161872120210216865207288517752679651660356769230065419479394511736537682492230279171439718847512650387905619773624469176506125315840865406681349046093961682922828225883490659231563272899945727863170513523935450034600057281311168001449443360512761346462943577860963330137086135099038532703649279215013998140236888040852513793044631805604613135414681431997627382230864121922612593671606268028752159593737633489689304025022481034588694635734332775526688812020131375652246845947583832199998646665480180286038253546465000728671784914869043223701594764413328833966046949483098729411272647512995755249334432965181672824025671170776415908791087629100891770474872119262640996503094596529901110551247986598468937036688998581006574121269038027119095864018485143862987775390155629414626259867874116732290601374204000577181362456651760680586129600408507599698894279617278414739145840896743306539375938457550327382378413095575989196353416688821344932488623305702415542078972365065277063149848896704784157305325626050375796563290914527783771659121916712761769128930404242196511764129816577473505313178498249989181727965318595763519881812271405834451774697844597530744874814075729867651870085865620386159608582051627997988563580453334506477015263368189998516202099494629718532820430926227988919471651190588143852883923595558138773361997015853190658182731766733914868568940941210889870687126367712596390286550959957664188104839278518603021601572125323396365056701393184422429645915677390409531764092274409529533373488900583830301969006405594844408781619395324606957571906431281394164435144985408803995813705426243104223419225671069587651857409357860067104234356018235128357520024755180990000499037566132609685335607532851772883182495435568652902032955656245238393362761760719328036248791276612791081340732528513961620535311909909457866754180820533603292596689982559844965172432225711451012537637674792849606097600017902962240079985498109577815466618199423005010026635763660207289069945971522364126158017862945420120834592590043031087496053965934082579153287688774266821486761728316468117621068362504496723946058455386118438179827362438101771518250383363684190668541280119000404984395486970338699000086475810574246496213178793446947913600844654178339084177816156009106259059680030195406745695739877764881535616324401804661630947405717044397464918502001075350232669199884072624942964219602095494517933030703488825974144135426573908504449393587584005703086998285768443217401579417533638109446458673603165171484095996440567996742958435044427035548582410751317612730936404209049452253556415357979304165400029713936393537911582295297229504187985076096641027834310519752882152903960856444204907208520298686011846291996917747769626178204555778725674089124250601829147770387736466808723141288794688286597224150636631054827994936298385742394588386414913958106867636790701606606202614387871949168265066394719991457475223699462636958126476654487878937025410302848598527801755279170979937161792383786089137168019638534434239387285909669006160325169141869590335198972882392220666871581182257490150392953945324896632015171276668766451891263943726429970653741548025063440002799451988053435490819668856850527299374965549331664169641058467713133136594510691973703997340511855611238565824265198000094108573769302325625417189417729298541394501240900425302757068156757562123722705548251694879981460099891541943142222701052730340928053101237197467686666328792804489723843819529299177663162832344367000804338213900473242173276224415341591804573163820452396415985949182863580622923890157779843961846400699034806772141379489726822649520061934506506924770755580430023882248213082317772329574019023258667346065621198199453739843749991511699103741609877372772877550321564357429745176365662050006498289618243868408662305890983417965465828472539416409367093618727298509150981930304715904935532423069998149046620834098128334048119944743920507806559933678765802769307405673563240623644319231880698872673268125403285540222970375433091025988140542662724607524888984403688896932184333549951008442977682981746656745949412600250566408776670969883631835898861290356469944829910549267930206994203947297305526964331776601712613581650638753809093689131333263445805625455605178045413747060638100668050097363785460849820738178515712199562137063385197430215300958433064073039839583721698565453196886533148057259122069849480057049891507924286436376950056637203021182551156987137743451487741666719301590223399271601353193302729888504435498416489202743116584901151472449297226566081714388977975937832678704349460222653172365735795094714191135010581025277309028313279590640654428289078238662046179853769261386747160983245083000567963317034235492882144115011117990499499448441233458834779358740606650398373876748977324437375520129777798852726971259044482608078159271779736645983192553820592902766943896959954328212119236583725585954720558067652308339581277286811217364392480288014171267935333839540576755302936604639263480908624042096733412204868771784476509369830651919506694133748948594310294680036758485631254509463948698895433113580543808261529514597729441839227366501735126327595672203512208567584793422596701740222148874085554697886871147825179535474760773577784899141795664472865743149945159776100153353530689620977291658881529879502620419268691450851740383173654943237451164025282247953417275357489565778111171972288299129159206209419300557769274485612867614898682446848867752439746599528415724553691110756209013965167176920794225667874448318267423798143641919682755039720881765585914703343350354352007565517484158783461515385648221399257749115724533562351174192711279503777697437581733112013768074224597826857684984349447179953452896601822094485355879865291484398767517332257854531487993773056399530722541729682871875080231627604823359652750079476239761237338740750670736130007427499072972414571522067510961970868811128455078164959697136175230243585227784273544501930711877139815560622216544690301284326786376664429801549937436011486493556629493969434001754588532185644825354079317665972159819590813792818578286141604072388501231521213209072295578987075690590598307584452780617086965957307333708123914092702956181424246092662666923041923409865771291988478561422954167498373758858048340661363894523835270343255345733852668300745441754908114458759769646695318620779943483394334546869210431779943522406301406268561570023467208840727410023100999781971639244833878129947008952194982856867349815974582130238633421833429663659722532070859210674813278502840801339112695504139880630556472294445358071630697475615533386401046932901625373562515622912365701550162170960588813897307353535461736577417068611571192150305679840085111283912114011889424947497365544255388678308588011765275438161387006051239142827022290184139880554257992321284720102883412090035901071760534511463125061848733542155060988427837130766276201947542667362101678138195576009638131438490029753133162795811655214368835725929114695022160522198867080369311245534247673733740783073385991159251117586614465833567565320194604893938768200232062059339207614775981044728475974472665856127120899265792536809926178958498561505292978920662730478097066181181852732161019492248592261169335065441790875827888354412411247841513669865921976041242252162142229570008707468269208085015286750648457229865050113136300394639665535114555993025010586791108879240127933950877474480713580142341659450370602697305264049732088303937535295811106154026860043608571895041748762274606785692646585169274148451553378451613833167064588413444042242718169437170404923873490012868439047069910050115447017239611849610737964628591426025571783211489345587937962202281874242118004648938513695393387820026917323200122182850146830754975634490628603231628410802966928335726808220159755892638121143392431417294519987685020494223874694474099819986917046604610036540484306823473648455401080746600878450046803813883930180467100178049592675313509043558034177658513957804622602398740497794857814511800931236068040013013878804941474417901227679843377850110508279968642929567725835249019298819432299589448602506478254028177801332823638705590052083352755002536356132689757103626790076120377795230117174909034415318120694668517882792723848936676104801014547894773163882213738487164704920446270552878330449734072114808262837590993326085464648930583063166041678947613422916275192339989605392295878482066779798572642845066603084083899332606074905549596768878691977804984873919328924130865288078081746337516922947541644442713677727713920662933421074112423195155077125145118946312362639025460750967567855416994047183063615384957334156722519295179090380906551784381010141204012000370223556630407556340148209862628924739662213517701316054918810218228067092659636829166651965761511900138199419014982981235140408376627763142970429985689012038726691674711278504481897547487213713300981422866069895564554819242448429800310152602271860228770007426583443144288930187519313638884523146215802688526211713266268696240408275153780669719178813676339180024869064648580758566093461619255651311694826920653791521706522686045676386852227060215480683062009777195852669111851592007042274924451282509446414330533557135016246733373165677132561796994546253422104307221993777991905750206754739125071189413393860735035155770559117503616751343058625995246499590697781861098164642773806404950162642679944971161775059069602556673565509367975355540113436059050421225298604605882740770906218102161047996933927573404075839588109945304295021675250425899651904244157450818083464460820241123666837098858346789504489204172965620139098088845586188543036732542541456835882292666726411816176968716910928012892555796621097107861064825958796875972890383349761627606510364172803977728296179376680982582297834600056252851741939495702809985848450410838178732939755152866964345793022390439327936703494085837157992330338506185162075895288591083500952957636594535382947625965132299297264474100074976904822658202879833247574692616717426553870532771894433596683586619531925452363203044855992597082568251246010366554896752995817110050793021827215646094838999323292102115823391416264417855894017654151389231863794388754377021849404777813560755405655107616943769131148692299100204715107646611969379498910059415347868150003687592788823087128446345528833352085218331103802338931630381920678103425260431474805331243405058745798032319998491068127958179819874973633418169631841371900672197098257496757995186737223156457277719928568355239376379024689649403367370460057509113482277409425661560796885447698219424382427925753318908612572049547781646654266387351216176408314057827688264273917454865318529539590275761984338566315531254136715650842213610175186310514126653519456753979578081162197915481200200372410569100807007769489439939811827880834242794429705101334046382505965246257452285196423574509327661677809477677695272255240518227100117352076775662773906303207365683379225835575875124690226761284052674773352642587581978453385698308516165102790587760083454573850736127416002998944567301266633292995479853224001852786412147311022448284787256313083020606085575846786440882257790454279069172130231937391884388105515545504503539000533050540993674532994358839580049471621478014562453408232696678849152420474506471558238771303947189939983980762465722409468620347055167407331650990415743438592548800071013459667537502678943215120192769070476352939571484503560760107096273640432515080141797008541099102741419811881504012908653013093225066924074933572313045424487035283339066901762963762796438799683311340660945525091036236290665656484638744154810223995189022200573065132123383752294974796477016027345882472901141241863471014836493821162546855008993795235696255570622922479882164039363499518762237371404833884726259827852184081997347122516988172290884883041291607128708072607056056603995687548537221498561912775161823021953325744933275104870215423962282842190226554568354021789549619263140464381289731211695071019991607502323280612574044219281780552453854739531325460816934174929478209278365597293799422271466872118362617376934904828021330686799557566485720025581053204596343679045862219368734264898805886016916134023790653358517297634348958350106368130928855078867807858070567592100393087830708957801852809845708921714435251824010663377837673249892253633689823644918857696292872789244257235335127010526091371149844700640588901283637997328349897175759575739322872278501521552179546624557584692472341600064061630405508233635345152281659771508548675198743546010863631904314480970554039657157721817982005818481814448546876009933088329616948585524369241003660997577448741046347619031840920195587860987701834870510095290257068383478943618823567330823793929953958737392589602103335217603030767977006972052397284239963639663647356305978912602250873782650235513137262464860066345718015963048338506637230763254574344724312396916377016288768840588097862051698786832326199610498296024454466737328727009329677142902058000097598867580242247852924535876889620797316101416512960576086237079155119747194165480017343408031586768937412769644516426978835735502966039042746230348634229388614613145544518764197354503661237144976275119077250209290939011981922494550061959818788085195874058104813278933301358582717456953540641119309383691530009813828675587620460536283411479765756997227059958662858934246527510292955390242941731936007426998094560254967032252535245966124334357118984738138834472417195716786545941512768377965258990206733917649698564564913638436086046284951287459175519696613455051228144436282521875399567746521195365528094799043279652029704950434866238737644901889636084315164709406389297731868808939826241971022101228534005406591072495890268069466522041170666117886362289430681205161561770051810854056615707832384468232011785223904860556272933804553960412469746269183514055135370061956493818860473053095022735004453749380187348591194059024670769563353584301410505832185584678379495332429399391434798144492266209925083121556067117061569858424736357132258167340122459794815027024734780150864502887786265429556783520534823162493757896533703168410704225756017256484964578293018874327762770192075011076426683526221359730448307626067771400304680671359269924369436589429534847147014525593212531911880945569929864072966802245365267836982936460179485602757513992936658617126619692316980364139882376172115090348380510033652185249791524562443081478322114520476189620348350152679727120785857004341781094694712116731762641276408155747220796674339684496110469836514606275024049073275744072376750334439183686297110370056647763324902462804173599248544875347884578621734047821858901881527466299962006473531657405938414827687181760526137821410316683584405061337644575291258260362234477080672756848635880046952033160496497980059728812175566881144774217188596955055647589018701113422090615946595103516738801011065276117515274493724147261993849808328425788226477334062860496219805165308542750552804898918359870485897289600054721134079025302359061000985468392473939678810501881963432434061600531576078065132471009821486872443477470785534539640277925939665157338864607444164022680699180442356770625712660171746348748615906879432817650634239372311689711198193125210156505789685915585743907198516243948549612671736142108680738688021428968759230553943777675706134255607814029745181104966750244021663748825234801194143773763840898562627625653801105068796116131366341602493085730401303620351665285201767904904634475655714927511035327257756423726218013839267550383387510173062995370901002910810524419473258616220244773678632268104294081061973482263711037667632383403032339809278656724709667142690717643190638045563849405333125338427590046819325010930633543004355076317121078067173205234734879090367767141984299380952166765828425530174109882923928844347388459118128891708889789046560381951603720108006772285532778108991431404111457443020907552850100116644707892907100360965151250855814264001880628869055563920053047125272758101463561860081618423730424176114454127838580486151143626019767957319272780696909936942938057591005875140133924305029941946268547865419971369378140170704196197368014652714600381862563619675856255309928685147346217644203830658574856711102728377497321544136531713214294019485217975198803085296622997386281578466019793885644287042882037973793987272759299906675020371358496808215747081745110731772825876595057948326135972801218127971265018120494954854772492474769248649902462596190002946940392856360303357371719571540450520659903920712723698771919696029411566593461004463547284220656923648524848294648402901003674883296579203396490928376498561517830640960359973375632875046869262651124747045371862259146713719008284738241515461952366175753157092273138453155816697367104427149382059731521249842622583520462004999036547405840639030895960087536835363762915366910338506611889638248847935450480586136473651237205251396687993557075735691931784076874205253373505843591974387242725907061475582820694052193055095435566972647716930497731247537351888712401645022443099032501355325951923914005719030772786120205982217995101173270941827242678063840251287288603342188771235787167451415668800731897244025554217268057404645075466872667394117048050849664031661163245930330706978900759558057368050081479361165218254513680303927476164801466599412179047194920967935308578811493568439982129170674610095739753060661099119627178023378880451566606333000864581579600169513377195624420084310141894806678439198624461371850262486324492219280196393704974402898837187751863447902930919992052684398383841062512655176959683803207547635699722193772257915574539502135462366697404884858458697311509206832483560260977557169633125032188641247166361193037231502284721117061301580926812759564693597353019161519698760376522822249640236837057875947667027666349827837981962897579920427487656848746220338426596874937134662144506096443276630070443047311941362440068981842082232406387512811291577644144045343456216089901009092149383126443993573315612848160369476424602956152974026624027251840199428548429082162335449163519730392851903102377415087807375991082708400492303565942442716604896329853039468869530426744310527118354206320197492091223445308325057354953488372644680211641556992109556869631581390325587507290644223881757391742292862218363799388217411904038896782188492945533056741553637116370927064379415225580160623756446995078803530609607634096893585945474748935156948339213485859585657658683551155832487868903431966828957793011025646643066334906792535350918661758751128531500995888412959455990071035124101166653129481611692626237787447756837774568859556633584070155106781884379275911819438926148595596445193180141499492818677569008791336993982774932216492961405100363685036630740612063973772007939980138791905636282098238471957624673519253589826396211435628447831663238648736803481979864407764091236512918875372996594775646263254259951479504277881273817296792738942166029848017077565951739923542286825413678900317338502842675964594279276282146814948588749772891343796536072062753467145671765478324339518835741299739585232533009758812524824308146466773527938400619772778517769852137595023906051295917903049279385716608025837368004138830681600891370987564376102724840831057494498596115791639638816713247581318335440404001740419897937206264337663383236460203068772806464184230604223193616452400515641172082978148805995647120918666570980758357629907376312143293639210150400856855222450419767435189799384579678805780648638179097821136227021646828947464241096483566622167103272283560664078883301664910087014434031294788955415961038191013449376521333054171248268948829409121128591770389995356704346239164751095354014329341944686837819963649271989812180129833712272260601022202242896848887859894383229081169982215268237393184629537366208634194747397238341703422167856160514463341573938083437836560054173258962729309902089107110567670048435816898990892029804902582304522005254604824102285393750959836698239226378802072738377224133540121634353862088320851855360499353114272161593810676522607631050143293671295254173268505940919639892221322367835415450458966569436524242627336886782192316757294391915751925155290855794973547156397571477382403919121016471301135168341792842905068197387143046698455956863578300903763474664993259965160726272001100382452741721926005685850564473858006603503000914569104481622367190423285830104788790626833169186489319973288430030312264023262704697957403832903160100497832352559865439741322139733551403194103396189884525858411144143721825995916169209258652834000541813076059020867114564126952545855137002880507576762634096035651020437311789118019549409471902357919542443465441476636765190320520064937969393183204252084843715117594151423396071716629498717357515690759007166030264335310283105176542826211211406350857946259851612854040057929019445771664045306941332903864854028487642030655787523897362705353452256409835781888641874988602522290791087021683640620730229238800688188811427577541801318246099299815517336492051624103862251848759684557464750041267330091774297450806823431313360424251276976862133794307740723262248221528856665938669270174188829316816366060057458166947598620560258529793852527073963052264007383600022650720305728570596097875528251678241945248938101368397237408849206963836504348417305945290899967872700278260666528133528285909546377933244563919787764837803776432965006225807672345650420171637642420265751828186607451295010436119137179079752226365587814637360095645122885109071020559398614513346441476143139819042676396618442835339330565639530942574814043142838092653019266263430970150807413138680737240836425310968868293416557465003974558045838646654159359475749609669418968152605777912771692103807893666367447169240852817425180291729872250056482711228136445837941030490135401181743282960642659606657767090006701791007611448564579004956429016177229518475273604956916328834601167417157462035587436217606227326949065368690091873933605827243465727083132343139586184585800203773939650833292158571061625041768592414386775128352890674729917253268816313268359037931422811798193374822532279683377477700357813426548903575358561158386489157238792538089015620197453253039014298197984992286023000806981493968023809881972962985409444438078370519066717786251066566945140306202318372761514441403783013144803038524883698988872530131566615536428436624090977295325297266988161752416146563416404176693877232810319312438761392294670520108792351830851597303051867217191622658634481722485952300994559237925906114066898391748941590227697703890446516935394670791473515445823662138597037111805938184990064696638381073164441999435406386376254052484388413943617003175287217209767685903602410605677620093325554346683250298505976681398312991981933511710690810153184895253456865627882981540121026096049509957901714536446113502772221964884876836145663439364760227898439232757913051050820037730174226641083565152616680146551043987154396627953162291412706740322346369104977328290670085214048469832583467618495187190386836112023301926343873248450428145062251478735655566020354203823501330968404834230857083183763434718192422963999495271530762943821809780538462738876074449512213988963704426603869884820589751265455819346862894600455707188584235692957570734521187609491214948812126773833008197597779097157224952598818607307649205848185104964524578130182326621544769144696854900749461038399162827630984753203079971100041391381680278296245903737489028544390434616646695079351682301080044531509041872027502744449575221490472323184531942046698538348479917023242606701642534540326011386362519295521933146399649475404268928796734521003232520088631139500543287858706406517910797199122624175226401620910728167924393364423013371978314953510338625107340901464148576876194028364247379068107387496978329375661706034775439602054156853408929176058516057498857070884167840778328762511291928959771358695629689491804147379153183285787037942972176209077676270581509548614647388627205791678447804865618650101418683594511257595347978520754547827673352655989281981776690743557685930767575618024486571984329766358023013919277753719523467636471639438700124424165098648979543778603874255493102567978716283266396528118497419735092727502063732605971890866703021563335690359025088443077264073677577955396551051544332795510321138647659278216213764010875690037895697595765718936217005554201517666318287285668282738432988743348552450954047956814542684251393766489183925023804185780521709590256313180744919427330254107955470684968175071071428961098026554275816637705407638095532030842271229330888233665471982429684330038410755380519061912656162137860658223956597706970391656575791423602802518980044532062390471185840025464255243096616505927841004218220978513242649174573885978847294285463344790247305177375296096303714155921614319274902431719768310641544997925742903024647858220557527489650841548368538768292278606574232040443323776479658214492898037657715963606710713746691550776508048529380473964455800794550885036349090967763962220432069485681518848183543023139421002234489492517694483635758063167705953903177516084079902464745691066188031098621120303308598928139036000536400570166257738118295189582859949963340641018451656146638827464254700044544383097587808613029066352452475280319951342062953159549488026795504887412192637365897648137521448953594866937345508162193332302400617013108157582682323313971658230847050440979294502838981478005442059923317268590737852446417536710602313120849782303612585056358544602312358072721512412705219653543121994332055545063062627715548089551701287214263796835871391059277023581019039854253645859062479979351082366552253363956078505015589919461516513047660159030810860060960261100749268506975903385442842416437007876994229638532933707983664814944917487935777419171991141696731049381924575025146824949639740096412426696816396631848790717832298515080129571166702252722672045138425919554749698976476368724675463269798775203302889013682397428287296533715491350430421795112443602925279856233836855839278461916168958219204285852006450141607612999838168367398205650014529039139021441020056797763959799946240274561379387919424626213103509358088065842317439897809376880538745350397036624005742613914585326379748929243493894389914435220422463951176137173484227820417962986422111816837564421887620433969413971363872935215006801784836714918620034514144842440622671778707905729483040039008104394940500575677172230333310698903642621473263649109147599357284045987122150060210342714015295702959067691211444755006338455928628767390664713510235165450464377750802516322355753579246886704784879231792221939414552748919261020604926466563807495401231525974120174052471314891708433571372499857742720013543338880837116694544372348930699270086151369804158990465307069542496685127804659152997043379288077633638427782884489822816308599434911024116900553577364734313747521235098815561620220612730380271927407484981440294380444673115537462737267766501108011387936403403117778908613808293118114967456663932214375536358021561099628929204289714205364328014193617491619612050765612213834944019140897145192113399956296808419419869384361074144583308899436521675257572564836431619015025794224042472516749976229058145534071569628511811955120000160371192783161296767911950046850107649304344769633774070330564969933478605898630069247395302558549659680467493659132467050681635213685753807022545923451455901253003911224488773993060639203953581091476819217237203252613735204783743604936454568704197047000616169387718797308880628159196986311021745001661799593840893788058855476621706356293267646242647908447058213623547589142869902450523089786538226586059298169295302546543468724444002325245684989493037934317499705518060258215147124081500361210123464356591680405345458186503279610598994476203541523798115378908028582942477209494911988659943734834043591715722843662383283562191497594614127528160242528397713686113131686769791439379130618205765380958265129664483730798140629829208426065143408021132402960021477254598685592192485090836064399587285130492535945559009620498795741839804135158018270351097075710185486091149693272907655952925281390808608999056821220644281925625768793137298408687241427267750258794362562088147730953803768139223122631847762138933822262424115513487712470124152149549973952620255288597255183221467246794679255040

/-- The codes covered by the table: every board reachable inside the
minimax searches that hard-mode play can trigger. -/
def clsN : Nat := 175784369082247270115172692143946604140714589011874833125656666660650156021402495629216747118268157247033182519895839563439278910620755048670071016975581224741204720544767937185827901570762876148993608410245807623385527268242927401672031581235807633537739830181005829145318260158401621390698710703295706840268952514440975879136232739126507190338454746232303987791151423907218005851552469174122540364606428654543450739621053726774924181394667771456413540031277058580506151330635498377923047548013439120721168198785452643192917836198914926654860156791207786738798479926378606066867202465426178550180897692545842869351138064168472866311103247530401641121122281512644213412729065741527015013707033389547310907027594487926909485976110305341942470646973390870943259522539856103585784801080340801643052456186109667103634348796120256048965488720451282930653549201120828271576510924745167363026186623804405913517753345647673575869207470916592719398969254674480772026149551773286099923097755549778775331881093850357749684752266359284305044932678220605160857726156938985331059381328515235844358672268551173980549498722745291658128323516851298438707559318954602570279198779838941825619562825554268558473233575768926313132607955034886346984363509564828000774219852283152696288213938228332525985973335854608464039662076475169729874149458746253593713847835411243643316895568602748896952431821073278269053568071207879842456981491498890159132706645299206973114594032182690563253262823167811862931052803602649130675399441340268468960956114200178414002067478867366586486738879229928645940237904454316354459232824807560074814872217643490434739867434946647966936673361518895499280317244942243912525270590151079413992806321216285092270806397826420330952118443193753576959901427641084410310706412345538647750919138470649149526243156725612526159351267989310501985299461565434904432800706216893607477789968670015870686025348833220978740919153463457242985209044109290087736428287143252272491663230564515847031717724721186062348231608522162238420262861679182691336821653111192303484780503307973417453771030576144785773277370659161757422314967015307210608040902050038146278091204204545302600706853481031106979926426491523732837208697075527591263082006461893121343085970951469502208993971971243382963192160981257691660376971373046008380372963418465169011435684764308586682944924461361862599055072959603011493755955973691788498268960593975428769147015018351133988155465165585045144609540132033883942267469614686244703815192109895385093828912485075366239798281761685574044627895098369012846431808589536259334322952771399926649324731349265506397080382119369106026636740737209442032415312978376060868745906183709561426070456607212144938242781176730468101278418898130379776451898489699065199195212164742758984836911961136365527265767419815870462857122649518278986278543622861613893716259038289731441500947333446903133102368922327399501694707854383719706572744119542338399842847821372092594956639928565669744147492805806318745694487237865951130515967724798099935695437291312061222980249539507785956081948039003511418353173748017564983273690684154049086309210758138253723820759272414852538424106207819923748021645017525100521200618943907608995617330140529440698366585147631325877934864876045473870057868868946378726828406487761999851697901018108297579216735654403447174650399165086189323413483839676590589303728054043276329916000303214671807894715181877629258332119465653418226288490909812965316490730321289481818000934156588456619003303562365175297574338272266911246983540432125529994660608520634417896579495852544482163385616720720660114710049454965302864156931701740070115019254009613623255419007383964631233507432310303501010418946349689278880189198172108833852338559386647614438036969063433625625927785648997423980809971353748822633658106790702629306741717203421600462204533759876971434524697712006527692220617009308854346199721175934698805766792829716841438311256234972105596681926914832146401355290708966059613314375814221092407103901947860117153014423559041468321341109618837814909793809498400946438225276518729171267158391493482682273141456769244194489834028623051278765673708320923546815699650033090451986729800051900104657597861526190244128753500102424829020082944152761603406723917821099495688144001485450878606309707236578432228814066836236275211483156297190560215290331175998042450326027703736059259188597868819636400051055224449706733911036881589968366071024157158000541558289315327201855247884948696237928334434000937328813816561233517304709438249946420851746678358960222196341915467345781841195437753150591780646481938925792928126388226917154149451855944749778803732129919862282383818264248378088996794573348228227528271184404573778190375350344065535714823692339072127596461943952609712166263181474400289753061187212611403503848236019429160398193214199565761896455793909511661966701815135943705523704096868671351432195733024048888981813100297291211126275383672568297052180892691692008889865702125685849040636944401826203050920703659634293869990405747052553524893922069887996533945423327737629162894420526491053794042643729509291014588446146933777213182799606366349668157555485959572421048686116693962412620988035386438781887982732982153563477033239229712073635200750442333662787480137579825143448916832674529836325813531262649362748246836000752542970344967487752897990672818671776850075016794622700206213511049150437849911548060184365776441512118924991049074519718475287345917426839113344030307766356423746679363136350965040610956350828713202399607334171731722021818928256067113632447250870783654725300112064487196586008462406419752833716961426812189274115336893201574800121941495508978541726187841021860046715974935894028264002226804136221408186154324901672442573288515499299507516348806579400311672739399145859126004754303806463969008406314052235178263749541646174879946565305103060988810579895854136150176

def slotN (n : Nat) : Nat := (tblN >>> (8 * n)) % 256

def memB (n : Nat) : Bool := (clsN >>> n) % 2 == 1

/-- One ply of depth shift on a stored (shifted) value. -/
def shiftTo (s : Nat) : Nat := if 16 < s then s - 1 else if s < 16 then s + 1 else 16

def mx (a b : Nat) : Nat := if a ≤ b then b else a

def mn (a b : Nat) : Nat := if a ≤ b then a else b

/-- One line of the winner scan over three cell digits: the digit if the
line is complete, else `0`. -/
def lineW3 (a b c : Nat) : Nat := cond (a == 0) 0 (cond ((b == a) && (c == a)) a 0)

def wjoin (a b : Nat) : Nat := cond (a == 0) b a

/-- First-match winner over the 8 lines, on the nine cell digits. -/
def winner9 (c0 c1 c2 c3 c4 c5 c6 c7 c8 : Nat) : Nat :=
  wjoin (lineW3 c0 c1 c2) (wjoin (lineW3 c3 c4 c5) (wjoin (lineW3 c6 c7 c8)
    (wjoin (lineW3 c0 c3 c6) (wjoin (lineW3 c1 c4 c7) (wjoin (lineW3 c2 c5 c8)
      (wjoin (lineW3 c0 c4 c8) (wjoin (lineW3 c2 c4 c6) 0)))))))

def z1 (c : Nat) : Nat := cond (c == 0) 1 0

def e9 (c0 c1 c2 c3 c4 c5 c6 c7 c8 : Nat) : Nat :=
  z1 c0 + z1 c1 + z1 c2 + z1 c3 + z1 c4 + z1 c5 + z1 c6 + z1 c7 + z1 c8

/-- `calculateWinner` on codes: `0` none, `1` for `X`, `2` for `O`. -/
def winnerN (n : Nat) : Nat :=
  winner9 (n / 1 % 3) (n / 3 % 3) (n / 9 % 3) (n / 27 % 3) (n / 81 % 3) (n / 243 % 3) (n / 729 % 3) (n / 2187 % 3) (n / 6561 % 3)

/-- The number of empty cells of a code. -/
def eN (n : Nat) : Nat :=
  e9 (n / 1 % 3) (n / 3 % 3) (n / 9 % 3) (n / 27 % 3) (n / 81 % 3) (n / 243 % 3) (n / 729 % 3) (n / 2187 % 3) (n / 6561 % 3)

def cc (c i : Nat) (t : List Nat) : List Nat := cond (c == 0) (i :: t) t

/-- `emptyIndices` on codes. -/
def childIdxN (n : Nat) : List Nat :=
  cc (n / 1 % 3) 0 (cc (n / 3 % 3) 1 (cc (n / 9 % 3) 2 (cc (n / 27 % 3) 3 (cc (n / 81 % 3) 4 (cc (n / 243 % 3) 5 (cc (n / 729 % 3) 6 (cc (n / 2187 % 3) 7 (cc (n / 6561 % 3) 8 ([])))))))))

/-- The maximizing side of the stored recurrence: fold of the shifted `O`
children values. -/
def maxON (n : Nat) : Nat :=
  (childIdxN n).foldl (fun a i => mx a (shiftTo (slotN (n + 2 * p3 i)))) 0

/-- The minimizing side: fold of the shifted `X` children values. -/
def minXN (n : Nat) : Nat :=
  (childIdxN n).foldl (fun a i => mn a (shiftTo (slotN (n + 1 * p3 i)))) 31

def memON (n : Nat) : Bool :=
  (childIdxN n).all (fun i => memB (n + 2 * p3 i))

def memXN (n : Nat) : Bool :=
  (childIdxN n).all (fun i => memB (n + 1 * p3 i))

def forceNat {α : Type} (n : Nat) (f : Nat → α) : α :=
  match n with
  | 0 => f 0
  | k + 1 => f (k + 1)

/-- One table entry is consistent with the minimax recurrence. -/
def checkEntry (n : Nat) : Bool :=
  forceNat (winnerN n) fun w =>
  cond (w == 2) (slotN n == 26)
  (cond (w == 1) (slotN n == 6)
  (forceNat (eN n) fun e =>
  cond (e == 0) (slotN n == 16)
  (cond (e % 2 == 0)
    ((slotN n == maxON n) && memON n)
    ((slotN n == minXN n) && memXN n))))

def checkN (n : Nat) : Bool := cond (memB n) (checkEntry n) true

def loopC (a : Nat) : Nat → Bool
  | 0 => true
  | c + 1 => checkN (243 * a + c) && loopC a c

def loopA : Nat → Bool
  | 0 => true
  | a + 1 => loopC a 243 && loopA a

/-- Every covered code's entry is consistent. -/
def mainCheck : Bool := loopA 81

/-- The argmax loop of `makeHardMove`, with the children scores read from
the table (stored scores are the true scores shifted up by 16). -/
def hardFoldN (n : Nat) : List Nat → Nat × Int → Nat × Int
  | [], acc => acc
  | i :: rest, acc =>
    let score := slotN (n + 2 * p3 i)
    if acc.1 < score then hardFoldN n rest (score, (i : Int)) else hardFoldN n rest acc

def bestMoveN (n : Nat) : Int := (hardFoldN n (childIdxN n) (0, -1)).2

/-- The no-loss walk: player nodes branch over every empty cell, computer
nodes follow the opening book or the table-resolved `makeHardMove`. -/
def noLossN : Nat → Nat → Bool → Bool
  | 0, n, _ => winnerN n != 1
  | fuel + 1, n, turn =>
    forceNat (winnerN n) fun w =>
    forceNat (eN n) fun e =>
    cond (w == 1) false
    (cond ((w != 0) || (e == 0)) true
    (cond turn
      ((childIdxN n).all fun i => noLossN fuel (n + 1 * p3 i) false)
      (cond ((e == 8) && (n / 81 % 3 == 1))
        (noLossN fuel (n + 2 * 1) true && noLossN fuel (n + 2 * 9) true &&
          noLossN fuel (n + 2 * 729) true && noLossN fuel (n + 2 * 6561) true)
        (memON n && noLossN fuel (n + 2 * p3 (bestMoveN n).toNat) true))))

/-- Winner codes of `calculateWinner` results. -/
def playerCode : Option (Player × (Nat × Nat × Nat)) → Nat
  | none => 0
  | some (X, _) => 1
  | some (O, _) => 2

/-- The depth shift: a value of `±(10 - k)` seen `d` plies later is
`±(10 - k - d)`. -/
def dShift (d : Nat) (v : Int) : Int :=
  if 0 < v then v - d else if v < 0 then v + d else 0

/-- `v` is zero or at distance more than `d` from zero, so `dShift d`
cannot cross zero on it. -/
def GapOK (d : Nat) (v : Int) : Prop :=
  v = 0 ∨ (d : Int) + 1 ≤ v ∨ v ≤ -((d : Int) + 1)

/-- Hard-mode games: the player clicks any empty cell of a live board, the
computer always answers with `makeHardMove` (any random draw `r`). -/
inductive HardGame : Board → Bool → Prop where
  | start : HardGame (List.replicate 9 none) true
  | playerMove : ∀ {b : Board} (i : Nat), HardGame b true →
      calculateWinner b = none → isFull b = false → i < 9 → cellAt b i = none →
      HardGame (b.set i (some X)) false
  | computerMove : ∀ {b : Board} (r : Nat), HardGame b false →
      calculateWinner b = none → isFull b = false →
      HardGame (b.set (makeHardMove b r).toNat (some O)) true

/-! ## Code/board bridges -/

theorem cval_lt (v : SquareValue) : cval v < 3 := by
  rcases v with _ | p
  · decide
  · cases p <;> decide

theorem cval_beq_zero (v : SquareValue) : (cval v == 0) = decide (v = none) := by
  rcases v with _ | p
  · rfl
  · cases p <;> rfl

theorem cval_beq_some (v : SquareValue) (p : Player) :
    (cval v == cval (some p)) = decide (v = some p) := by
  rcases v with _ | q
  · cases p <;> rfl
  · cases q <;> cases p <;> rfl

theorem cval_beq_one (v : SquareValue) : (cval v == 1) = decide (v = some X) := by
  rcases v with _ | q
  · rfl
  · cases q <;> rfl

theorem nat_beq_eq_decide (a b : Nat) : (a == b) = decide (a = b) := by
  by_cases h : a = b <;> simp [h]

theorem encode_lt (b : Board) : encode b < p3 b.length := by
  induction b with
  | nil => decide
  | cons c rest ih =>
    have := cval_lt c
    simp only [encode, List.length_cons, p3]
    omega

theorem cellN_encode {b : Board} {i : Nat} (hi : i < b.length) :
    cellN (encode b) i = cval (cellAt b i) := by
  induction b generalizing i with
  | nil => simp at hi
  | cons c rest ih =>
    cases i with
    | zero =>
      show (cval c + 3 * encode rest) / p3 0 % 3 = cval (cellAt (c :: rest) 0)
      have h1 : (cval c + 3 * encode rest) % 3 = cval c := by
        rw [Nat.add_mul_mod_self_left, Nat.mod_eq_of_lt (cval_lt c)]
      simpa [p3, cellAt] using h1
    | succ j =>
      have hj : j < rest.length := by
        simp only [List.length_cons] at hi; omega
      have h2 : (cval c + 3 * encode rest) / 3 = encode rest := by
        rw [Nat.add_mul_div_left _ _ (by norm_num : 0 < 3),
          Nat.div_eq_of_lt (cval_lt c), Nat.zero_add]
      show (cval c + 3 * encode rest) / p3 (j + 1) % 3 = cval (cellAt (c :: rest) (j + 1))
      have h3 : cellAt (c :: rest) (j + 1) = cellAt rest j := by simp [cellAt]
      rw [p3, ← Nat.div_div_eq_div_mul, h2, h3]
      exact ih hj

theorem encode_set {b : Board} {i : Nat} {p : Player}
    (hi : i < b.length) (hc : cellAt b i = none) :
    encode (b.set i (some p)) = encode b + cval (some p) * p3 i := by
  induction b generalizing i with
  | nil => simp at hi
  | cons c rest ih =>
    cases i with
    | zero =>
      have hc0 : c = none := by simpa [cellAt] using hc
      subst hc0
      show cval (some p) + 3 * encode rest =
        (cval none + 3 * encode rest) + cval (some p) * p3 0
      have h0 : cval none = 0 := rfl
      have h1 : p3 0 = 1 := rfl
      rw [h0, h1]
      ring
    | succ j =>
      have hj : j < rest.length := by
        simp only [List.length_cons] at hi; omega
      have hcj : cellAt rest j = none := by simpa [cellAt] using hc
      show cval c + 3 * encode (rest.set j (some p)) =
        (cval c + 3 * encode rest) + cval (some p) * p3 (j + 1)
      rw [ih hj hcj, p3]
      ring

theorem wjoin_step {b : Board} (x y z : Nat) (rest : List (Nat × Nat × Nat)) :
    wjoin (lineW3 (cval (cellAt b x)) (cval (cellAt b y)) (cval (cellAt b z)))
      (playerCode (winnerAux b rest)) = playerCode (winnerAux b ((x, y, z) :: rest)) := by
  cases hcx : cellAt b x with
  | none =>
    simp [lineW3, wjoin, winnerAux, hcx, cval]
  | some p =>
    have hcv : (cval (some p) == 0) = false := by cases p <;> rfl
    by_cases hyz : cellAt b y = some p ∧ cellAt b z = some p
    · have h1 : (cval (cellAt b y) == cval (some p)) = true := by
        rw [cval_beq_some]; exact decide_eq_true hyz.1
      have h2 : (cval (cellAt b z) == cval (some p)) = true := by
        rw [cval_beq_some]; exact decide_eq_true hyz.2
      simp only [winnerAux, hcx, if_pos hyz, lineW3, hcv, cond_false, h1, h2,
        Bool.and_self, cond_true, wjoin]
      cases p <;> rfl
    · have h3 : ((cval (cellAt b y) == cval (some p)) &&
          (cval (cellAt b z) == cval (some p))) = false := by
        rw [cval_beq_some, cval_beq_some]
        by_cases hy : cellAt b y = some p
        · have hz : ¬ cellAt b z = some p := fun hz => hyz ⟨hy, hz⟩
          simp [hy, hz]
        · simp [hy]
      simp only [winnerAux, hcx, if_neg hyz, lineW3, hcv, cond_false, h3, wjoin]
      rfl

theorem winnerN_encode {b : Board} (hb : b.length = 9) :
    winnerN (encode b) = playerCode (calculateWinner b) := by
  have hcell : ∀ i, i < 9 → cellN (encode b) i = cval (cellAt b i) := fun i hi =>
    cellN_encode (by omega)
  have d0 : encode b / 1 % 3 = cval (cellAt b 0) := hcell 0 (by omega)
  have d1 : encode b / 3 % 3 = cval (cellAt b 1) := hcell 1 (by omega)
  have d2 : encode b / 9 % 3 = cval (cellAt b 2) := hcell 2 (by omega)
  have d3 : encode b / 27 % 3 = cval (cellAt b 3) := hcell 3 (by omega)
  have d4 : encode b / 81 % 3 = cval (cellAt b 4) := hcell 4 (by omega)
  have d5 : encode b / 243 % 3 = cval (cellAt b 5) := hcell 5 (by omega)
  have d6 : encode b / 729 % 3 = cval (cellAt b 6) := hcell 6 (by omega)
  have d7 : encode b / 2187 % 3 = cval (cellAt b 7) := hcell 7 (by omega)
  have d8 : encode b / 6561 % 3 = cval (cellAt b 8) := hcell 8 (by omega)
  show winner9 (encode b / 1 % 3) (encode b / 3 % 3) (encode b / 9 % 3)
      (encode b / 27 % 3) (encode b / 81 % 3) (encode b / 243 % 3)
      (encode b / 729 % 3) (encode b / 2187 % 3) (encode b / 6561 % 3) =
    playerCode (calculateWinner b)
  rw [d0, d1, d2, d3, d4, d5, d6, d7, d8]
  show wjoin (lineW3 (cval (cellAt b 0)) (cval (cellAt b 1)) (cval (cellAt b 2)))
      (wjoin (lineW3 (cval (cellAt b 3)) (cval (cellAt b 4)) (cval (cellAt b 5)))
      (wjoin (lineW3 (cval (cellAt b 6)) (cval (cellAt b 7)) (cval (cellAt b 8)))
      (wjoin (lineW3 (cval (cellAt b 0)) (cval (cellAt b 3)) (cval (cellAt b 6)))
      (wjoin (lineW3 (cval (cellAt b 1)) (cval (cellAt b 4)) (cval (cellAt b 7)))
      (wjoin (lineW3 (cval (cellAt b 2)) (cval (cellAt b 5)) (cval (cellAt b 8)))
      (wjoin (lineW3 (cval (cellAt b 0)) (cval (cellAt b 4)) (cval (cellAt b 8)))
      (wjoin (lineW3 (cval (cellAt b 2)) (cval (cellAt b 4)) (cval (cellAt b 6)))
        (playerCode (winnerAux b []))))))))) =
    playerCode (calculateWinner b)
  rw [wjoin_step 2 4 6 [], wjoin_step 0 4 8 [(2, 4, 6)],
    wjoin_step 2 5 8 [(0, 4, 8), (2, 4, 6)],
    wjoin_step 1 4 7 [(2, 5, 8), (0, 4, 8), (2, 4, 6)],
    wjoin_step 0 3 6 [(1, 4, 7), (2, 5, 8), (0, 4, 8), (2, 4, 6)],
    wjoin_step 6 7 8 [(0, 3, 6), (1, 4, 7), (2, 5, 8), (0, 4, 8), (2, 4, 6)],
    wjoin_step 3 4 5 [(6, 7, 8), (0, 3, 6), (1, 4, 7), (2, 5, 8), (0, 4, 8), (2, 4, 6)],
    wjoin_step 0 1 2 [(3, 4, 5), (6, 7, 8), (0, 3, 6), (1, 4, 7), (2, 5, 8), (0, 4, 8), (2, 4, 6)]]
  rfl

theorem cc_cval {v : SquareValue} {i : Nat} {t : List Nat} :
    cc (cval v) i t = if decide (v = none) = true then i :: t else t := by
  rw [cc, cval_beq_zero]
  cases hd : decide (v = none) <;> simp

theorem childIdxN_encode {b : Board} (hb : b.length = 9) :
    childIdxN (encode b) = emptyIndices b := by
  have hcell : ∀ i, i < 9 → cellN (encode b) i = cval (cellAt b i) := fun i hi =>
    cellN_encode (by omega)
  have d0 : encode b / 1 % 3 = cval (cellAt b 0) := hcell 0 (by omega)
  have d1 : encode b / 3 % 3 = cval (cellAt b 1) := hcell 1 (by omega)
  have d2 : encode b / 9 % 3 = cval (cellAt b 2) := hcell 2 (by omega)
  have d3 : encode b / 27 % 3 = cval (cellAt b 3) := hcell 3 (by omega)
  have d4 : encode b / 81 % 3 = cval (cellAt b 4) := hcell 4 (by omega)
  have d5 : encode b / 243 % 3 = cval (cellAt b 5) := hcell 5 (by omega)
  have d6 : encode b / 729 % 3 = cval (cellAt b 6) := hcell 6 (by omega)
  have d7 : encode b / 2187 % 3 = cval (cellAt b 7) := hcell 7 (by omega)
  have d8 : encode b / 6561 % 3 = cval (cellAt b 8) := hcell 8 (by omega)
  have hr : List.range 9 = [0, 1, 2, 3, 4, 5, 6, 7, 8] := rfl
  rw [childIdxN, d0, d1, d2, d3, d4, d5, d6, d7, d8, emptyIndices, hb, hr]
  rw [cc_cval, cc_cval, cc_cval, cc_cval, cc_cval, cc_cval, cc_cval, cc_cval, cc_cval]
  simp only [List.filter_cons, List.filter_nil]

theorem cc_length (c i : Nat) (t : List Nat) : (cc c i t).length = z1 c + t.length := by
  rw [cc, z1]
  cases hc : (c == 0) <;> simp <;> omega

theorem eN_eq_length (n : Nat) : eN n = (childIdxN n).length := by
  show e9 (n / 1 % 3) (n / 3 % 3) (n / 9 % 3) (n / 27 % 3) (n / 81 % 3)
      (n / 243 % 3) (n / 729 % 3) (n / 2187 % 3) (n / 6561 % 3) = _
  rw [childIdxN, cc_length, cc_length, cc_length, cc_length, cc_length,
    cc_length, cc_length, cc_length, cc_length, e9]
  simp only [List.length_nil]
  omega

theorem eN_encode {b : Board} (hb : b.length = 9) :
    eN (encode b) = emptyCellsCount b := by
  rw [eN_eq_length, childIdxN_encode hb, ← emptyCellsCount_eq_length_emptyIndices]

/-! ## Extracting per-entry facts from the checked table -/

theorem forceNat_eq {α : Type} (n : Nat) (f : Nat → α) : forceNat n f = f n := by
  cases n <;> rfl

theorem loopC_spec (a : Nat) :
    ∀ k, loopC a k = true → ∀ c, c < k → checkN (243 * a + c) = true := by
  intro k
  induction k with
  | zero => intro _ c hc; omega
  | succ k ih =>
    intro h c hc
    simp only [loopC, Bool.and_eq_true] at h
    rcases Nat.lt_succ_iff_lt_or_eq.mp hc with h' | rfl
    · exact ih h.2 c h'
    · exact h.1

theorem loopA_spec : ∀ m, loopA m = true → ∀ a, a < m → loopC a 243 = true := by
  intro m
  induction m with
  | zero => intro _ a ha; omega
  | succ m ih =>
    intro h a ha
    simp only [loopA, Bool.and_eq_true] at h
    rcases Nat.lt_succ_iff_lt_or_eq.mp ha with h' | rfl
    · exact ih h.2 a h'
    · exact h.1

theorem checkEntry_of_mem (hmc : mainCheck = true) {n : Nat} (hn : n < 19683)
    (hm : memB n = true) : checkEntry n = true := by
  have h1 := loopA_spec 81 hmc (n / 243) (by omega)
  have h2 := loopC_spec (n / 243) 243 h1 (n % 243) (by omega)
  have h3 : 243 * (n / 243) + n % 243 = n := by omega
  rw [h3] at h2
  rw [checkN, hm, cond_true] at h2
  exact h2

/-- The five shapes the consistency check certifies for a covered code. -/
theorem checkEntry_facts (hmc : mainCheck = true) {b : Board} (hb : b.length = 9)
    (hm : memB (encode b) = true) :
    (∀ u, calculateWinner b = some (X, u) → slotN (encode b) = 6) ∧
    (∀ u, calculateWinner b = some (O, u) → slotN (encode b) = 26) ∧
    (calculateWinner b = none → emptyCellsCount b = 0 → slotN (encode b) = 16) ∧
    (calculateWinner b = none → emptyCellsCount b ≠ 0 → emptyCellsCount b % 2 = 0 →
      slotN (encode b) = maxON (encode b) ∧ memON (encode b) = true) ∧
    (calculateWinner b = none → emptyCellsCount b ≠ 0 → emptyCellsCount b % 2 = 1 →
      slotN (encode b) = minXN (encode b) ∧ memXN (encode b) = true) := by
  have hn : encode b < 19683 := by
    have h := encode_lt b
    rw [hb] at h
    have h9 : p3 9 = 19683 := rfl
    omega
  have hce := checkEntry_of_mem hmc hn hm
  rw [checkEntry, forceNat_eq, winnerN_encode hb] at hce
  refine ⟨?_, ?_, ?_, ?_, ?_⟩
  · intro u hw
    rw [hw] at hce
    rw [show playerCode (some (X, u)) = 1 from rfl,
      show ((1 : Nat) == 2) = false from rfl, cond_false,
      show ((1 : Nat) == 1) = true from rfl, cond_true] at hce
    simpa using hce
  · intro u hw
    rw [hw] at hce
    rw [show playerCode (some (O, u)) = 2 from rfl,
      show ((2 : Nat) == 2) = true from rfl, cond_true] at hce
    simpa using hce
  · intro hw he
    rw [hw] at hce
    rw [show playerCode (none : Option (Player × (Nat × Nat × Nat))) = 0 from rfl,
      show ((0 : Nat) == 2) = false from rfl, cond_false,
      show ((0 : Nat) == 1) = false from rfl, cond_false,
      forceNat_eq, eN_encode hb, he, show ((0 : Nat) == 0) = true from rfl,
      cond_true] at hce
    simpa using hce
  · intro hw hne hpar
    rw [hw] at hce
    rw [show playerCode (none : Option (Player × (Nat × Nat × Nat))) = 0 from rfl,
      show ((0 : Nat) == 2) = false from rfl, cond_false,
      show ((0 : Nat) == 1) = false from rfl, cond_false,
      forceNat_eq, eN_encode hb, nat_beq_eq_decide, decide_eq_false hne, cond_false,
      nat_beq_eq_decide, decide_eq_true hpar, cond_true, Bool.and_eq_true] at hce
    exact ⟨by simpa using hce.1, hce.2⟩
  · intro hw hne hpar
    rw [hw] at hce
    rw [show playerCode (none : Option (Player × (Nat × Nat × Nat))) = 0 from rfl,
      show ((0 : Nat) == 2) = false from rfl, cond_false,
      show ((0 : Nat) == 1) = false from rfl, cond_false,
      forceNat_eq, eN_encode hb, nat_beq_eq_decide, decide_eq_false hne, cond_false,
      nat_beq_eq_decide, decide_eq_false (by omega : ¬ emptyCellsCount b % 2 = 0),
      cond_false, Bool.and_eq_true] at hce
    exact ⟨by simpa using hce.1, hce.2⟩

/-! ## Depth-shift algebra -/

theorem dShift_zero (v : Int) : dShift 0 v = v := by
  unfold dShift
  split_ifs <;> omega

theorem dShift_one_gap {d : Nat} {v : Int} (h : GapOK (d + 1) v) :
    GapOK d (dShift 1 v) := by
  unfold dShift GapOK at *
  push_cast at *
  split_ifs <;> omega

theorem dShift_compose {d : Nat} {v : Int} (h : GapOK (d + 1) v) :
    dShift d (dShift 1 v) = dShift (d + 1) v := by
  unfold dShift GapOK at *
  push_cast at *
  split_ifs <;> omega

theorem dShift_mono {d : Nat} {a b : Int} (ha : GapOK d a) (hb : GapOK d b)
    (hab : a ≤ b) : dShift d a ≤ dShift d b := by
  unfold dShift GapOK at *
  split_ifs <;> omega

theorem dShift_max {d : Nat} {a b : Int} (ha : GapOK d a) (hb : GapOK d b) :
    dShift d (max a b) = max (dShift d a) (dShift d b) := by
  rcases le_total a b with h | h
  · rw [max_eq_right h, max_eq_right (dShift_mono ha hb h)]
  · rw [max_eq_left h, max_eq_left (dShift_mono hb ha h)]

theorem dShift_min {d : Nat} {a b : Int} (ha : GapOK d a) (hb : GapOK d b) :
    dShift d (min a b) = min (dShift d a) (dShift d b) := by
  rcases le_total a b with h | h
  · rw [min_eq_left h, min_eq_left (dShift_mono ha hb h)]
  · rw [min_eq_right h, min_eq_right (dShift_mono hb ha h)]

theorem GapOK_max {d : Nat} {a b : Int} (ha : GapOK d a) (hb : GapOK d b) :
    GapOK d (max a b) := by
  rcases le_total a b with h | h
  · rwa [max_eq_right h]
  · rwa [max_eq_left h]

theorem GapOK_min {d : Nat} {a b : Int} (ha : GapOK d a) (hb : GapOK d b) :
    GapOK d (min a b) := by
  rcases le_total a b with h | h
  · rwa [min_eq_left h]
  · rwa [min_eq_right h]

theorem shiftTo_cast {s : Nat} (h6 : 6 ≤ s) (h26 : s ≤ 26) :
    ((shiftTo s : Nat) : Int) - 16 = dShift 1 ((s : Int) - 16) := by
  unfold shiftTo dShift
  split_ifs <;> push_cast <;> omega

theorem mx_eq (a b : Nat) : mx a b = max a b := by
  rw [mx, Nat.max_def]

theorem mn_eq (a b : Nat) : mn a b = min a b := by
  rw [mn, Nat.min_def]

theorem shiftTo_le {s : Nat} (h26 : s ≤ 26) : shiftTo s ≤ 27 := by
  unfold shiftTo
  split_ifs <;> omega

/-! ## Structure of minimax values: zero or far from zero -/

theorem foldl_max_eq_init_or_mem : ∀ (l : List Int) (a : Int),
    l.foldl max a = a ∨ l.foldl max a ∈ l := by
  intro l
  induction l with
  | nil => intro a; exact Or.inl rfl
  | cons x xs ih =>
    intro a
    simp only [List.foldl_cons]
    rcases ih (max a x) with h | h
    · rw [h]
      rcases le_total a x with h' | h'
      · rw [max_eq_right h']
        exact Or.inr (List.mem_cons_self _ _)
      · rw [max_eq_left h']
        exact Or.inl rfl
    · exact Or.inr (List.mem_cons_of_mem _ h)

theorem foldl_min_eq_init_or_mem : ∀ (l : List Int) (a : Int),
    l.foldl min a = a ∨ l.foldl min a ∈ l := by
  intro l
  induction l with
  | nil => intro a; exact Or.inl rfl
  | cons x xs ih =>
    intro a
    simp only [List.foldl_cons]
    rcases ih (min a x) with h | h
    · rw [h]
      rcases le_total a x with h' | h'
      · rw [min_eq_left h']
        exact Or.inl rfl
      · rw [min_eq_right h']
        exact Or.inr (List.mem_cons_self _ _)
    · exact Or.inr (List.mem_cons_of_mem _ h)

theorem minimax_gap : ∀ (fuel : Nat) (b : Board) (d : Nat) (m : Bool),
    emptyCellsCount b ≤ fuel → d + emptyCellsCount b ≤ 9 →
    minimax fuel b d m = 0 ∨
      10 - (d : Int) - emptyCellsCount b ≤ minimax fuel b d m ∨
      minimax fuel b d m ≤ (d : Int) + emptyCellsCount b - 10 := by
  intro fuel
  induction fuel with
  | zero =>
    intro b d m hf hd
    exact Or.inl rfl
  | succ fuel ih =>
    intro b d m hf hd
    cases hw : calculateWinner b with
    | some q =>
      obtain ⟨p, u⟩ := q
      rw [minimax_eq_of_winner hw]
      by_cases hp : p = O
      · rw [if_pos hp]
        right; left
        omega
      · rw [if_neg hp]
        right; right
        omega
    | none =>
      rw [minimax_eq_of_none hw]
      by_cases hfull : isFull b = true
      · rw [if_pos hfull]
        exact Or.inl rfl
      · rw [if_neg hfull]
        have hepos : emptyCellsCount b ≠ 0 := fun h0 =>
          hfull (emptyCellsCount_zero_iff.mp h0)
        cases m with
        | true =>
          rw [if_pos rfl]
          rcases foldl_max_eq_init_or_mem
              ((emptyIndices b).map
                (fun i => minimax fuel (b.set i (some O)) (d + 1) false)) (-1000) with
            h | h
          · rw [h]; right; right; omega
          · rcases List.mem_map.mp h with ⟨i, hi, hmi⟩
            obtain ⟨hil, hic⟩ := mem_emptyIndices.mp hi
            have hs := emptyCellsCount_set (p := O) hil hic
            have := ih (b.set i (some O)) (d + 1) false (by omega) (by omega)
            rw [hmi] at this
            rcases this with h0 | hge | hle
            · exact Or.inl h0
            · right; left; push_cast at *; omega
            · right; right; push_cast at *; omega
        | false =>
          rw [if_neg (by simp)]
          rcases foldl_min_eq_init_or_mem
              ((emptyIndices b).map
                (fun i => minimax fuel (b.set i (some X)) (d + 1) true)) 1000 with
            h | h
          · rw [h]; right; left; omega
          · rcases List.mem_map.mp h with ⟨i, hi, hmi⟩
            obtain ⟨hil, hic⟩ := mem_emptyIndices.mp hi
            have hs := emptyCellsCount_set (p := X) hil hic
            have := ih (b.set i (some X)) (d + 1) true (by omega) (by omega)
            rw [hmi] at this
            rcases this with h0 | hge | hle
            · exact Or.inl h0
            · right; left; push_cast at *; omega
            · right; right; push_cast at *; omega

/-! ## The fold over children: minimax values against shifted table values -/

theorem foldBridgeMax (d : Nat) (g : Nat → Int) (s : Nat → Nat) :
    ∀ (l : List Nat) (aI : Int) (aN : Nat),
      (∀ i ∈ l, g i = dShift (d + 1) ((s i : Int) - 16) ∧ 6 ≤ s i ∧ s i ≤ 26 ∧
        GapOK (d + 1) ((s i : Int) - 16) ∧ (d : Int) + 1 - 10 ≤ g i) →
      ((aI = -1000 ∧ aN = 0) ∨
        (aI = dShift d ((aN : Int) - 16) ∧ GapOK d ((aN : Int) - 16))) →
      ((l.map g).foldl max aI = -1000 ∧
          l.foldl (fun a i => mx a (shiftTo (s i))) aN = 0) ∨
        ((l.map g).foldl max aI =
            dShift d (((l.foldl (fun a i => mx a (shiftTo (s i))) aN : Nat) : Int) - 16) ∧
          GapOK d (((l.foldl (fun a i => mx a (shiftTo (s i))) aN : Nat) : Int) - 16)) := by
  intro l
  induction l with
  | nil =>
    intro aI aN hp hacc
    simp only [List.map_nil, List.foldl_nil]
    rcases hacc with ⟨h1, h2⟩ | ⟨h1, h2⟩
    · exact Or.inl ⟨h1, h2⟩
    · exact Or.inr ⟨h1, h2⟩
  | cons i rest ih =>
    intro aI aN hp hacc
    obtain ⟨hgi, h6, h26, hgap, hlow⟩ := hp i (List.mem_cons_self _ _)
    have hsh : ((shiftTo (s i) : Nat) : Int) - 16 = dShift 1 ((s i : Int) - 16) :=
      shiftTo_cast h6 h26
    have hgap' : GapOK d (((shiftTo (s i) : Nat) : Int) - 16) := by
      rw [hsh]; exact dShift_one_gap hgap
    have hgi' : g i = dShift d (((shiftTo (s i) : Nat) : Int) - 16) := by
      rw [hsh, dShift_compose hgap]; exact hgi
    simp only [List.map_cons, List.foldl_cons]
    have hp' : ∀ j ∈ rest, g j = dShift (d + 1) ((s j : Int) - 16) ∧ 6 ≤ s j ∧
        s j ≤ 26 ∧ GapOK (d + 1) ((s j : Int) - 16) ∧ (d : Int) + 1 - 10 ≤ g j :=
      fun j hj => hp j (List.mem_cons_of_mem _ hj)
    rcases hacc with ⟨rfl, rfl⟩ | ⟨hrel, hga⟩
    · have h1 : max (-1000) (g i) = g i := max_eq_right (by omega)
      have h2 : mx 0 (shiftTo (s i)) = shiftTo (s i) := by
        rw [mx_eq]; exact max_eq_right (Nat.zero_le _)
      rw [h1, h2]
      exact ih _ _ hp' (Or.inr ⟨hgi', hgap'⟩)
    · have hmx : mx aN (shiftTo (s i)) = max aN (shiftTo (s i)) := mx_eq _ _
      have hcast : ((max aN (shiftTo (s i)) : Nat) : Int) - 16 =
          max ((aN : Int) - 16) (((shiftTo (s i) : Nat) : Int) - 16) := by
        rw [Nat.cast_max, max_sub_sub_right]
      have hnew : max aI (g i) =
          dShift d (((mx aN (shiftTo (s i)) : Nat) : Int) - 16) := by
        rw [hrel, hgi', hmx, hcast, dShift_max hga hgap']
      have hgnew : GapOK d (((mx aN (shiftTo (s i)) : Nat) : Int) - 16) := by
        rw [hmx, hcast]; exact GapOK_max hga hgap'
      exact ih _ _ hp' (Or.inr ⟨hnew, hgnew⟩)

theorem foldBridgeMin (d : Nat) (g : Nat → Int) (s : Nat → Nat) :
    ∀ (l : List Nat) (aI : Int) (aN : Nat),
      (∀ i ∈ l, g i = dShift (d + 1) ((s i : Int) - 16) ∧ 6 ≤ s i ∧ s i ≤ 26 ∧
        GapOK (d + 1) ((s i : Int) - 16) ∧ g i ≤ 10 - ((d : Int) + 1)) →
      ((aI = 1000 ∧ aN = 31) ∨
        (aI = dShift d ((aN : Int) - 16) ∧ GapOK d ((aN : Int) - 16))) →
      ((l.map g).foldl min aI = 1000 ∧
          l.foldl (fun a i => mn a (shiftTo (s i))) aN = 31) ∨
        ((l.map g).foldl min aI =
            dShift d (((l.foldl (fun a i => mn a (shiftTo (s i))) aN : Nat) : Int) - 16) ∧
          GapOK d (((l.foldl (fun a i => mn a (shiftTo (s i))) aN : Nat) : Int) - 16)) := by
  intro l
  induction l with
  | nil =>
    intro aI aN hp hacc
    simp only [List.map_nil, List.foldl_nil]
    rcases hacc with ⟨h1, h2⟩ | ⟨h1, h2⟩
    · exact Or.inl ⟨h1, h2⟩
    · exact Or.inr ⟨h1, h2⟩
  | cons i rest ih =>
    intro aI aN hp hacc
    obtain ⟨hgi, h6, h26, hgap, hupp⟩ := hp i (List.mem_cons_self _ _)
    have hsh : ((shiftTo (s i) : Nat) : Int) - 16 = dShift 1 ((s i : Int) - 16) :=
      shiftTo_cast h6 h26
    have hgap' : GapOK d (((shiftTo (s i) : Nat) : Int) - 16) := by
      rw [hsh]; exact dShift_one_gap hgap
    have hgi' : g i = dShift d (((shiftTo (s i) : Nat) : Int) - 16) := by
      rw [hsh, dShift_compose hgap]; exact hgi
    simp only [List.map_cons, List.foldl_cons]
    have hp' : ∀ j ∈ rest, g j = dShift (d + 1) ((s j : Int) - 16) ∧ 6 ≤ s j ∧
        s j ≤ 26 ∧ GapOK (d + 1) ((s j : Int) - 16) ∧ g j ≤ 10 - ((d : Int) + 1) :=
      fun j hj => hp j (List.mem_cons_of_mem _ hj)
    rcases hacc with ⟨rfl, rfl⟩ | ⟨hrel, hga⟩
    · have h1 : min 1000 (g i) = g i := min_eq_right (by omega)
      have h2 : mn 31 (shiftTo (s i)) = shiftTo (s i) := by
        rw [mn_eq]
        exact min_eq_right (le_trans (shiftTo_le h26) (by omega))
      rw [h1, h2]
      exact ih _ _ hp' (Or.inr ⟨hgi', hgap'⟩)
    · have hmn : mn aN (shiftTo (s i)) = min aN (shiftTo (s i)) := mn_eq _ _
      have hcast : ((min aN (shiftTo (s i)) : Nat) : Int) - 16 =
          min ((aN : Int) - 16) (((shiftTo (s i) : Nat) : Int) - 16) := by
        rw [Nat.cast_min, min_sub_sub_right]
      have hnew : min aI (g i) =
          dShift d (((mn aN (shiftTo (s i)) : Nat) : Int) - 16) := by
        rw [hrel, hgi', hmn, hcast, dShift_min hga hgap']
      have hgnew : GapOK d (((mn aN (shiftTo (s i)) : Nat) : Int) - 16) := by
        rw [hmn, hcast]; exact GapOK_min hga hgap'
      exact ih _ _ hp' (Or.inr ⟨hnew, hgnew⟩)

/-- The stored table value at a covered code is the minimax value of the
board, at every depth, for the side determined by the empty-cell parity. -/
theorem table_correct (hmc : mainCheck = true) :
    ∀ (e : Nat) (b : Board), b.length = 9 → emptyCellsCount b = e →
      memB (encode b) = true →
      ∀ (fuel d : Nat), e < fuel → d + e ≤ 9 →
      minimax fuel b d (decide (e % 2 = 0)) =
        dShift d ((slotN (encode b) : Int) - 16) := by
  intro e
  induction e with
  | zero =>
    intro b hb he hm fuel d hfe hd
    obtain ⟨f, rfl⟩ : ∃ f, fuel = f + 1 := ⟨fuel - 1, by omega⟩
    obtain ⟨hX, hO, hD, -, -⟩ := checkEntry_facts hmc hb hm
    cases hw : calculateWinner b with
    | some q =>
      obtain ⟨p, u⟩ := q
      rw [minimax_eq_of_winner hw]
      cases p
      · rw [if_neg (by decide), hX u hw,
          show ((6 : Nat) : Int) - 16 = -10 by norm_num]
        simp only [dShift]
        rw [if_neg (by norm_num), if_pos (by norm_num)]
        omega
      · rw [if_pos rfl, hO u hw, show ((26 : Nat) : Int) - 16 = 10 by norm_num]
        simp only [dShift]
        rw [if_pos (by norm_num)]
    | none =>
      have hfull : isFull b = true := emptyCellsCount_zero_iff.mp he
      rw [minimax_eq_of_none hw, if_pos hfull, hD hw he,
        show ((16 : Nat) : Int) - 16 = 0 by norm_num]
      simp only [dShift]
      norm_num
  | succ e' ih =>
    intro b hb he hm fuel d hfe hd
    obtain ⟨f, rfl⟩ : ∃ f, fuel = f + 1 := ⟨fuel - 1, by omega⟩
    obtain ⟨hX, hO, -, hEv, hOd⟩ := checkEntry_facts hmc hb hm
    cases hw : calculateWinner b with
    | some q =>
      obtain ⟨p, u⟩ := q
      rw [minimax_eq_of_winner hw]
      cases p
      · rw [if_neg (by decide), hX u hw,
          show ((6 : Nat) : Int) - 16 = -10 by norm_num]
        simp only [dShift]
        rw [if_neg (by norm_num), if_pos (by norm_num)]
        omega
      · rw [if_pos rfl, hO u hw, show ((26 : Nat) : Int) - 16 = 10 by norm_num]
        simp only [dShift]
        rw [if_pos (by norm_num)]
    | none =>
      have hfull : isFull b = false := by
        by_cases h : isFull b = true
        · exact absurd (emptyCellsCount_zero_iff.mpr h) (by omega)
        · rw [Bool.not_eq_true] at h
          exact h
      rw [minimax_eq_of_none hw, if_neg (by simp [hfull])]
      by_cases hpar : (e' + 1) % 2 = 0
      · rw [decide_eq_true hpar, if_pos rfl]
        obtain ⟨hslot, hmem⟩ := hEv hw (by omega) (by rw [he]; exact hpar)
        rw [maxON, childIdxN_encode hb] at hslot
        rw [memON, childIdxN_encode hb, List.all_eq_true] at hmem
        have hpt : ∀ i ∈ emptyIndices b,
            minimax f (b.set i (some O)) (d + 1) false =
              dShift (d + 1) ((slotN (encode b + 2 * p3 i) : Int) - 16) ∧
            6 ≤ slotN (encode b + 2 * p3 i) ∧ slotN (encode b + 2 * p3 i) ≤ 26 ∧
            GapOK (d + 1) ((slotN (encode b + 2 * p3 i) : Int) - 16) ∧
            (d : Int) + 1 - 10 ≤ minimax f (b.set i (some O)) (d + 1) false := by
          intro i hi
          obtain ⟨hil, hic⟩ := mem_emptyIndices.mp hi
          have hes : emptyCellsCount (b.set i (some O)) = e' := by
            have := emptyCellsCount_set (p := O) hil hic; omega
          have hlen' : (b.set i (some O)).length = 9 := by rw [length_set, hb]
          have hset2 : encode (b.set i (some O)) = encode b + 2 * p3 i := by
            simpa [cval] using encode_set (p := O) hil hic
          have hmsc : memB (encode (b.set i (some O))) = true := by
            rw [hset2]
            exact hmem i hi
          have hparc : (decide (e' % 2 = 0)) = false := decide_eq_false (by omega)
          have hIH1 := ih (b.set i (some O)) hlen' hes hmsc f (d + 1)
            (by omega) (by omega)
          have hIH0 := ih (b.set i (some O)) hlen' hes hmsc (e' + 1) 0
            (by omega) (by omega)
          rw [hparc] at hIH1 hIH0
          rw [dShift_zero] at hIH0
          have hbnd := minimax_bounds (e' + 1) (b.set i (some O)) 0 false
            (by omega) (by omega)
          have hgap := minimax_gap (e' + 1) (b.set i (some O)) 0 false
            (by omega) (by omega)
          rw [hIH0] at hbnd hgap
          rw [hes] at hgap
          rw [hset2] at hbnd hgap hIH1
          have hlow := (minimax_bounds f (b.set i (some O)) (d + 1) false
            (by omega) (by omega)).1
          refine ⟨hIH1, by omega, by omega, ?_, by push_cast at hlow ⊢; omega⟩
          rcases hgap with h | h | h
          · exact Or.inl (by omega)
          · right; left; push_cast at h ⊢; omega
          · right; right; push_cast at h ⊢; omega
        have hfb := foldBridgeMax d
          (fun i => minimax f (b.set i (some O)) (d + 1) false)
          (fun i => slotN (encode b + 2 * p3 i)) (emptyIndices b) (-1000) 0 hpt
          (Or.inl ⟨rfl, rfl⟩)
        rcases hfb with ⟨hfi, -⟩ | ⟨hfi, -⟩
        · exfalso
          have hne : emptyIndices b ≠ [] := by
            intro h0
            have hlen0 := emptyCellsCount_eq_length_emptyIndices b
            rw [h0] at hlen0
            simp at hlen0
            omega
          obtain ⟨i0, hi0⟩ := List.exists_mem_of_ne_nil _ hne
          have hmm := le_foldl_max (a := (-1000 : Int))
            (List.mem_map_of_mem (fun i => minimax f (b.set i (some O)) (d + 1) false) hi0)
          rw [hfi] at hmm
          have hmm2 : minimax f (b.set i0 (some O)) (d + 1) false ≤ (-1000 : Int) := hmm
          have := (hpt i0 hi0).2.2.2.2
          omega
        · rw [← hslot] at hfi
          exact hfi
      · have hpar1 : (e' + 1) % 2 = 1 := by omega
        rw [decide_eq_false hpar, if_neg (by simp)]
        obtain ⟨hslot, hmem⟩ := hOd hw (by omega) (by rw [he]; exact hpar1)
        rw [minXN, childIdxN_encode hb] at hslot
        rw [memXN, childIdxN_encode hb, List.all_eq_true] at hmem
        have hpt : ∀ i ∈ emptyIndices b,
            minimax f (b.set i (some X)) (d + 1) true =
              dShift (d + 1) ((slotN (encode b + 1 * p3 i) : Int) - 16) ∧
            6 ≤ slotN (encode b + 1 * p3 i) ∧ slotN (encode b + 1 * p3 i) ≤ 26 ∧
            GapOK (d + 1) ((slotN (encode b + 1 * p3 i) : Int) - 16) ∧
            minimax f (b.set i (some X)) (d + 1) true ≤ 10 - ((d : Int) + 1) := by
          intro i hi
          obtain ⟨hil, hic⟩ := mem_emptyIndices.mp hi
          have hes : emptyCellsCount (b.set i (some X)) = e' := by
            have := emptyCellsCount_set (p := X) hil hic; omega
          have hlen' : (b.set i (some X)).length = 9 := by rw [length_set, hb]
          have hset1 : encode (b.set i (some X)) = encode b + 1 * p3 i := by
            simpa [cval] using encode_set (p := X) hil hic
          have hmsc : memB (encode (b.set i (some X))) = true := by
            rw [hset1]
            exact hmem i hi
          have hparc : (decide (e' % 2 = 0)) = true := decide_eq_true (by omega)
          have hIH1 := ih (b.set i (some X)) hlen' hes hmsc f (d + 1)
            (by omega) (by omega)
          have hIH0 := ih (b.set i (some X)) hlen' hes hmsc (e' + 1) 0
            (by omega) (by omega)
          rw [hparc] at hIH1 hIH0
          rw [dShift_zero] at hIH0
          have hbnd := minimax_bounds (e' + 1) (b.set i (some X)) 0 true
            (by omega) (by omega)
          have hgap := minimax_gap (e' + 1) (b.set i (some X)) 0 true
            (by omega) (by omega)
          rw [hIH0] at hbnd hgap
          rw [hes] at hgap
          rw [hset1] at hbnd hgap hIH1
          have hupp := (minimax_bounds f (b.set i (some X)) (d + 1) true
            (by omega) (by omega)).2
          refine ⟨hIH1, by omega, by omega, ?_, by push_cast at hupp ⊢; omega⟩
          rcases hgap with h | h | h
          · exact Or.inl (by omega)
          · right; left; push_cast at h ⊢; omega
          · right; right; push_cast at h ⊢; omega
        have hfb := foldBridgeMin d
          (fun i => minimax f (b.set i (some X)) (d + 1) true)
          (fun i => slotN (encode b + 1 * p3 i)) (emptyIndices b) 1000 31 hpt
          (Or.inl ⟨rfl, rfl⟩)
        rcases hfb with ⟨hfi, -⟩ | ⟨hfi, -⟩
        · exfalso
          have hne : emptyIndices b ≠ [] := by
            intro h0
            have hlen0 := emptyCellsCount_eq_length_emptyIndices b
            rw [h0] at hlen0
            simp at hlen0
            omega
          obtain ⟨i0, hi0⟩ := List.exists_mem_of_ne_nil _ hne
          have hmm := foldl_min_le (a := (1000 : Int))
            (List.mem_map_of_mem (fun i => minimax f (b.set i (some X)) (d + 1) true) hi0)
          rw [hfi] at hmm
          have hmm2 : (1000 : Int) ≤ minimax f (b.set i0 (some X)) (d + 1) true := hmm
          have := (hpt i0 hi0).2.2.2.2
          omega
        · rw [← hslot] at hfi
          exact hfi

/-! ## The table-driven argmax equals the code's argmax -/

theorem hardFoldN_bridge {b : Board} :
    ∀ (l : List Nat) (aN : Nat) (aI : Int) (m : Int),
      (∀ i ∈ l, minimax 9 (b.set i (some O)) 0 false =
          (slotN (encode b + 2 * p3 i) : Int) - 16 ∧
        6 ≤ slotN (encode b + 2 * p3 i) ∧ slotN (encode b + 2 * p3 i) ≤ 26) →
      ((aI = -1000 ∧ aN = 0) ∨ ((aN : Int) = aI + 16 ∧ 6 ≤ aN)) →
      (hardFoldN (encode b) l (aN, m)).2 = (hardFold b l (aI, m)).2 := by
  intro l
  induction l with
  | nil =>
    intro aN aI m hp hacc
    rfl
  | cons i rest ih =>
    intro aN aI m hp hacc
    obtain ⟨heq, h6, h26⟩ := hp i (List.mem_cons_self _ _)
    have hp' : ∀ j ∈ rest, minimax 9 (b.set j (some O)) 0 false =
        (slotN (encode b + 2 * p3 j) : Int) - 16 ∧
        6 ≤ slotN (encode b + 2 * p3 j) ∧ slotN (encode b + 2 * p3 j) ≤ 26 :=
      fun j hj => hp j (List.mem_cons_of_mem _ hj)
    simp only [hardFoldN, hardFold]
    have hcondIff : aN < slotN (encode b + 2 * p3 i) ↔
        minimax 9 (b.set i (some O)) 0 false > aI := by
      rw [heq]
      rcases hacc with ⟨rfl, rfl⟩ | ⟨hrel, h6a⟩
      · constructor
        · intro h
          omega
        · intro h
          omega
      · constructor
        · intro h
          omega
        · intro h
          omega
    by_cases hc : aN < slotN (encode b + 2 * p3 i)
    · rw [if_pos hc, if_pos (hcondIff.mp hc)]
      exact ih _ _ _ hp' (Or.inr ⟨by rw [heq]; ring, h6⟩)
    · rw [if_neg hc, if_neg (fun h => hc (hcondIff.mpr h))]
      exact ih _ _ _ hp' hacc

theorem bestMoveN_eq_makeHardMove (hmc : mainCheck = true) {b : Board}
    (hb : b.length = 9)
    (hmem : memON (encode b) = true) (hpar : emptyCellsCount b % 2 = 0)
    (hnb : ¬(emptyCellsCount b = 8 ∧ cellAt b 4 = some X)) (r : Nat) :
    bestMoveN (encode b) = makeHardMove b r := by
  have h9 : emptyCellsCount b ≠ 9 := by omega
  rw [makeHardMove, if_neg h9, if_neg hnb, bestMoveN, childIdxN_encode hb]
  rw [memON, childIdxN_encode hb, List.all_eq_true] at hmem
  apply hardFoldN_bridge
  · intro i hi
    obtain ⟨hil, hic⟩ := mem_emptyIndices.mp hi
    have hel : emptyCellsCount b ≤ 9 := by
      have := emptyCellsCount_le_length b
      omega
    have hpos : 0 < emptyCellsCount b := by
      rw [emptyCellsCount_eq_length_emptyIndices]
      exact List.length_pos.mpr (List.ne_nil_of_mem hi)
    obtain ⟨e', he⟩ : ∃ e', emptyCellsCount b = e' + 1 :=
      ⟨emptyCellsCount b - 1, by omega⟩
    have hes : emptyCellsCount (b.set i (some O)) = e' := by
      have := emptyCellsCount_set (p := O) hil hic
      omega
    have hset2 : encode (b.set i (some O)) = encode b + 2 * p3 i := by
      simpa [cval] using encode_set (p := O) hil hic
    have hmsc : memB (encode (b.set i (some O))) = true := by
      rw [hset2]
      exact hmem i hi
    have hparc : decide (e' % 2 = 0) = false := decide_eq_false (by omega)
    have hT := table_correct hmc e' (b.set i (some O)) (by rw [length_set, hb])
      hes hmsc 9 0 (by omega) (by omega)
    rw [hparc, dShift_zero, hset2] at hT
    have hbnd := minimax_bounds 9 (b.set i (some O)) 0 false (by omega) (by omega)
    rw [hT] at hbnd
    exact ⟨hT, by omega, by omega⟩
  · exact Or.inl ⟨rfl, rfl⟩
